import Mathlib

/-!
Shallow embedding of the order-book synchronization engine of
`gdax_async/order_book.py` (classes `Order`, `OrderBook`, `OrderBookManager`).

Modelling conventions:
* Python `Decimal` is embedded as `Rat` (exact arithmetic, decidable equality).
* The `bintrees.RBTree` price maps are embedded as association lists with
  unique keys.  The tree's ordering is only used by `min_key`/`max_key`
  (`get_bid`/`get_ask`), whose values feed logging; for the verified
  properties only key membership matters, so the associative view is faithful.
* Python dicts (`_order_id_to_order`, `_order_id_to_unreflected_order`) are
  embedded as association lists with unique keys.
* A message is a dict with optional fields; `message['x']` on an absent field
  raises `KeyError`.  Numeric string fields are embedded already parsed to
  `Rat` (`Decimal(...)` on a well-formed decimal string); timestamps are kept
  as raw strings, assumed well-formed, since the parsed value only reaches
  logging.
* Raising code is embedded in `Except (PyError × Core) _`: the error carries
  the mutated-so-far state at the raise point, matching Python's in-place
  mutation plus exception propagation.
* In the source, the very same `Order` object is referenced from a ladder
  queue and from `_order_id_to_order` (and, before `open`, from
  `_order_id_to_unreflected_order`); an in-place field assignment through one
  reference is visible through the other.  The embedding makes each such
  mutation explicit by updating every location holding that order id.
* The observer hooks `on_received/on_add/on_remove/on_match/on_change` only
  log, but some of their logging expressions can raise (`get_bid` on an empty
  tree, iterating a `None` level, a loop variable left unbound by an empty
  level); those raise conditions are embedded, the logging itself is dropped.
-/

/- The core `Rat` operations are marked `@[irreducible]`, which blocks
`decide` on concrete book states; the kernel itself reduces them fine.
Restore semireducibility so concrete traces can be settled by `decide`. -/
set_option allowUnsafeReducibility true in
attribute [semireducible] Rat.sub Rat.add Rat.mul Rat.div Rat.blt Rat.inv
  Rat.neg Rat.divInt Rat.normalize Rat.maybeNormalize

namespace GdaxAsync

/-- Side of an order, mirroring the `Side` enum (`BUY = 1`, `SELL = -1`). -/
inductive Side where
  | buy
  | sell
deriving DecidableEq, Repr

/-- Numeric value of the enum member, as in the source. -/
def Side.value : Side → Int
  | .buy => 1
  | .sell => -1

/-- Python's `Side.BUY if message['side'] == 'buy' else Side.SELL`. -/
def parseSide (s : String) : Side :=
  if s = "buy" then Side.buy else Side.sell

/-- The `Order` value object of `order_book.py`.  `time` is kept as the raw
timestamp string (it only feeds logging); `price`, `size` and `funds` are
`None`-able `Decimal`s. -/
structure Order where
  time : Option String
  sequence : Int
  product_id : String
  order_id : String
  order_type : String
  side : Side
  price : Option Rat
  size : Option Rat
  funds : Option Rat
deriving DecidableEq, Repr

/-- A queue of resting orders at one price level (a Python `list`). -/
abbrev Level := List Order

/-- One side of the book: the `RBTree` mapping price to the level list,
embedded as an association list with unique keys. -/
abbrev Ladder := List (Rat × Level)

/-- Generic lookup on an association list; every Python dict and `RBTree` in
the source is embedded through these `assoc` operations. -/
def assocGet {κ ν : Type} [DecidableEq κ] (d : List (κ × ν)) (k : κ) :
    Option ν :=
  (d.find? (fun kv => kv.1 = k)).map (fun kv => kv.2)

/-- Generic store: replace the value at an existing key, otherwise add the
key at the end. -/
def assocInsert {κ ν : Type} [DecidableEq κ] (d : List (κ × ν)) (k : κ)
    (v : ν) : List (κ × ν) :=
  if d.any (fun kv => kv.1 = k) then
    d.map (fun kv => if kv.1 = k then (k, v) else kv)
  else
    d ++ [(k, v)]

/-- Generic deletion of a key. -/
def assocRemove {κ ν : Type} [DecidableEq κ] (d : List (κ × ν)) (k : κ) :
    List (κ × ν) :=
  d.filter (fun kv => kv.1 ≠ k)

/-- Generic in-place overwrite at an existing key: absent keys are left
untouched (used to model mutation of a shared object seen through an alias). -/
def assocAlias {κ ν : Type} [DecidableEq κ] (d : List (κ × ν)) (k : κ)
    (v : ν) : List (κ × ν) :=
  d.map (fun kv => if kv.1 = k then (k, v) else kv)

/-- `tree.get(price)`: `None` when the key is absent. -/
def ladderGet (l : Ladder) (p : Rat) : Option Level :=
  assocGet l p

/-- `tree.insert(price, level)`: replace the value at an existing key,
otherwise add the key. -/
def ladderInsert (l : Ladder) (p : Rat) (q : Level) : Ladder :=
  assocInsert l p q

/-- `tree.remove(price)` (every call site has just checked the key exists). -/
def ladderRemove (l : Ladder) (p : Rat) : Ladder :=
  assocRemove l p

/-- A Python dict keyed by order id, as an association list with unique keys. -/
abbrev OrderDict := List (String × Order)

/-- `d.get(k)`. -/
def dictGet (d : OrderDict) (k : String) : Option Order :=
  assocGet d k

/-- `d[k] = o`: replace at an existing key, otherwise add the key. -/
def dictInsert (d : OrderDict) (k : String) (o : Order) : OrderDict :=
  assocInsert d k o

/-- `del d[k]` (every call site has just checked the key exists). -/
def dictRemove (d : OrderDict) (k : String) : OrderDict :=
  assocRemove d k

/-- In-place mutation of the `Order` object with id `k` seen through the dict
alias: if the dict holds an entry for `k`, that entry now shows the mutated
object; absent keys are untouched. -/
def dictAlias (d : OrderDict) (k : String) (o : Order) : OrderDict :=
  assocAlias d k o

/-- In-place mutation of the `Order` object with id `k` seen through its
ladder alias: every occurrence of the id in the level at price `p` now shows
the mutated object. -/
def ladderAlias (l : Ladder) (p : Option Rat) (k : String) (o : Order) : Ladder :=
  match p with
  | none => l
  | some pr =>
      l.map (fun kv =>
        if kv.1 = pr then
          (kv.1, kv.2.map (fun x => if x.order_id = k then o else x))
        else kv)

/-- One row of a level-3 snapshot: `[price_str, size_str, order_id]`. -/
structure SnapshotRow where
  price : Rat
  size : Rat
  order_id : String
deriving DecidableEq, Repr

/-- A level-3 order book snapshot (`result['data']`). -/
structure Snapshot where
  sequence : Int
  bids : List SnapshotRow
  asks : List SnapshotRow
deriving DecidableEq, Repr

/-- A websocket message: a dict whose fields may be absent.  Numeric string
fields are stored pre-parsed to `Rat`. -/
structure Message where
  type : Option String
  sequence : Option Int
  time : Option String
  product_id : Option String
  order_id : Option String
  side : Option String
  price : Option Rat
  size : Option Rat
  funds : Option Rat
  remaining_size : Option Rat
  old_size : Option Rat
  new_size : Option Rat
  reason : Option String
  order_type : Option String
  trade_id : Option Int
  maker_order_id : Option String
  taker_order_id : Option String
deriving DecidableEq, Repr

/-- The message with every field absent. -/
def Message.empty : Message :=
  ⟨none, none, none, none, none, none, none, none, none, none, none, none,
   none, none, none, none, none⟩

/-- Python exceptions raised by the book code.  `exceptionGap got last` is the
plain `Exception('Error: ... order book missing ... messages ...')` raised on
a sequence gap (note: the `MissingSequencesException` class defined in the
source is never raised anywhere). -/
inductive PyError where
  | keyError (field : String)
  | exceptionGap (got last : Int)
  | assertionError
  | typeError
  | valueError
  | nameError
  | exceptionProductExists
deriving DecidableEq, Repr

/-- The book-state fields of `OrderBook` that `update_order_book` and its
helpers read and write: `_asks`, `_bids`, `_order_id_to_order` (the resting
index), `_order_id_to_unreflected_order` (the pending index) and `_sequence`.
The remaining `OrderBook` attributes (snapshot list, replay queue, pending
flag, product id) are only touched by the snapshot/replay methods and live in
`OrderBook` below. -/
structure Core where
  asks : Ladder
  bids : Ladder
  order_id_to_order : OrderDict
  order_id_to_unreflected_order : OrderDict
  sequence : Int
deriving DecidableEq, Repr

/-- A fresh book's state fields (`OrderBook.__init__`): empty trees, empty
indices, `_sequence = -1`. -/
def Core.init : Core :=
  ⟨[], [], [], [], -1⟩

/-- Reading a required message field: `message[name]` raises `KeyError` when
the field is absent. -/
def getf {α : Type} (c : Core) (x : Option α) (name : String) :
    Except (PyError × Core) α :=
  match x with
  | some v => .ok v
  | none => .error (.keyError name, c)

/-- Body of `OrderBook.add` for an order whose `price` is present (`p` is the
price value): append the order to the level at its price (creating the level
when absent — `append` mutates the list held by the tree in place) and store
the order in `_order_id_to_order`.  `levelAppend` is the ladder half: append
to the level at `p`, creating it when absent (Python's `append` mutates the
list held by the tree in place). -/
def levelAppend (l : Ladder) (p : Rat) (o : Order) : Ladder :=
  match ladderGet l p with
  | none => ladderInsert l p [o]
  | some q => ladderInsert l p (q ++ [o])

def addOrder (c : Core) (o : Order) (p : Rat) : Core :=
  if o.side = Side.buy then
    { c with bids := levelAppend c.bids p o,
             order_id_to_order := dictInsert c.order_id_to_order o.order_id o }
  else
    { c with asks := levelAppend c.asks p o,
             order_id_to_order := dictInsert c.order_id_to_order o.order_id o }

/-- `OrderBook.add`.  A `None` price (only possible when `open` promotes an
order that was received as a market order) makes the tree lookup compare
`None` against `Decimal` keys, or the `on_add` log format a `None` — a
`TypeError` either way, modelled as an immediate raise.  Orders with a price
always carry a size (market orders, the only sizeless ones, carry no price),
so `on_add`'s `order.size*order.price` cannot raise on this path. -/
def add (c : Core) (o : Order) : Except (PyError × Core) Core :=
  match o.price with
  | none => .error (.typeError, c)
  | some p => .ok (addOrder c o p)

/-- `OrderBook.remove`: the body of a `done` with a price.  An id found in
neither index, and a side or price differing from the stored order, are only
logged.  Note that the ladder is filtered on the side and at the price taken
from the message, not from the stored order. -/
def remove (c : Core) (order_id : String) (side : Side) (price : Rat) : Core :=
  match dictGet c.order_id_to_order order_id with
  | none =>
      match dictGet c.order_id_to_unreflected_order order_id with
      | some _ =>
          { c with order_id_to_unreflected_order :=
              dictRemove c.order_id_to_unreflected_order order_id }
      | none => c
  | some _order =>
      let c :=
        if side = Side.buy then
          match ladderGet c.bids price with
          | none => c
          | some q =>
              let q2 := q.filter (fun (o : Order) => o.order_id ≠ order_id)
              if 0 < q2.length then { c with bids := ladderInsert c.bids price q2 }
              else { c with bids := ladderRemove c.bids price }
        else
          match ladderGet c.asks price with
          | none => c
          | some q =>
              let q2 := q.filter (fun (o : Order) => o.order_id ≠ order_id)
              if 0 < q2.length then { c with asks := ladderInsert c.asks price q2 }
              else { c with asks := ladderRemove c.asks price }
      { c with order_id_to_order := dictRemove c.order_id_to_order order_id }

/-- Dead test from the source: `if side == 'buy':` compares the `Side` enum
member against the string `'buy'`, which is always `False` in Python, so
every match takes the asks branch of `OrderBook.match`. -/
def sideIsStringBuy (_s : Side) : Bool := false

/-- The maker-side ladder body of `OrderBook.match` (the source spells it out
twice, once per ladder).  `none` models the early `return` when the level is
`None` or the empty list (both falsy).  Otherwise: assert the head is the
maker; a head with matching size is popped (the level entry stays, possibly
empty); a differing head size is decremented in place — visible through the
resting-index alias — or raises `TypeError` when the head size is `None`. -/
def matchMaker (l : Ladder) (d : OrderDict) (price size : Rat)
    (maker_order_id : String) : Option (Except PyError (Ladder × OrderDict)) :=
  match ladderGet l price with
  | none => none
  | some [] => none
  | some (head :: rest) =>
      if head.order_id ≠ maker_order_id then some (.error .assertionError)
      else if head.size = some size then
        some (.ok (ladderInsert l price rest, d))
      else
        match head.size with
        | none => some (.error .typeError)
        | some hs =>
            let head2 := { head with size := some (hs - size) }
            some (.ok (ladderInsert l price (head2 :: rest),
                       dictAlias d head.order_id head2))

/-- The `on_match` hook's log line formats `self.get_bid()` and
`self.get_ask()`; `max_key`/`min_key` raise `ValueError` on an empty tree
(`get_bid` is evaluated first). -/
def onMatchGuard (c : Core) : Except (PyError × Core) Core :=
  if c.bids.isEmpty then .error (.valueError, c)
  else if c.asks.isEmpty then .error (.valueError, c)
  else .ok c

/-- The taker half of `OrderBook.match`: a taker found in the pending index
has its tracked size decremented in place (`if taker_order.size:` is falsy
for `None` and for zero); it is deleted when its size was `None`/zero or the
decrement reaches ≤ 0, kept with the reduced size otherwise.  An unknown
taker only logs. -/
def match_taker (c : Core) (size : Rat) (taker_order_id : String) : Core :=
  match dictGet c.order_id_to_unreflected_order taker_order_id with
  | none => c
  | some taker =>
      match taker.size with
      | none =>
          { c with order_id_to_unreflected_order :=
              dictRemove c.order_id_to_unreflected_order taker_order_id }
      | some sz =>
          if sz = 0 then
            { c with order_id_to_unreflected_order :=
                dictRemove c.order_id_to_unreflected_order taker_order_id }
          else if sz - size ≤ 0 then
            { c with order_id_to_unreflected_order :=
                dictRemove c.order_id_to_unreflected_order taker_order_id }
          else
            let taker2 : Order := { taker with size := some (sz - size) }
            { c with order_id_to_unreflected_order :=
                (dictInsert c.order_id_to_unreflected_order taker_order_id
                  taker2) }

/-- `OrderBook.match`.  The maker lookup only logs.  The taker update runs
first, then the maker ladder update on the side selected by the dead string
comparison (always the asks branch). -/
def match_event (c : Core) (side : Side) (price size : Rat)
    (maker_order_id taker_order_id : String) : Except (PyError × Core) Core :=
  let c := match_taker c size taker_order_id
  if sideIsStringBuy side then
    match matchMaker c.bids c.order_id_to_order price size maker_order_id with
    | none => .ok c
    | some (.error e) => .error (e, c)
    | some (.ok (l, d)) => onMatchGuard { c with bids := l, order_id_to_order := d }
  else
    match matchMaker c.asks c.order_id_to_order price size maker_order_id with
    | none => .ok c
    | some (.error e) => .error (e, c)
    | some (.ok (l, d)) => onMatchGuard { c with asks := l, order_id_to_order := d }

/-- The `on_change` hook fetches the level at `order.price` on `order.side`
and iterates it: a `None` price or an absent level raises `TypeError`, and an
empty level leaves the loop variable unbound so the log format raises
`NameError`. -/
def onChangeGuard (c : Core) (order : Order) : Except (PyError × Core) Core :=
  match order.price with
  | none => .error (.typeError, c)
  | some p =>
      let level :=
        if order.side = Side.sell then ladderGet c.asks p else ladderGet c.bids p
      match level with
      | none => .error (.typeError, c)
      | some [] => .error (.nameError, c)
      | some (_ :: _) => .ok c

/-- `OrderBook.change`.  An unrecognized id is only logged; a disagreeing
`old_size` is only logged; then `order.size = new_size` is assigned in place,
visible through both the resting index and the ladder alias (the ladder
update code in the source is commented out — the ladder sees the new size
purely through object aliasing). -/
def change (c : Core) (order_id : String) (_old_size new_size : Rat) :
    Except (PyError × Core) Core :=
  match dictGet c.order_id_to_order order_id with
  | none => .ok c
  | some order =>
      let order2 := { order with size := some new_size }
      let c2 :=
        if order.side = Side.buy then
          { c with order_id_to_order := dictAlias c.order_id_to_order order_id order2,
                   bids := ladderAlias c.bids order.price order_id order2 }
        else
          { c with order_id_to_order := dictAlias c.order_id_to_order order_id order2,
                   asks := ladderAlias c.asks order.price order_id order2 }
      onChangeGuard c2 order2

/-- `OrderBook.received`: store the parsed order in
`_order_id_to_unreflected_order` (the pending index).  `on_received` only
logs and cannot raise (market orders are formatted with `or 0` defaults;
non-market orders built by the received branch carry price and size). -/
def received (c : Core) (o : Order) : Core :=
  { c with order_id_to_unreflected_order :=
      dictInsert c.order_id_to_unreflected_order o.order_id o }

/-- The `open` branch of `update_order_book`: pull the required fields,
promote the unreflected order in place (adopting the event's
time/sequence/`remaining_size`) or synthesize a fresh limit order from the
payload, then `self.add`. -/
def apply_open (c : Core) (m : Message) (sequence : Int) :
    Except (PyError × Core) Core := do
  let time ← getf c m.time "time"
  let order_id ← getf c m.order_id "order_id"
  let size ← getf c m.remaining_size "remaining_size"
  match dictGet c.order_id_to_unreflected_order order_id with
  | some u =>
      let order := { u with time := some time, sequence := sequence,
                            size := some size }
      let c := { c with order_id_to_unreflected_order :=
                   dictRemove c.order_id_to_unreflected_order order_id }
      add c order
  | none => do
      let product_id ← getf c m.product_id "product_id"
      let side ← getf c m.side "side"
      let price ← getf c m.price "price"
      add c { time := some time, sequence := sequence,
              product_id := product_id, order_id := order_id,
              order_type := "limit", side := parseSide side,
              price := some price, size := some size, funds := none }

/-- The `done`-with-price branch of `update_order_book`: pull the required
fields, then `self.remove`. -/
def apply_done (c : Core) (m : Message) : Except (PyError × Core) Core := do
  let order_id ← getf c m.order_id "order_id"
  let _reason ← getf c m.reason "reason"
  let price ← getf c m.price "price"
  let side ← getf c m.side "side"
  let _remaining_size ← getf c m.remaining_size "remaining_size"
  let _time ← getf c m.time "time"
  pure (remove c order_id (parseSide side) price)

/-- The `match` branch of `update_order_book`: pull the required fields, then
`self.match`. -/
def apply_match (c : Core) (m : Message) : Except (PyError × Core) Core := do
  let _time ← getf c m.time "time"
  let maker_order_id ← getf c m.maker_order_id "maker_order_id"
  let taker_order_id ← getf c m.taker_order_id "taker_order_id"
  let _trade_id ← getf c m.trade_id "trade_id"
  let price ← getf c m.price "price"
  let side ← getf c m.side "side"
  let size ← getf c m.size "size"
  match_event c (parseSide side) price size maker_order_id taker_order_id

/-- The `change` branch of `update_order_book`: pull the required fields,
then `self.change`. -/
def apply_change (c : Core) (m : Message) : Except (PyError × Core) Core := do
  let _time ← getf c m.time "time"
  let order_id ← getf c m.order_id "order_id"
  let _price ← getf c m.price "price"
  let _side ← getf c m.side "side"
  let new_size ← getf c m.new_size "new_size"
  let old_size ← getf c m.old_size "old_size"
  change c order_id old_size new_size

/-- The `received` branch of `update_order_book`: `funds = message.get(..)`
never raises; a market order keeps `price = None` and optional size/funds; a
limit order requires size and price; any other order type passes
`message.get(..)` straight to `Decimal`, a `TypeError` when absent.  (For
non-market orders the source leaves `funds` as the raw string; the embedding
keeps the parsed value, `funds` never influencing book state.) -/
def apply_received (c : Core) (m : Message) (sequence : Int) :
    Except (PyError × Core) Core := do
  let order_type ← getf c m.order_type "order_type"
  let psf ←
    if order_type = "market" then
      pure ((none : Option Rat), m.size, m.funds)
    else if order_type = "limit" then do
      let size ← getf c m.size "size"
      let price ← getf c m.price "price"
      pure (some price, some size, m.funds)
    else
      match m.size, m.price with
      | some sz, some pr => pure (some pr, some sz, m.funds)
      | _, _ => throw (.typeError, c)
  let time ← getf c m.time "time"
  let product_id ← getf c m.product_id "product_id"
  let order_id ← getf c m.order_id "order_id"
  let side ← getf c m.side "side"
  pure (received c
    { time := some time, sequence := sequence, product_id := product_id,
      order_id := order_id, order_type := order_type,
      side := parseSide side, price := psf.1, size := psf.2.1,
      funds := psf.2.2 })

/-- The `elif` dispatch chain of `update_order_book`.  A `done` without a
`price` field fails the compound guard `msg_type == 'done' and 'price' in
message` and, since `'done'` matches no later `elif`, falls through the
whole chain; so does any unrecognized `type`. -/
def apply_typed_message (c : Core) (m : Message) (sequence : Int)
    (msg_type : String) : Except (PyError × Core) Core :=
  if msg_type = "open" then apply_open c m sequence
  else if msg_type = "done" ∧ m.price.isSome then apply_done c m
  else if msg_type = "match" then apply_match c m
  else if msg_type = "change" then apply_change c m
  else if msg_type = "received" then apply_received c m sequence
  else pure c

/-- `OrderBook.update_order_book`.  Sequence discipline first: discard
`sequence <= self._sequence`, raise a plain `Exception` on a gap.  Then the
`type` dispatch chain, then `self._sequence = sequence` — reached only when
no branch raised. -/
def update_order_book (c : Core) (m : Message) : Except (PyError × Core) Core := do
  let sequence ← getf c m.sequence "sequence"
  if sequence ≤ c.sequence then
    return c
  else if c.sequence + 1 < sequence then
    throw (.exceptionGap sequence c.sequence, c)
  else
    let msg_type ← getf c m.type "type"
    let c2 ← apply_typed_message c m sequence msg_type
    return { c2 with sequence := sequence }

/-- The `OrderBook` object: the book-state `Core` plus the reconciliation
fields (`pending_order_book_snapshot`, `snapshots`, `message_queue`) and the
product id. -/
structure OrderBook where
  product_id : String
  core : Core
  pending_order_book_snapshot : Bool
  snapshots : List Snapshot
  message_queue : List Message
deriving DecidableEq, Repr

/-- `OrderBook.__init__`. -/
def OrderBook.init (product_id : String) : OrderBook :=
  ⟨product_id, Core.init, false, [], []⟩

/-- `OrderBook.set_pending_order_book_snapshot`. -/
def set_pending_order_book_snapshot (b : OrderBook) : OrderBook :=
  { b with pending_order_book_snapshot := true }

/-- `OrderBook.parse_snapshot_order`: a snapshot row becomes a limit order
with no timestamp, carrying the snapshot's sequence. -/
def parse_snapshot_order (product_id : String) (row : SnapshotRow)
    (sequence : Int) (side : Side) : Order :=
  ⟨none, sequence, product_id, row.order_id, "limit", side,
   some row.price, some row.size, none⟩

/-- `OrderBook.apply_order_book_snapshot`: reset the two trees and the
resting index, re-add every snapshot row via `self.add` (which cannot raise
here since every row carries a price), and set `_sequence` to the snapshot
sequence.  The pending index, the snapshot list, the replay queue and the
pending flag are untouched. -/
def apply_order_book_snapshot (product_id : String) (c : Core) (s : Snapshot) :
    Core :=
  let c := { c with asks := [], bids := [], order_id_to_order := [] }
  let c := s.bids.foldl
    (fun c row => addOrder c (parse_snapshot_order product_id row s.sequence Side.buy) row.price) c
  let c := s.asks.foldl
    (fun c row => addOrder c (parse_snapshot_order product_id row s.sequence Side.sell) row.price) c
  { c with sequence := s.sequence }

/-- The `while self.message_queue:` drain loop of `on_order_book_snapshot`:
pop the head, then run it through `update_order_book`; a raise leaves the
remaining queue and the partial state in place.  `update_order_book` never
touches the queue, so the initial queue length is enough fuel. -/
def drainMessages : Nat → OrderBook → Except (PyError × OrderBook) OrderBook
  | 0, b => .ok b
  | fuel + 1, b =>
      match b.message_queue with
      | [] => .ok b
      | msg :: rest =>
          let b2 := { b with message_queue := rest }
          match update_order_book b2.core msg with
          | .error (e, c) => .error (e, { b2 with core := c })
          | .ok c => drainMessages fuel { b2 with core := c }

/-- `OrderBook.on_order_book_snapshot`: record the snapshot, apply it, drain
the replay queue in FIFO order through `update_order_book`, then clear the
pending flag (a raise while draining leaves the flag set). -/
def on_order_book_snapshot (b : OrderBook) (s : Snapshot) :
    Except (PyError × OrderBook) OrderBook :=
  let b := { b with snapshots := b.snapshots ++ [s] }
  let b := { b with core := apply_order_book_snapshot b.product_id b.core s }
  match drainMessages b.message_queue.length b with
  | .error e => .error e
  | .ok b2 => .ok { b2 with pending_order_book_snapshot := false }

/-- `OrderBook.on_message`: buffer while a snapshot is pending, otherwise
apply directly. -/
def OrderBook.on_message (b : OrderBook) (m : Message) :
    Except (PyError × OrderBook) OrderBook :=
  if b.pending_order_book_snapshot then
    .ok { b with message_queue := b.message_queue ++ [m] }
  else
    match update_order_book b.core m with
    | .error (e, c) => .error (e, { b with core := c })
    | .ok c => .ok { b with core := c }

/-- Association list of per-product books (`product_id_to_order_book`). -/
abbrev BookDict := List (String × OrderBook)

/-- `d.get(product_id)` on the book dict. -/
def booksGet (d : BookDict) (k : String) : Option OrderBook :=
  assocGet d k

/-- `d[product_id] = book` on the book dict. -/
def booksSet (d : BookDict) (k : String) (b : OrderBook) : BookDict :=
  assocInsert d k b

/-- `OrderBookManager` state: the REST/websocket collaborators are I/O
boundaries and are not part of the state. -/
structure OrderBookManager where
  product_id_to_order_book : BookDict
deriving DecidableEq, Repr

/-- `OrderBookManager.get_order_book`. -/
def get_order_book (mgr : OrderBookManager) (product_id : String) :
    Option OrderBook :=
  booksGet mgr.product_id_to_order_book product_id

/-- `OrderBookManager.init_order_book`: raises when the product is already
registered, otherwise registers a fresh book and subscribes (the websocket
subscribe is an I/O boundary; its possible disconnect raise is outside the
modelled state). -/
def init_order_book (mgr : OrderBookManager) (product_id : String) :
    Except PyError OrderBookManager :=
  if (booksGet mgr.product_id_to_order_book product_id).isSome then
    .error .exceptionProductExists
  else
    .ok ({ mgr with product_id_to_order_book :=
            (booksSet mgr.product_id_to_order_book product_id
              (OrderBook.init product_id)) })

/-- `OrderBookManager.on_message`.  The Bool in the result records whether
`fetch_order_book_snapshot` issued a snapshot request (its only synchronous
effect on the modelled state is setting the book's pending flag; the HTTP
response arrives later at `on_order_book_snapshot`).  The `Option PyError` is
an exception propagating out of the handler; the manager's dict still holds
the same book object, i.e. the state at the raise point.  A message for an
unregistered product is dropped with a warning — no book is created. -/
def OrderBookManager.on_message (mgr : OrderBookManager) (m : Message) :
    OrderBookManager × Bool × Option PyError :=
  match m.product_id with
  | none => (mgr, false, some (.keyError "product_id"))
  | some product_id =>
      match booksGet mgr.product_id_to_order_book product_id with
      | none => (mgr, false, none)
      | some ob =>
          let obf :=
            if ob.snapshots.isEmpty && !ob.pending_order_book_snapshot then
              (set_pending_order_book_snapshot ob, true)
            else (ob, false)
          match obf.1.on_message m with
          | .error (e, ob2) =>
              ({ mgr with product_id_to_order_book :=
                   booksSet mgr.product_id_to_order_book product_id ob2 },
               obf.2, some e)
          | .ok ob2 =>
              ({ mgr with product_id_to_order_book :=
                   booksSet mgr.product_id_to_order_book product_id ob2 },
               obf.2, none)

/-! ### Invariants -/

/-- A ladder has no price key mapping to an empty queue. -/
def noEmptyLevels (l : Ladder) : Prop :=
  ∀ kv ∈ l, kv.2 ≠ []

/-- Invariant I1: no price level in either ladder holds an empty queue. -/
def I1 (c : Core) : Prop :=
  noEmptyLevels c.bids ∧ noEmptyLevels c.asks

/-- Number of entries with order id `id` in the level at price `p` (zero when
the price key is absent). -/
def levelCount (l : Ladder) (p : Rat) (id : String) : Nat :=
  ((ladderGet l p).getD []).countP (fun o => o.order_id = id)

/-- The order id occurs in no level of the ladder other than the one keyed
`p`. -/
def idOnlyAt (l : Ladder) (p : Rat) (id : String) : Prop :=
  ∀ kv ∈ l, kv.1 ≠ p → kv.2.countP (fun o => o.order_id = id) = 0

/-- The order id occurs nowhere in the ladder. -/
def idAbsent (l : Ladder) (id : String) : Prop :=
  ∀ kv ∈ l, kv.2.countP (fun o => o.order_id = id) = 0

/-- The ladder on a given side of the book. -/
def sideLadder (c : Core) (s : Side) : Ladder :=
  match s with
  | .buy => c.bids
  | .sell => c.asks

/-- The opposite side. -/
def otherSide : Side → Side
  | .buy => .sell
  | .sell => .buy

/-- Invariant I2 as stated: every resting id has exactly one ladder entry on
its order's side at its order's price, and conversely every ladder entry's id
is a key of the resting index. -/
def I2 (c : Core) : Prop :=
  (∀ kv ∈ c.order_id_to_order,
      kv.2.price.isSome ∧
      levelCount (sideLadder c kv.2.side) (kv.2.price.getD 0) kv.1 = 1) ∧
  (∀ kv ∈ c.bids, ∀ o ∈ kv.2, (dictGet c.order_id_to_order o.order_id).isSome) ∧
  (∀ kv ∈ c.asks, ∀ o ∈ kv.2, (dictGet c.order_id_to_order o.order_id).isSome)

/-- Every order sitting in a ladder queue is the very object the resting
index maps its id to (the source stores one shared object in both places). -/
def aliased (c : Core) : Prop :=
  (∀ kv ∈ c.bids, ∀ o ∈ kv.2, dictGet c.order_id_to_order o.order_id = some o) ∧
  (∀ kv ∈ c.asks, ∀ o ∈ kv.2, dictGet c.order_id_to_order o.order_id = some o)

/-- The inductive strengthening of I2 actually maintained by the code on
well-behaved events: each resting entry is keyed by its order's id, carries a
price, occurs exactly once across both ladders — namely in the level at its
price on its side — and ladder entries alias the index (which subsumes the
converse half of I2). -/
def GoodBook (c : Core) : Prop :=
  (∀ kv ∈ c.order_id_to_order,
      kv.2.order_id = kv.1 ∧
      kv.2.price.isSome ∧
      levelCount (sideLadder c kv.2.side) (kv.2.price.getD 0) kv.1 = 1 ∧
      idOnlyAt (sideLadder c kv.2.side) (kv.2.price.getD 0) kv.1 ∧
      idAbsent (sideLadder c (otherSide kv.2.side)) kv.1) ∧
  aliased c

instance (l : Ladder) : Decidable (noEmptyLevels l) := by
  unfold noEmptyLevels
  infer_instance

instance (c : Core) : Decidable (I1 c) := by
  unfold I1
  exact instDecidableAnd

instance (l : Ladder) (p : Rat) (id : String) : Decidable (idOnlyAt l p id) := by
  unfold idOnlyAt
  infer_instance

instance (l : Ladder) (id : String) : Decidable (idAbsent l id) := by
  unfold idAbsent
  infer_instance

instance (c : Core) : Decidable (aliased c) := by
  unfold aliased
  exact instDecidableAnd

instance (c : Core) : Decidable (I2 c) := by
  unfold I2
  exact instDecidableAnd

instance (c : Core) : Decidable (GoodBook c) := by
  unfold GoodBook
  exact instDecidableAnd

/-- Sequence field of an `update_order_book` (or helper) outcome: of the new
state on success, of the mutated-so-far state at the raise point on error. -/
def resultSeq (r : Except (PyError × Core) Core) : Int :=
  match r with
  | .ok c => c.sequence
  | .error (_, c) => c.sequence

/-! ### Concrete scenario inputs

Scenario S2 of the spec: snapshot `{seq:200, bids:[[10.00,"2.0","B"]],
asks:[]}` followed by `received{201,T}`, `match{202,maker:B,taker:T}`,
`done{203,T}`. -/

/-- The S2 snapshot. -/
def s2Snapshot : Snapshot := ⟨200, [⟨10, 2, "B"⟩], []⟩

/-- S2 stream event 201: `received` for the taker `T` (limit, sell,
9.99 × 0.5). -/
def s2Received : Message :=
  { Message.empty with
    type := some "received"
    sequence := some 201
    time := some "2017-01-01T00:00:00.000000Z"
    product_id := some "ETH-USD"
    order_id := some "T"
    side := some "sell"
    price := some (999/100)
    size := some (1/2)
    order_type := some "limit" }

/-- S2 stream event 202: `match` of maker `B` and taker `T`, side buy,
0.5 at 10.00, trade 77. -/
def s2Match : Message :=
  { Message.empty with
    type := some "match"
    sequence := some 202
    time := some "2017-01-01T00:00:01.000000Z"
    product_id := some "ETH-USD"
    trade_id := some 77
    maker_order_id := some "B"
    taker_order_id := some "T"
    side := some "buy"
    price := some 10
    size := some (1/2) }

/-- S2 stream event 203: `done` for `T` (filled, remaining 0). -/
def s2Done : Message :=
  { Message.empty with
    type := some "done"
    sequence := some 203
    time := some "2017-01-01T00:00:02.000000Z"
    product_id := some "ETH-USD"
    order_id := some "T"
    side := some "sell"
    price := some (999/100)
    remaining_size := some 0
    reason := some "filled" }

/-- The S2 run: apply the snapshot to a fresh book, then the three stream
events through `update_order_book`. -/
def s2Result : Except (PyError × Core) Core := do
  let c0 := apply_order_book_snapshot "ETH-USD" Core.init s2Snapshot
  let c1 ← update_order_book c0 s2Received
  let c2 ← update_order_book c1 s2Match
  update_order_book c2 s2Done

/-- The maker order of S2 as it sits in the book after the snapshot. -/
def s2MakerB : Order :=
  ⟨none, 200, "ETH-USD", "B", "limit", Side.buy, some 10, some 2, none⟩

/-- A message of an unrecognized type at the next sequence after a fresh
book. -/
def unknownTypeMsg : Message :=
  { Message.empty with type := some "activate", sequence := some 0 }

/-- A `done` without a `price` field for an order sitting in the pending
index. -/
def doneNoPriceMsg : Message :=
  { Message.empty with
    type := some "done"
    sequence := some 0
    time := some "2017-01-01T00:00:00.000000Z"
    product_id := some "ETH-USD"
    order_id := some "T"
    side := some "sell"
    remaining_size := some 0
    reason := some "filled" }

/-- A message whose sequence jumps past the next expected one on a fresh
book. -/
def gapMsg : Message :=
  { Message.empty with type := some "open", sequence := some 5 }

/-- A fresh book state whose pending index holds one market order `T`. -/
def pendingTState : Core :=
  { Core.init with
      order_id_to_unreflected_order :=
        [("T", ⟨some "t0", -1, "ETH-USD", "T", "market", Side.sell, none,
                some 1, none⟩)] }

/-- Decidable equality of `Except` results, so concrete runs can be settled
by `decide`. -/
instance instDecEqExcept {ε α : Type} [DecidableEq ε] [DecidableEq α] :
    DecidableEq (Except ε α) := fun a b =>
  match a, b with
  | .ok x, .ok y =>
      if h : x = y then .isTrue (by rw [h])
      else .isFalse (fun hc => by cases hc; exact h rfl)
  | .error x, .error y =>
      if h : x = y then .isTrue (by rw [h])
      else .isFalse (fun hc => by cases hc; exact h rfl)
  | .ok _, .error _ => .isFalse (fun hc => by cases hc)
  | .error _, .ok _ => .isFalse (fun hc => by cases hc)

/-- A manager holding a live book for ETH-USD: one snapshot received
(sequence 300), not pending, cursor at 300. -/
def gapMgr : OrderBookManager :=
  ⟨[("ETH-USD",
     { product_id := "ETH-USD"
       core := { Core.init with sequence := 300 }
       pending_order_book_snapshot := false
       snapshots := [⟨300, [], []⟩]
       message_queue := [] })]⟩

/-- A stream event for ETH-USD whose sequence 302 skips 301. -/
def gapEventMsg : Message :=
  { Message.empty with
    type := some "received"
    sequence := some 302
    product_id := some "ETH-USD" }

/-- A manager with no books registered. -/
def emptyMgr : OrderBookManager := ⟨[]⟩

/-- A manager holding a freshly initialized ETH-USD book (no snapshot yet). -/
def freshMgr : OrderBookManager :=
  ⟨[("ETH-USD", OrderBook.init "ETH-USD")]⟩

/-- A first stream event for ETH-USD. -/
def firstEventMsg : Message :=
  { Message.empty with
    type := some "received"
    sequence := some 1
    product_id := some "ETH-USD" }

/-- A resting bid order `B` (10.00 × 2). -/
def restingBOrder : Order :=
  ⟨none, 100, "ETH-USD", "B", "limit", Side.buy, some 10, some 2, none⟩

/-- A book holding only the resting bid `B`, cursor at 100. -/
def restingBState : Core :=
  { Core.init with
      bids := [(10, [restingBOrder])]
      order_id_to_order := [("B", restingBOrder)]
      sequence := 100 }

/-- A resting ask order `M` (10.00 × 2). -/
def restingMOrder : Order :=
  ⟨none, 100, "ETH-USD", "M", "limit", Side.sell, some 10, some 2, none⟩

/-- A book holding only the resting ask `M`, cursor at 100. -/
def restingMState : Core :=
  { Core.init with
      asks := [(10, [restingMOrder])]
      order_id_to_order := [("M", restingMOrder)]
      sequence := 100 }

/-- A `done` for `B` whose price 11 disagrees with the stored price 10. -/
def doneWrongPriceMsg : Message :=
  { Message.empty with
    type := some "done"
    sequence := some 101
    time := some "2017-01-01T00:00:00.000000Z"
    product_id := some "ETH-USD"
    order_id := some "B"
    side := some "buy"
    price := some 11
    remaining_size := some 2
    reason := some "canceled" }

/-- A `change` for `B` whose `old_size` 5 disagrees with the stored size 2. -/
def changeWrongOldMsg : Message :=
  { Message.empty with
    type := some "change"
    sequence := some 101
    time := some "2017-01-01T00:00:00.000000Z"
    product_id := some "ETH-USD"
    order_id := some "B"
    side := some "buy"
    price := some 10
    new_size := some 3
    old_size := some 5 }

/-- A `match` at 10.00 whose maker id `X` is not the head of the asks queue
(the head is `M`). -/
def matchWrongMakerMsg : Message :=
  { Message.empty with
    type := some "match"
    sequence := some 101
    time := some "2017-01-01T00:00:00.000000Z"
    product_id := some "ETH-USD"
    trade_id := some 9
    maker_order_id := some "X"
    taker_order_id := some "T"
    side := some "sell"
    price := some 10
    size := some 1 }

/-- A buffered stream event carrying only a sequence (enough for the
discard path, which never reads the type). -/
def c7Msg (n : Int) : Message :=
  { Message.empty with sequence := some n }

/-- A buffered `received` limit event at sequence `n` for order `oid`. -/
def c7Recv (n : Int) (oid : String) : Message :=
  { Message.empty with
    type := some "received"
    sequence := some n
    time := some "2017-01-01T00:00:00.000000Z"
    product_id := some "ETH-USD"
    order_id := some oid
    side := some "buy"
    price := some 1
    size := some 1
    order_type := some "limit" }

/-- A book awaiting its snapshot with events 48–52 buffered for replay. -/
def c7Book : OrderBook :=
  { product_id := "ETH-USD"
    core := Core.init
    pending_order_book_snapshot := true
    snapshots := []
    message_queue := [c7Msg 48, c7Msg 49, c7Msg 50, c7Recv 51 "O1",
                      c7Recv 52 "O2"] }

/-- The snapshot arriving at sequence 50 with one resting bid. -/
def c7Snap : Snapshot := ⟨50, [⟨10, 1, "B"⟩], []⟩

/-- A book built from a snapshot with one bid (9 × 1, `B`) and one ask
(10 × 0.5, `M`) at sequence 100. -/
def i1State : Core :=
  apply_order_book_snapshot "ETH-USD" Core.init
    ⟨100, [⟨9, 1, "B"⟩], [⟨10, 1/2, "M"⟩]⟩

/-- A match that fully fills `M`, the only order at ask level 10.00. -/
def i1MatchMsg : Message :=
  { Message.empty with
    type := some "match"
    sequence := some 101
    time := some "2017-01-01T00:00:00.000000Z"
    product_id := some "ETH-USD"
    trade_id := some 5
    maker_order_id := some "M"
    taker_order_id := some "X"
    side := some "sell"
    price := some 10
    size := some (1/2) }

/-- A match that partially fills `M` (size 0.25 of the resting 0.5). -/
def i1PartialMsg : Message :=
  { i1MatchMsg with size := some (1/4) }

/-! ### Monad and field-access reductions -/

theorem exBind_ok {ε α β : Type} (a : α) (f : α → Except ε β) :
    (Except.ok a >>= f) = f a := rfl

theorem exBind_error {ε α β : Type} (e : ε) (f : α → Except ε β) :
    ((Except.error e : Except ε α) >>= f) = Except.error e := rfl

theorem getf_some {α : Type} (c : Core) (v : α) (n : String) :
    getf c (some v) n = .ok v := rfl

theorem getf_none {α : Type} (c : Core) (n : String) :
    getf c (none : Option α) n = .error (.keyError n, c) := rfl

/-! ### Association-list lemmas -/

section AssocLemmas

variable {κ ν : Type} [DecidableEq κ]

theorem assocGet_cons (hd : κ × ν) (tl : List (κ × ν)) (k : κ) :
    assocGet (hd :: tl) k = if hd.1 = k then some hd.2 else assocGet tl k := by
  unfold assocGet
  by_cases h : hd.1 = k
  · rw [List.find?_cons_of_pos _ (by simpa using h), if_pos h]
    rfl
  · rw [List.find?_cons_of_neg _ (by simpa using h), if_neg h]

theorem assocInsert_cons_ne (hd : κ × ν) (tl : List (κ × ν)) (k : κ) (v : ν)
    (h : ¬ hd.1 = k) :
    assocInsert (hd :: tl) k v = hd :: assocInsert tl k v := by
  unfold assocInsert
  simp only [List.any_cons, h, decide_False, Bool.false_or]
  split <;> simp [h]

theorem assocInsert_cons_eq (hd : κ × ν) (tl : List (κ × ν)) (k : κ) (v : ν)
    (h : hd.1 = k) :
    assocInsert (hd :: tl) k v = (k, v) :: assocAlias tl k v := by
  unfold assocInsert assocAlias
  simp only [List.any_cons, h, decide_True, Bool.true_or, if_true, List.map_cons,
    if_pos h]

theorem assocAlias_cons (hd : κ × ν) (tl : List (κ × ν)) (k : κ) (v : ν) :
    assocAlias (hd :: tl) k v
      = (if hd.1 = k then (k, v) else hd) :: assocAlias tl k v := rfl

theorem assocRemove_cons (hd : κ × ν) (tl : List (κ × ν)) (k : κ) :
    assocRemove (hd :: tl) k
      = if hd.1 = k then assocRemove tl k else hd :: assocRemove tl k := by
  unfold assocRemove
  by_cases h : hd.1 = k
  · simp [List.filter_cons, h]
  · simp [List.filter_cons, h]

theorem assocGet_alias_ne (d : List (κ × ν)) (k k' : κ) (v : ν)
    (h : ¬ k' = k) : assocGet (assocAlias d k v) k' = assocGet d k' := by
  induction d with
  | nil => rfl
  | cons hd tl ih =>
      rw [assocAlias_cons, assocGet_cons, assocGet_cons]
      by_cases hh : hd.1 = k
      · rw [if_pos hh]
        simp only [show ¬ (k = k') from fun hc => h hc.symm, if_false, ih]
        rw [if_neg (fun hc : hd.1 = k' => h (hc ▸ hh ▸ rfl))]
      · rw [if_neg hh]
        by_cases hk' : hd.1 = k'
        · rw [if_pos hk', if_pos hk']
        · rw [if_neg hk', if_neg hk', ih]

theorem assocGet_alias_same (d : List (κ × ν)) (k : κ) (v : ν) :
    assocGet (assocAlias d k v) k = (assocGet d k).map (fun _ => v) := by
  induction d with
  | nil => rfl
  | cons hd tl ih =>
      rw [assocAlias_cons, assocGet_cons, assocGet_cons]
      by_cases hh : hd.1 = k
      · simp [hh]
      · simp [hh, ih]

theorem assocGet_insert_same (d : List (κ × ν)) (k : κ) (v : ν) :
    assocGet (assocInsert d k v) k = some v := by
  induction d with
  | nil =>
      rw [show assocInsert ([] : List (κ × ν)) k v = [(k, v)] from rfl,
        assocGet_cons]
      simp
  | cons hd tl ih =>
      by_cases hh : hd.1 = k
      · rw [assocInsert_cons_eq hd tl k v hh, assocGet_cons]
        simp
      · rw [assocInsert_cons_ne hd tl k v hh, assocGet_cons, if_neg hh, ih]

theorem assocGet_insert_ne (d : List (κ × ν)) (k k' : κ) (v : ν)
    (h : ¬ k' = k) : assocGet (assocInsert d k v) k' = assocGet d k' := by
  induction d with
  | nil =>
      rw [show assocInsert ([] : List (κ × ν)) k v = [(k, v)] from rfl,
        assocGet_cons, if_neg (fun hc : k = k' => h hc.symm)]
  | cons hd tl ih =>
      by_cases hh : hd.1 = k
      · rw [assocInsert_cons_eq hd tl k v hh, assocGet_cons, assocGet_cons]
        simp only [show ¬ (k = k') from fun hc => h hc.symm, if_false]
        rw [assocGet_alias_ne tl k k' v h,
          if_neg (fun hc : hd.1 = k' => h (hc ▸ hh ▸ rfl))]
      · rw [assocInsert_cons_ne hd tl k v hh, assocGet_cons, assocGet_cons, ih]

theorem assocGet_remove_same (d : List (κ × ν)) (k : κ) :
    assocGet (assocRemove d k) k = none := by
  induction d with
  | nil => rfl
  | cons hd tl ih =>
      rw [assocRemove_cons]
      by_cases hh : hd.1 = k
      · rw [if_pos hh]; exact ih
      · rw [if_neg hh, assocGet_cons, if_neg hh]; exact ih

theorem assocGet_remove_ne (d : List (κ × ν)) (k k' : κ) (h : ¬ k' = k) :
    assocGet (assocRemove d k) k' = assocGet d k' := by
  induction d with
  | nil => rfl
  | cons hd tl ih =>
      rw [assocRemove_cons]
      by_cases hh : hd.1 = k
      · rw [if_pos hh, ih, assocGet_cons,
          if_neg (fun hc : hd.1 = k' => h (hc ▸ hh ▸ rfl))]
      · rw [if_neg hh, assocGet_cons, assocGet_cons, ih]

theorem assocGet_insert_isSome (d : List (κ × ν)) (k k' : κ) (v : ν) :
    (assocGet (assocInsert d k v) k').isSome
      ↔ k' = k ∨ (assocGet d k').isSome := by
  by_cases h : k' = k
  · subst h
    rw [assocGet_insert_same]
    simp
  · rw [assocGet_insert_ne d k k' v h]
    simp [h]

end AssocLemmas

/-! ### The operations do not touch the sequence cursor

`_sequence` is written only at the foot of `update_order_book`; none of the
per-event helpers touch it, whether they return or raise. -/

theorem addOrder_sequence (c : Core) (o : Order) (p : Rat) :
    (addOrder c o p).sequence = c.sequence := by
  unfold addOrder
  split <;> rfl

theorem add_resultSeq (c : Core) (o : Order) :
    resultSeq (add c o) = c.sequence := by
  unfold add
  cases o.price with
  | none => rfl
  | some p => simp [resultSeq, addOrder_sequence]

theorem remove_sequence (c : Core) (order_id : String) (side : Side) (price : Rat) :
    (remove c order_id side price).sequence = c.sequence := by
  unfold remove
  split
  · split <;> rfl
  · split <;> split <;> (try rfl) <;> dsimp only <;> split <;> rfl

theorem match_taker_sequence (c : Core) (size : Rat) (taker_order_id : String) :
    (match_taker c size taker_order_id).sequence = c.sequence := by
  unfold match_taker
  split <;> (try split) <;> (try split) <;> (try split) <;> rfl

theorem onMatchGuard_resultSeq (c : Core) :
    resultSeq (onMatchGuard c) = c.sequence := by
  unfold onMatchGuard
  split <;> (try split) <;> rfl

theorem match_event_resultSeq (c : Core) (side : Side) (price size : Rat)
    (maker_order_id taker_order_id : String) :
    resultSeq (match_event c side price size maker_order_id taker_order_id)
      = c.sequence := by
  unfold match_event
  rw [show sideIsStringBuy side = false from rfl]
  simp only [Bool.false_eq_true, if_false]
  have hseq := match_taker_sequence c size taker_order_id
  generalize match_taker c size taker_order_id = c1 at hseq ⊢
  split
  · simpa [resultSeq] using hseq
  · simp [resultSeq, hseq]
  · rename_i l d heq
    calc resultSeq (onMatchGuard { c1 with asks := l, order_id_to_order := d })
        = c1.sequence := onMatchGuard_resultSeq _
      _ = c.sequence := hseq

theorem onChangeGuard_resultSeq (c : Core) (o : Order) :
    resultSeq (onChangeGuard c o) = c.sequence := by
  unfold onChangeGuard
  split
  · rfl
  · split <;> dsimp only <;> split <;> rfl

theorem change_resultSeq (c : Core) (order_id : String) (old_size new_size : Rat) :
    resultSeq (change c order_id old_size new_size) = c.sequence := by
  unfold change
  split
  · rfl
  · split <;>
      (rename_i ord heq _; exact onChangeGuard_resultSeq _ _)

theorem received_sequence (c : Core) (o : Order) :
    (received c o).sequence = c.sequence := rfl

theorem exPure {ε α : Type} (a : α) : (pure a : Except ε α) = Except.ok a := rfl

theorem exThrow {ε α : Type} (e : ε) :
    (throw e : Except ε α) = Except.error e := rfl

theorem apply_open_resultSeq (c : Core) (m : Message) (s : Int) :
    resultSeq (apply_open c m s) = c.sequence := by
  unfold apply_open
  cases m.time <;> cases m.order_id <;> cases m.remaining_size <;>
    simp only [getf_some, getf_none, exBind_ok, exBind_error] <;> try rfl
  split
  · rw [add_resultSeq]
  · cases m.product_id <;> cases m.side <;> cases m.price <;>
      simp only [getf_some, getf_none, exBind_ok, exBind_error] <;>
      first
        | rfl
        | rw [add_resultSeq]

theorem apply_done_resultSeq (c : Core) (m : Message) :
    resultSeq (apply_done c m) = c.sequence := by
  unfold apply_done
  cases m.order_id <;> cases m.reason <;> cases m.price <;> cases m.side <;>
    cases m.remaining_size <;> cases m.time <;>
      simp [getf_some, getf_none, exBind_ok, exBind_error, exPure, resultSeq,
            remove_sequence]

theorem apply_match_resultSeq (c : Core) (m : Message) :
    resultSeq (apply_match c m) = c.sequence := by
  unfold apply_match
  cases m.time <;> cases m.maker_order_id <;> cases m.taker_order_id <;>
    cases m.trade_id <;> cases m.price <;> cases m.side <;> cases m.size <;>
      simp only [getf_some, getf_none, exBind_ok, exBind_error] <;>
      first
        | rfl
        | apply match_event_resultSeq

theorem apply_change_resultSeq (c : Core) (m : Message) :
    resultSeq (apply_change c m) = c.sequence := by
  unfold apply_change
  cases m.time <;> cases m.order_id <;> cases m.price <;> cases m.side <;>
    cases m.new_size <;> cases m.old_size <;>
      simp only [getf_some, getf_none, exBind_ok, exBind_error] <;>
      first
        | rfl
        | apply change_resultSeq

theorem apply_received_resultSeq (c : Core) (m : Message) (s : Int) :
    resultSeq (apply_received c m s) = c.sequence := by
  unfold apply_received
  cases m.order_type <;>
    simp only [getf_some, getf_none, exBind_ok, exBind_error]
  · rfl
  split
  · cases m.time <;> cases m.product_id <;> cases m.order_id <;> cases m.side <;>
      simp [getf_some, getf_none, exBind_ok, exBind_error, exPure, resultSeq,
            received_sequence]
  split
  · cases m.size <;> cases m.price <;>
      simp only [getf_some, getf_none, exBind_ok, exBind_error, exPure] <;>
      (try rfl) <;>
      cases m.time <;> cases m.product_id <;> cases m.order_id <;> cases m.side <;>
        simp [getf_some, getf_none, exBind_ok, exBind_error, exPure, resultSeq,
              received_sequence]
  · split <;>
      simp only [getf_some, getf_none, exBind_ok, exBind_error, exPure, exThrow] <;>
      (try rfl) <;>
      cases m.time <;> cases m.product_id <;> cases m.order_id <;> cases m.side <;>
        simp [getf_some, getf_none, exBind_ok, exBind_error, exPure, resultSeq,
              received_sequence]

theorem apply_typed_message_resultSeq (c : Core) (m : Message) (s : Int)
    (t : String) : resultSeq (apply_typed_message c m s t) = c.sequence := by
  unfold apply_typed_message
  split
  · exact apply_open_resultSeq c m s
  split
  · exact apply_done_resultSeq c m
  split
  · exact apply_match_resultSeq c m
  split
  · exact apply_change_resultSeq c m
  split
  · exact apply_received_resultSeq c m s
  rfl

/-! ### Shape of `update_order_book` -/

theorem update_discard (c : Core) (m : Message) (s : Int)
    (hs : m.sequence = some s) (hle : s ≤ c.sequence) :
    update_order_book c m = .ok c := by
  unfold update_order_book
  rw [hs]
  simp only [getf_some, exBind_ok]
  rw [if_pos hle]
  rfl

theorem update_gap (c : Core) (m : Message) (s : Int)
    (hs : m.sequence = some s) (hgt : c.sequence + 1 < s) :
    update_order_book c m = .error (.exceptionGap s c.sequence, c) := by
  unfold update_order_book
  rw [hs]
  simp only [getf_some, exBind_ok]
  rw [if_neg (by omega), if_pos hgt]
  rfl

theorem update_no_sequence_field (c : Core) (m : Message)
    (hs : m.sequence = none) :
    update_order_book c m = .error (.keyError "sequence", c) := by
  unfold update_order_book
  rw [hs]
  rfl

theorem update_no_type_field (c : Core) (m : Message) (s : Int)
    (hs : m.sequence = some s) (h1 : ¬ s ≤ c.sequence)
    (h2 : ¬ c.sequence + 1 < s) (ht : m.type = none) :
    update_order_book c m = .error (.keyError "type", c) := by
  unfold update_order_book
  rw [hs]
  simp only [getf_some, exBind_ok]
  rw [if_neg h1, if_neg h2, ht]
  rfl

theorem update_shape (c : Core) (m : Message) (s : Int) (t : String)
    (hs : m.sequence = some s) (h1 : ¬ s ≤ c.sequence)
    (h2 : ¬ c.sequence + 1 < s) (ht : m.type = some t) :
    update_order_book c m =
      Except.map (fun c2 => { c2 with sequence := s })
        (apply_typed_message c m s t) := by
  unfold update_order_book
  rw [hs]
  simp only [getf_some, exBind_ok]
  rw [if_neg h1, if_neg h2, ht]
  simp only [getf_some, exBind_ok]
  cases apply_typed_message c m s t with
  | ok c2 => rfl
  | error e => rfl

theorem apply_typed_fallthrough (c : Core) (m : Message) (s : Int) (t : String)
    (h1 : t ≠ "open") (h2 : ¬(t = "done" ∧ m.price.isSome = true))
    (h3 : t ≠ "match") (h4 : t ≠ "change") (h5 : t ≠ "received") :
    apply_typed_message c m s t = .ok c := by
  unfold apply_typed_message
  rw [if_neg h1, if_neg h2, if_neg h3, if_neg h4, if_neg h5]
  rfl

/-- C10: when a message carries the next expected sequence and its processing
completes without raising, `update_order_book` ends by setting `_sequence` to
that value — in particular a message of an unrecognized type, or a `done`
lacking a `price` field, changes nothing but the cursor; conversely any raise
mid-processing leaves `_sequence` untouched (the final assignment is never
reached and no branch writes it). -/
theorem claim_c10_sequence_cursor :
    (∀ (c : Core) (m : Message) (s : Int) (c' : Core),
        m.sequence = some s → s = c.sequence + 1 →
        update_order_book c m = .ok c' → c'.sequence = s) ∧
    (∀ (c : Core) (m : Message) (s : Int) (t : String),
        m.sequence = some s → s = c.sequence + 1 → m.type = some t →
        t ≠ "open" → t ≠ "done" → t ≠ "match" → t ≠ "change" →
        t ≠ "received" →
        update_order_book c m = .ok { c with sequence := s }) ∧
    (∀ (c : Core) (m : Message) (s : Int),
        m.sequence = some s → s = c.sequence + 1 → m.type = some "done" →
        m.price = none →
        update_order_book c m = .ok { c with sequence := s }) ∧
    (∀ (c : Core) (m : Message) (e : PyError) (c' : Core),
        update_order_book c m = .error (e, c') → c'.sequence = c.sequence) := by
  refine ⟨?_, ?_, ?_, ?_⟩
  · intro c m s c' hs hnext hok
    cases ht : m.type with
    | none =>
        rw [update_no_type_field c m s hs (by omega) (by omega) ht] at hok
        cases hok
    | some t =>
        rw [update_shape c m s t hs (by omega) (by omega) ht] at hok
        cases happ : apply_typed_message c m s t with
        | ok c2 =>
            rw [happ] at hok
            simp only [Except.map] at hok
            cases hok
            rfl
        | error e =>
            rw [happ] at hok
            simp only [Except.map] at hok
            cases hok
  · intro c m s t hs hnext ht h1 h2 h3 h4 h5
    rw [update_shape c m s t hs (by omega) (by omega) ht,
        apply_typed_fallthrough c m s t h1 (by simp [h2]) h3 h4 h5]
    rfl
  · intro c m s hs hnext ht hp
    rw [update_shape c m s "done" hs (by omega) (by omega) ht,
        apply_typed_fallthrough c m s "done" (by decide) (by simp [hp])
          (by decide) (by decide) (by decide)]
    rfl
  · intro c m e c' herr
    cases hs : m.sequence with
    | none =>
        rw [update_no_sequence_field c m hs] at herr
        cases herr
        rfl
    | some s =>
        by_cases hle : s ≤ c.sequence
        · rw [update_discard c m s hs hle] at herr
          cases herr
        · by_cases hgt : c.sequence + 1 < s
          · rw [update_gap c m s hs hgt] at herr
            cases herr
            rfl
          · cases ht : m.type with
            | none =>
                rw [update_no_type_field c m s hs hle hgt ht] at herr
                cases herr
                rfl
            | some t =>
                rw [update_shape c m s t hs hle hgt ht] at herr
                cases happ : apply_typed_message c m s t with
                | ok c2 =>
                    rw [happ] at herr
                    cases herr
                | error e2 =>
                    rw [happ] at herr
                    simp only [Except.map] at herr
                    cases herr
                    have := apply_typed_message_resultSeq c m s t
                    rw [happ] at this
                    exact this

theorem claim_c10_sequence_cursor_witness :
    update_order_book Core.init unknownTypeMsg
      = .ok { Core.init with sequence := 0 } ∧
    update_order_book pendingTState doneNoPriceMsg
      = .ok { pendingTState with sequence := 0 } ∧
    ({ Core.init with sequence := 0 } : Core).sequence = 0 ∧
    Core.init.sequence = Core.init.sequence := by
  have h1 := claim_c10_sequence_cursor.1
  have h2 := claim_c10_sequence_cursor.2.1
  have h3 := claim_c10_sequence_cursor.2.2.1
  have h4 := claim_c10_sequence_cursor.2.2.2
  have hu : update_order_book Core.init unknownTypeMsg
      = .ok { Core.init with sequence := 0 } :=
    h2 Core.init unknownTypeMsg 0 "activate" rfl (by decide) rfl
      (by decide) (by decide) (by decide) (by decide) (by decide)
  have hd : update_order_book pendingTState doneNoPriceMsg
      = .ok { pendingTState with sequence := 0 } :=
    h3 pendingTState doneNoPriceMsg 0 rfl (by decide) rfl rfl
  refine ⟨hu, hd, ?_, ?_⟩
  · exact h1 Core.init unknownTypeMsg 0 _ rfl (by decide) hu
  · exact h4 Core.init gapMsg (.exceptionGap 5 (-1)) Core.init
      (update_gap Core.init gapMsg 5 rfl (by decide))

/-- C1 (evaluation of the code at scenario S2): after the S2 snapshot and
stream, the maker `B` is still resting on the bids ladder at 10.00 — but with
its full size 2.0, not 1.5: the match's `side == 'buy'` comparison of a
`Side` member against a string is always false, so the buy-side match runs
the asks branch, finds no asks at 10.00 and returns without decrementing the
bids head.  `T` is removed from the pending index (by the match's taker
handling), the resting index holds exactly `B`, and `last_seq` is 203. -/
theorem claim_c1_s2_trace :
    s2Result = .ok { asks := [], bids := [(10, [s2MakerB])],
                     order_id_to_order := [("B", s2MakerB)],
                     order_id_to_unreflected_order := [],
                     sequence := 203 } ∧
    s2MakerB.size = some 2 ∧ s2MakerB.size ≠ some (3/2) := by
  refine ⟨by decide, rfl, by decide⟩

/-- C5 counterexample: a `done` without a `price` for the pending order `T`
does not delete the pending entry — the compound dispatch guard skips the
whole branch, so only the cursor moves and `T` stays in the pending index. -/
theorem claim_c5_counterexample :
    update_order_book pendingTState doneNoPriceMsg
      = .ok { pendingTState with sequence := 0 } ∧
    dictGet ({ pendingTState with sequence := 0 }
        : Core).order_id_to_unreflected_order "T" ≠ none := by
  exact ⟨by decide, by decide⟩

/-- C5 amended: a `done` event without a `price` field is ignored entirely —
no dispatch branch handles it — so the pending entry for its order id
survives unchanged, no ladder is mutated, and only `_sequence` advances. -/
theorem claim_c5_amended (c : Core) (m : Message) (s : Int) (oid : String)
    (o : Order)
    (hs : m.sequence = some s) (hnext : s = c.sequence + 1)
    (ht : m.type = some "done") (hp : m.price = none)
    (hoid : m.order_id = some oid)
    (hpend : dictGet c.order_id_to_unreflected_order oid = some o) :
    update_order_book c m = .ok { c with sequence := s } ∧
    dictGet ({ c with sequence := s }
        : Core).order_id_to_unreflected_order oid = some o := by
  constructor
  · rw [update_shape c m s "done" hs (by omega) (by omega) ht,
        apply_typed_fallthrough c m s "done" (by decide) (by simp [hp])
          (by decide) (by decide) (by decide)]
    rfl
  · exact hpend

theorem claim_c5_amended_witness :
    update_order_book pendingTState doneNoPriceMsg
      = .ok { pendingTState with sequence := 0 } ∧
    dictGet ({ pendingTState with sequence := 0 }
        : Core).order_id_to_unreflected_order "T"
      = some ⟨some "t0", -1, "ETH-USD", "T", "market", Side.sell, none,
             some 1, none⟩ :=
  claim_c5_amended pendingTState doneNoPriceMsg 0 "T" _
    rfl (by decide) rfl rfl rfl (by decide)

/-! ### Snapshot application (C6) -/

theorem addOrder_unreflected (c : Core) (o : Order) (p : Rat) :
    (addOrder c o p).order_id_to_unreflected_order
      = c.order_id_to_unreflected_order := by
  unfold addOrder
  split <;> rfl

theorem addOrder_buy (c : Core) (o : Order) (p : Rat) (h : o.side = Side.buy) :
    addOrder c o p
      = { c with bids := levelAppend c.bids p o,
                 order_id_to_order :=
                   dictInsert c.order_id_to_order o.order_id o } := by
  unfold addOrder
  rw [if_pos h]

theorem addOrder_sell (c : Core) (o : Order) (p : Rat)
    (h : ¬ o.side = Side.buy) :
    addOrder c o p
      = { c with asks := levelAppend c.asks p o,
                 order_id_to_order :=
                   dictInsert c.order_id_to_order o.order_id o } := by
  unfold addOrder
  rw [if_neg h]

theorem addOrder_dict (c : Core) (o : Order) (p : Rat) :
    (addOrder c o p).order_id_to_order
      = dictInsert c.order_id_to_order o.order_id o := by
  unfold addOrder
  split <;> rfl

theorem addOrder_proj (c1 c2 : Core) (o : Order) (p : Rat)
    (ha : c1.asks = c2.asks) (hb : c1.bids = c2.bids)
    (hd : c1.order_id_to_order = c2.order_id_to_order) :
    (addOrder c1 o p).asks = (addOrder c2 o p).asks ∧
    (addOrder c1 o p).bids = (addOrder c2 o p).bids ∧
    (addOrder c1 o p).order_id_to_order
      = (addOrder c2 o p).order_id_to_order := by
  by_cases h : o.side = Side.buy
  · rw [addOrder_buy c1 o p h, addOrder_buy c2 o p h]
    exact ⟨ha, by rw [hb], by rw [hd]⟩
  · rw [addOrder_sell c1 o p h, addOrder_sell c2 o p h]
    exact ⟨by rw [ha], hb, by rw [hd]⟩

theorem foldRows_unreflected (product_id : String) (seq : Int) (side : Side)
    (rows : List SnapshotRow) (c : Core) :
    (rows.foldl
        (fun c row =>
          addOrder c (parse_snapshot_order product_id row seq side) row.price)
        c).order_id_to_unreflected_order
      = c.order_id_to_unreflected_order := by
  induction rows generalizing c with
  | nil => rfl
  | cons r rs ih =>
      rw [List.foldl_cons, ih, addOrder_unreflected]

theorem foldRows_proj (product_id : String) (seq : Int) (side : Side)
    (rows : List SnapshotRow) (c1 c2 : Core)
    (ha : c1.asks = c2.asks) (hb : c1.bids = c2.bids)
    (hd : c1.order_id_to_order = c2.order_id_to_order) :
    (rows.foldl
        (fun c row =>
          addOrder c (parse_snapshot_order product_id row seq side) row.price)
        c1).asks
      = (rows.foldl
          (fun c row =>
            addOrder c (parse_snapshot_order product_id row seq side) row.price)
          c2).asks ∧
    (rows.foldl
        (fun c row =>
          addOrder c (parse_snapshot_order product_id row seq side) row.price)
        c1).bids
      = (rows.foldl
          (fun c row =>
            addOrder c (parse_snapshot_order product_id row seq side) row.price)
          c2).bids ∧
    (rows.foldl
        (fun c row =>
          addOrder c (parse_snapshot_order product_id row seq side) row.price)
        c1).order_id_to_order
      = (rows.foldl
          (fun c row =>
            addOrder c (parse_snapshot_order product_id row seq side) row.price)
          c2).order_id_to_order := by
  induction rows generalizing c1 c2 with
  | nil => exact ⟨ha, hb, hd⟩
  | cons r rs ih =>
      rw [List.foldl_cons, List.foldl_cons]
      obtain ⟨h1, h2, h3⟩ :=
        addOrder_proj c1 c2 (parse_snapshot_order product_id r seq side)
          r.price ha hb hd
      exact ih _ _ h1 h2 h3

theorem foldRows_mem (product_id : String) (seq : Int) (side : Side)
    (rows : List SnapshotRow) (c : Core) (id : String) :
    (dictGet
        (rows.foldl
          (fun c row =>
            addOrder c (parse_snapshot_order product_id row seq side) row.price)
          c).order_id_to_order id).isSome
      ↔ id ∈ rows.map SnapshotRow.order_id
        ∨ (dictGet c.order_id_to_order id).isSome := by
  induction rows generalizing c with
  | nil => simp
  | cons r rs ih =>
      rw [List.foldl_cons, ih, List.map_cons]
      have hdict := addOrder_dict c (parse_snapshot_order product_id r seq side)
        r.price
      rw [show (dictGet (addOrder c (parse_snapshot_order product_id r seq side)
          r.price).order_id_to_order id).isSome
        = (assocGet (assocInsert c.order_id_to_order r.order_id
            (parse_snapshot_order product_id r seq side)) id).isSome from by
          rw [hdict]; rfl]
      rw [assocGet_insert_isSome]
      simp only [List.mem_cons]
      unfold dictGet
      tauto

/-- C6: applying a snapshot replaces both ladders and the resting index with
state computed from the snapshot alone (any two prior book states yield the
same ladders and resting index), populates the index with exactly the
snapshot's row ids, sets the sequence cursor to the snapshot's sequence, and
leaves the pending index untouched. -/
theorem claim_c6_snapshot_frame (b1 b2 : Core) (product_id : String)
    (s : Snapshot) :
    (apply_order_book_snapshot product_id b1 s).asks
      = (apply_order_book_snapshot product_id b2 s).asks ∧
    (apply_order_book_snapshot product_id b1 s).bids
      = (apply_order_book_snapshot product_id b2 s).bids ∧
    (apply_order_book_snapshot product_id b1 s).order_id_to_order
      = (apply_order_book_snapshot product_id b2 s).order_id_to_order ∧
    (apply_order_book_snapshot product_id b1 s).sequence = s.sequence ∧
    (apply_order_book_snapshot product_id b1 s).order_id_to_unreflected_order
      = b1.order_id_to_unreflected_order ∧
    (∀ id : String,
      (dictGet (apply_order_book_snapshot product_id b1 s).order_id_to_order
          id).isSome
        ↔ id ∈ (s.bids ++ s.asks).map SnapshotRow.order_id) := by
  unfold apply_order_book_snapshot
  obtain ⟨h1, h2, h3⟩ :=
    foldRows_proj product_id s.sequence Side.buy s.bids
      { b1 with asks := [], bids := [], order_id_to_order := [] }
      { b2 with asks := [], bids := [], order_id_to_order := [] }
      rfl rfl rfl
  obtain ⟨g1, g2, g3⟩ :=
    foldRows_proj product_id s.sequence Side.sell s.asks _ _ h1 h2 h3
  refine ⟨g1, g2, g3, rfl, ?_, ?_⟩
  · rw [show ∀ c : Core, ({ c with sequence := s.sequence }
        : Core).order_id_to_unreflected_order
        = c.order_id_to_unreflected_order from fun _ => rfl]
    rw [foldRows_unreflected, foldRows_unreflected]
  · intro id
    rw [show ∀ c : Core, ({ c with sequence := s.sequence }
        : Core).order_id_to_order = c.order_id_to_order from fun _ => rfl]
    rw [foldRows_mem, foldRows_mem]
    simp only [show ∀ i : String, dictGet ([] : OrderDict) i = none from
        fun _ => rfl,
      Option.isSome_none, Bool.false_eq_true, or_false, List.map_append,
      List.mem_append]
    exact or_comm

/-! ### Gap handling at the manager (C2) -/

/-- C2 counterexample: with a snapshot already received and `last_seq = 300`,
the event at sequence 302 raises but triggers no snapshot re-fetch — the
manager only fetches when `snapshots` is empty, so there is no reconciler
retry after a gap, contradicting the claim. -/
theorem claim_c2_counterexample :
    (OrderBookManager.on_message gapMgr gapEventMsg).2.1 = false ∧
    (OrderBookManager.on_message gapMgr gapEventMsg).2.2
      = some (.exceptionGap 302 300) ∧
    booksGet
        ((OrderBookManager.on_message gapMgr gapEventMsg).1.product_id_to_order_book)
        "ETH-USD"
      = booksGet gapMgr.product_id_to_order_book "ETH-USD" := by
  exact ⟨by decide, by decide, by decide⟩

/-- C2 amended: in a live book (snapshot received, not awaiting one), an
event with `seq > last_seq + 1` makes `update_order_book` raise the plain
gap `Exception` (the `MissingSequencesException` class exists but is never
raised); the book and its cursor are unchanged, so every further gapped
event keeps raising the same way; no invalid flag exists, and the manager
issues no snapshot re-fetch (it only fetches when no snapshot was ever
received and none is pending). -/
theorem claim_c2_amended (mgr : OrderBookManager) (m : Message) (pid : String)
    (ob : OrderBook) (s : Int)
    (hpid : m.product_id = some pid)
    (hob : booksGet mgr.product_id_to_order_book pid = some ob)
    (hsnaps : ob.snapshots ≠ [])
    (hpend : ob.pending_order_book_snapshot = false)
    (hseq : m.sequence = some s)
    (hgap : ob.core.sequence + 1 < s) :
    OrderBookManager.on_message mgr m
      = (⟨booksSet mgr.product_id_to_order_book pid ob⟩, false,
         some (.exceptionGap s ob.core.sequence)) ∧
    booksGet (OrderBookManager.on_message mgr m).1.product_id_to_order_book pid
      = some ob := by
  have hfalse : ob.snapshots.isEmpty = false := by
    cases hsn : ob.snapshots with
    | nil => exact absurd hsn hsnaps
    | cons a t => rfl
  have hbook : ob.on_message m
      = .error (.exceptionGap s ob.core.sequence, ob) := by
    unfold OrderBook.on_message
    rw [hpend, update_gap ob.core m s hseq hgap]
    simp only [Bool.false_eq_true, if_false]
    rw [← hpend]
  have hmain : OrderBookManager.on_message mgr m
      = (⟨booksSet mgr.product_id_to_order_book pid ob⟩, false,
         some (.exceptionGap s ob.core.sequence)) := by
    unfold OrderBookManager.on_message
    rw [hpid]
    simp only [hob, hfalse, Bool.false_and, Bool.false_eq_true, if_false,
      hbook]
  refine ⟨hmain, ?_⟩
  rw [hmain]
  exact assocGet_insert_same mgr.product_id_to_order_book pid ob

theorem claim_c2_amended_witness :
    OrderBookManager.on_message gapMgr gapEventMsg
      = (⟨booksSet gapMgr.product_id_to_order_book "ETH-USD"
           { product_id := "ETH-USD"
             core := { Core.init with sequence := 300 }
             pending_order_book_snapshot := false
             snapshots := [⟨300, [], []⟩]
             message_queue := [] }⟩, false,
         some (.exceptionGap 302 300)) ∧
    booksGet
        ((OrderBookManager.on_message gapMgr gapEventMsg).1.product_id_to_order_book)
        "ETH-USD"
      = some
          { product_id := "ETH-USD"
            core := { Core.init with sequence := 300 }
            pending_order_book_snapshot := false
            snapshots := [⟨300, [], []⟩]
            message_queue := [] } :=
  claim_c2_amended gapMgr gapEventMsg "ETH-USD" _ 302
    rfl rfl (by decide) rfl rfl (by decide)

/-! ### Unregistered products at the manager (C9) -/

/-- C9 counterexample: a stream event for a product with no registered book
is dropped with a warning — no book is lazily created, no reconciliation is
triggered, contradicting the claim. -/
theorem claim_c9_counterexample :
    OrderBookManager.on_message emptyMgr firstEventMsg
      = (emptyMgr, false, none) ∧
    booksGet
        ((OrderBookManager.on_message emptyMgr firstEventMsg).1.product_id_to_order_book)
        "ETH-USD" = none := by
  exact ⟨by decide, by decide⟩

/-- C9 amended: an event for a product with no registered book is dropped
with a warning (no book is created; books are created only by the explicit
`init_order_book`).  The lazy behavior the source does have is per
*registered* book: the first event for a book that has no snapshot and none
pending issues the snapshot request, marks the book pending, and buffers the
event for replay. -/
theorem claim_c9_amended :
    (∀ (mgr : OrderBookManager) (m : Message) (pid : String),
      m.product_id = some pid →
      booksGet mgr.product_id_to_order_book pid = none →
      OrderBookManager.on_message mgr m = (mgr, false, none)) ∧
    (∀ (mgr : OrderBookManager) (m : Message) (pid : String) (ob : OrderBook),
      m.product_id = some pid →
      booksGet mgr.product_id_to_order_book pid = some ob →
      ob.snapshots = [] →
      ob.pending_order_book_snapshot = false →
      OrderBookManager.on_message mgr m
        = (⟨booksSet mgr.product_id_to_order_book pid
             { ob with pending_order_book_snapshot := true,
                       message_queue := ob.message_queue ++ [m] }⟩,
           true, none)) := by
  constructor
  · intro mgr m pid hpid habs
    unfold OrderBookManager.on_message
    rw [hpid]
    simp only [habs]
  · intro mgr m pid ob hpid hob hsnaps hpend
    have hbook : (set_pending_order_book_snapshot ob).on_message m
        = .ok { ob with pending_order_book_snapshot := true,
                        message_queue := ob.message_queue ++ [m] } := by
      unfold OrderBook.on_message set_pending_order_book_snapshot
      simp
    unfold OrderBookManager.on_message
    rw [hpid]
    simp only [hob, hsnaps, hpend, List.isEmpty_nil, Bool.not_false,
      Bool.and_self, if_true, hbook]

theorem claim_c9_amended_witness :
    OrderBookManager.on_message emptyMgr firstEventMsg
      = (emptyMgr, false, none) ∧
    OrderBookManager.on_message freshMgr firstEventMsg
      = (⟨booksSet freshMgr.product_id_to_order_book "ETH-USD"
           { OrderBook.init "ETH-USD" with
               pending_order_book_snapshot := true,
               message_queue := [firstEventMsg] }⟩, true, none) :=
  ⟨claim_c9_amended.1 emptyMgr firstEventMsg "ETH-USD" rfl rfl,
   claim_c9_amended.2 freshMgr firstEventMsg "ETH-USD"
     (OrderBook.init "ETH-USD") rfl rfl rfl rfl⟩

/-! ### Dispatch and field-reduction lemmas -/

theorem apply_typed_open_eq (c : Core) (m : Message) (s : Int) :
    apply_typed_message c m s "open" = apply_open c m s := by
  unfold apply_typed_message
  rw [if_pos rfl]

theorem apply_typed_done_eq (c : Core) (m : Message) (s : Int)
    (h : m.price.isSome = true) :
    apply_typed_message c m s "done" = apply_done c m := by
  unfold apply_typed_message
  rw [if_neg (by decide), if_pos ⟨rfl, h⟩]

theorem apply_typed_match_eq (c : Core) (m : Message) (s : Int) :
    apply_typed_message c m s "match" = apply_match c m := by
  unfold apply_typed_message
  rw [if_neg (by decide), if_neg (by simp), if_pos rfl]

theorem apply_typed_change_eq (c : Core) (m : Message) (s : Int) :
    apply_typed_message c m s "change" = apply_change c m := by
  unfold apply_typed_message
  rw [if_neg (by decide), if_neg (by simp), if_neg (by decide), if_pos rfl]

theorem apply_typed_received_eq (c : Core) (m : Message) (s : Int) :
    apply_typed_message c m s "received" = apply_received c m s := by
  unfold apply_typed_message
  rw [if_neg (by decide), if_neg (by simp), if_neg (by decide),
      if_neg (by decide), if_pos rfl]

theorem apply_done_fields (c : Core) (m : Message) (oid r sd tm : String)
    (p rs : Rat)
    (h1 : m.order_id = some oid) (h2 : m.reason = some r)
    (h3 : m.price = some p) (h4 : m.side = some sd)
    (h5 : m.remaining_size = some rs) (h6 : m.time = some tm) :
    apply_done c m = .ok (remove c oid (parseSide sd) p) := by
  unfold apply_done
  rw [h1, h2, h3, h4, h5, h6]
  rfl

theorem apply_match_fields (c : Core) (m : Message) (tm mid tid sd : String)
    (tr : Int) (p sz : Rat)
    (h1 : m.time = some tm) (h2 : m.maker_order_id = some mid)
    (h3 : m.taker_order_id = some tid) (h4 : m.trade_id = some tr)
    (h5 : m.price = some p) (h6 : m.side = some sd) (h7 : m.size = some sz) :
    apply_match c m = match_event c (parseSide sd) p sz mid tid := by
  unfold apply_match
  rw [h1, h2, h3, h4, h5, h6, h7]
  rfl

theorem apply_change_fields (c : Core) (m : Message) (tm oid sd : String)
    (pm osz nsz : Rat)
    (h1 : m.time = some tm) (h2 : m.order_id = some oid)
    (h3 : m.price = some pm) (h4 : m.side = some sd)
    (h5 : m.new_size = some nsz) (h6 : m.old_size = some osz) :
    apply_change c m = change c oid osz nsz := by
  unfold apply_change
  rw [h1, h2, h3, h4, h5, h6]
  rfl

theorem match_taker_asks (c : Core) (size : Rat) (tid : String) :
    (match_taker c size tid).asks = c.asks := by
  unfold match_taker
  split <;> (try split) <;> (try split) <;> (try split) <;> rfl

theorem match_taker_bids (c : Core) (size : Rat) (tid : String) :
    (match_taker c size tid).bids = c.bids := by
  unfold match_taker
  split <;> (try split) <;> (try split) <;> (try split) <;> rfl

theorem match_taker_dict (c : Core) (size : Rat) (tid : String) :
    (match_taker c size tid).order_id_to_order = c.order_id_to_order := by
  unfold match_taker
  split <;> (try split) <;> (try split) <;> (try split) <;> rfl

theorem ladderGet_alias_same (l : Ladder) (p : Rat) (k : String) (v : Order) :
    ladderGet (ladderAlias l (some p) k v) p
      = (ladderGet l p).map
          (fun q => q.map (fun x => if x.order_id = k then v else x)) := by
  induction l with
  | nil => rfl
  | cons hd tl ih =>
      show assocGet
          ((if hd.1 = p then (hd.1, hd.2.map fun x =>
              if x.order_id = k then v else x) else hd) :: ladderAlias tl (some p) k v) p
        = _
      rw [assocGet_cons]
      by_cases hh : hd.1 = p
      · rw [if_pos hh]
        rw [show ((hd.1, hd.2.map fun x => if x.order_id = k then v else x)).1 = p
            from hh]
        rw [if_pos rfl]
        rw [show ladderGet (hd :: tl) p = assocGet (hd :: tl) p from rfl,
            assocGet_cons, if_pos hh]
        rfl
      · rw [if_neg hh, if_neg hh]
        rw [show ladderGet (hd :: tl) p = assocGet (hd :: tl) p from rfl,
            assocGet_cons, if_neg hh]
        exact ih

theorem ladderGet_alias_ne (l : Ladder) (p p' : Rat) (k : String) (v : Order)
    (h : ¬ p' = p) :
    ladderGet (ladderAlias l (some p) k v) p' = ladderGet l p' := by
  induction l with
  | nil => rfl
  | cons hd tl ih =>
      show assocGet
          ((if hd.1 = p then (hd.1, hd.2.map fun x =>
              if x.order_id = k then v else x) else hd) :: ladderAlias tl (some p) k v) p'
        = _
      rw [assocGet_cons]
      by_cases hh : hd.1 = p
      · rw [if_pos hh]
        rw [show ladderGet (hd :: tl) p' = assocGet (hd :: tl) p' from rfl,
            assocGet_cons]
        rw [show ((hd.1, hd.2.map fun x => if x.order_id = k then v else x)).1
            = hd.1 from rfl]
        rw [if_neg (hh ▸ fun hc => h hc.symm), if_neg (hh ▸ fun hc => h hc.symm)]
        exact ih
      · rw [if_neg hh]
        rw [show ladderGet (hd :: tl) p' = assocGet (hd :: tl) p' from rfl,
            assocGet_cons]
        by_cases hk : hd.1 = p'
        · rw [if_pos hk, if_pos hk]
        · rw [if_neg hk, if_neg hk]
          exact ih

theorem matchMaker_head_mismatch (l : Ladder) (d : OrderDict) (p sz : Rat)
    (mid : String) (head : Order) (rest : Level)
    (hget : ladderGet l p = some (head :: rest))
    (hne : head.order_id ≠ mid) :
    matchMaker l d p sz mid = some (.error .assertionError) := by
  unfold matchMaker
  simp only [hget, ne_eq, hne, not_false_eq_true, if_true, ite_true]

theorem match_event_assert (c : Core) (side : Side) (p sz : Rat)
    (mid tid : String) (head : Order) (rest : Level)
    (hget : ladderGet c.asks p = some (head :: rest))
    (hne : head.order_id ≠ mid) :
    match_event c side p sz mid tid
      = .error (.assertionError, match_taker c sz tid) := by
  unfold match_event
  rw [show sideIsStringBuy side = false from rfl]
  simp only [Bool.false_eq_true, if_false]
  rw [matchMaker_head_mismatch (match_taker c sz tid).asks
    (match_taker c sz tid).order_id_to_order p sz mid head rest
    (by rw [match_taker_asks]; exact hget) hne]

/-- The result of a successful `change` on a stored order: the stored
object's size is reassigned in place, seen through both aliases. -/
theorem change_ok (c : Core) (oid : String) (osz nsz : Rat) (o : Order)
    (p0 : Rat) (q : Level)
    (ho : dictGet c.order_id_to_order oid = some o)
    (hp0 : o.price = some p0)
    (hq : ladderGet (sideLadder c o.side) p0 = some q)
    (hqne : q ≠ []) :
    ∃ c2, change c oid osz nsz = .ok c2 ∧
      c2.sequence = c.sequence ∧
      dictGet c2.order_id_to_order oid = some { o with size := some nsz } := by
  obtain ⟨a, t, rfl⟩ : ∃ a t, q = a :: t := by
    cases q with
    | nil => exact absurd rfl hqne
    | cons a t => exact ⟨a, t, rfl⟩
  have hdictAfter :
      dictGet (dictAlias c.order_id_to_order oid { o with size := some nsz })
        oid = some { o with size := some nsz } := by
    unfold dictGet dictAlias
    rw [assocGet_alias_same,
      show assocGet c.order_id_to_order oid = some o from ho]
    rfl
  cases hside : o.side with
  | buy =>
      have hqb : ladderGet c.bids p0 = some (a :: t) := by
        rw [hside] at hq
        exact hq
      have hlev : ladderGet
          (ladderAlias c.bids o.price oid { o with size := some nsz }) p0
          = some ((a :: t).map (fun x => if x.order_id = oid
              then { o with size := some nsz } else x)) := by
        rw [hp0, ladderGet_alias_same, hqb]
        rfl
      rw [hp0, hside] at hlev
      refine ⟨{ c with
          order_id_to_order :=
            dictAlias c.order_id_to_order oid { o with size := some nsz },
          bids := ladderAlias c.bids o.price oid
            { o with size := some nsz } }, ?_, rfl,
        by rw [← hside]; exact hdictAfter⟩
      unfold change
      simp only [ho, hside]
      unfold onChangeGuard
      simp only [show ({ o with size := some nsz } : Order).price = o.price
          from rfl, hp0,
        show ({ o with size := some nsz } : Order).side = o.side from rfl,
        hside, if_true,
        show (Side.buy = Side.sell) = False from by simp, if_false,
        hlev, List.map_cons]
  | sell =>
      have hqa : ladderGet c.asks p0 = some (a :: t) := by
        rw [hside] at hq
        exact hq
      have hlev : ladderGet
          (ladderAlias c.asks o.price oid { o with size := some nsz }) p0
          = some ((a :: t).map (fun x => if x.order_id = oid
              then { o with size := some nsz } else x)) := by
        rw [hp0, ladderGet_alias_same, hqa]
        rfl
      rw [hp0, hside] at hlev
      refine ⟨{ c with
          order_id_to_order :=
            dictAlias c.order_id_to_order oid { o with size := some nsz },
          asks := ladderAlias c.asks o.price oid
            { o with size := some nsz } }, ?_, rfl,
        by rw [← hside]; exact hdictAfter⟩
      unfold change
      simp only [ho, hside]
      unfold onChangeGuard
      simp only [show ({ o with size := some nsz } : Order).price = o.price
          from rfl, hp0,
        show ({ o with size := some nsz } : Order).side = o.side from rfl,
        hside, if_true,
        show (Side.sell = Side.buy) = False from by simp, if_false,
        hlev, List.map_cons]

/-! ### Inconsistent events (C8) -/

/-- C8 counterexample: a match whose maker id is not the head of the queue at
the match price does not proceed best-effort — the `assert` raises an
`AssertionError`, the event's state update never completes, and the sequence
cursor stays at 100 instead of advancing to 101. -/
theorem claim_c8_counterexample :
    update_order_book restingMState matchWrongMakerMsg
      = .error (.assertionError, restingMState) ∧
    restingMState.sequence = 100 := by
  exact ⟨by decide, by decide⟩

/-- C8 amended: a `done` whose side or price differs from the stored order,
and a `change` whose `old_size` disagrees with the stored size, are only
logged — the update still completes and the cursor advances.  But a `match`
whose `maker_order_id` is not the head of the queue at the match price hits
an `assert` and raises, aborting the event with the cursor unchanged, rather
than proceeding best-effort. -/
theorem claim_c8_inconsistent :
    (∀ (c : Core) (m : Message) (s : Int) (oid r sd tm : String) (p rs : Rat)
        (o : Order),
      m.sequence = some s → s = c.sequence + 1 → m.type = some "done" →
      m.order_id = some oid → m.reason = some r → m.price = some p →
      m.side = some sd → m.remaining_size = some rs → m.time = some tm →
      dictGet c.order_id_to_order oid = some o →
      (parseSide sd ≠ o.side ∨ some p ≠ o.price) →
      update_order_book c m
        = .ok { remove c oid (parseSide sd) p with sequence := s }) ∧
    (∀ (c : Core) (m : Message) (s : Int) (tm oid sd : String)
        (pm osz nsz : Rat) (o : Order) (p0 : Rat) (q : Level),
      m.sequence = some s → s = c.sequence + 1 → m.type = some "change" →
      m.time = some tm → m.order_id = some oid → m.price = some pm →
      m.side = some sd → m.new_size = some nsz → m.old_size = some osz →
      dictGet c.order_id_to_order oid = some o →
      o.size ≠ some osz →
      o.price = some p0 →
      ladderGet (sideLadder c o.side) p0 = some q → q ≠ [] →
      ∃ c2, update_order_book c m = .ok c2 ∧ c2.sequence = s ∧
        dictGet c2.order_id_to_order oid = some { o with size := some nsz }) ∧
    (∀ (c : Core) (m : Message) (s : Int) (tm mid tid sd : String) (tr : Int)
        (p sz : Rat) (head : Order) (rest : Level),
      m.sequence = some s → s = c.sequence + 1 → m.type = some "match" →
      m.time = some tm → m.maker_order_id = some mid →
      m.taker_order_id = some tid → m.trade_id = some tr →
      m.price = some p → m.side = some sd → m.size = some sz →
      ladderGet c.asks p = some (head :: rest) →
      head.order_id ≠ mid →
      update_order_book c m
        = .error (.assertionError, match_taker c sz tid) ∧
      (match_taker c sz tid).sequence = c.sequence) := by
  refine ⟨?_, ?_, ?_⟩
  · intro c m s oid r sd tm p rs o hs hnext ht h1 h2 h3 h4 h5 h6 ho hmis
    rw [update_shape c m s "done" hs (by omega) (by omega) ht,
        apply_typed_done_eq c m s (by rw [h3]; rfl),
        apply_done_fields c m oid r sd tm p rs h1 h2 h3 h4 h5 h6]
    rfl
  · intro c m s tm oid sd pm osz nsz o p0 q hs hnext ht h1 h2 h3 h4 h5 h6
      ho hmis hp0 hq hqne
    obtain ⟨c2, hc2, hseq, hdict⟩ := change_ok c oid osz nsz o p0 q ho hp0 hq hqne
    refine ⟨{ c2 with sequence := s }, ?_, rfl, hdict⟩
    rw [update_shape c m s "change" hs (by omega) (by omega) ht,
        apply_typed_change_eq c m s,
        apply_change_fields c m tm oid sd pm osz nsz h1 h2 h3 h4 h5 h6, hc2]
    rfl
  · intro c m s tm mid tid sd tr p sz head rest hs hnext ht h1 h2 h3 h4 h5 h6
      h7 hget hne
    constructor
    · rw [update_shape c m s "match" hs (by omega) (by omega) ht,
          apply_typed_match_eq c m s,
          apply_match_fields c m tm mid tid sd tr p sz h1 h2 h3 h4 h5 h6 h7,
          match_event_assert c (parseSide sd) p sz mid tid head rest hget hne]
      rfl
    · exact match_taker_sequence c sz tid

theorem claim_c8_inconsistent_witness :
    update_order_book restingBState doneWrongPriceMsg
      = .ok { remove restingBState "B" (parseSide "buy") 11 with
              sequence := 101 } ∧
    (∃ c2, update_order_book restingBState changeWrongOldMsg = .ok c2 ∧
      c2.sequence = 101 ∧
      dictGet c2.order_id_to_order "B"
        = some { restingBOrder with size := some 3 }) ∧
    (update_order_book restingMState matchWrongMakerMsg
      = .error (.assertionError, match_taker restingMState 1 "T") ∧
     (match_taker restingMState 1 "T").sequence = restingMState.sequence) :=
  ⟨claim_c8_inconsistent.1 restingBState doneWrongPriceMsg 101 "B" "canceled"
     "buy" "2017-01-01T00:00:00.000000Z" 11 2 restingBOrder
     rfl (by decide) rfl rfl rfl rfl rfl rfl rfl (by decide)
     (Or.inr (by decide)),
   claim_c8_inconsistent.2.1 restingBState changeWrongOldMsg 101
     "2017-01-01T00:00:00.000000Z" "B" "buy" 10 5 3 restingBOrder 10
     [restingBOrder]
     rfl (by decide) rfl rfl rfl rfl rfl rfl rfl (by decide) (by decide)
     (by decide) (by decide) (by decide),
   claim_c8_inconsistent.2.2 restingMState matchWrongMakerMsg 101
     "2017-01-01T00:00:00.000000Z" "X" "T" "sell" 9 10 1 restingMOrder []
     rfl (by decide) rfl rfl rfl rfl rfl rfl rfl rfl (by decide) (by decide)⟩

/-! ### Replay splice (C7) -/

theorem update_ok_sequence (c : Core) (m : Message) (s : Int) (c' : Core)
    (hs : m.sequence = some s) (hle : ¬ s ≤ c.sequence)
    (hok : update_order_book c m = .ok c') : c'.sequence = s := by
  by_cases hgt : c.sequence + 1 < s
  · rw [update_gap c m s hs hgt] at hok
    cases hok
  · cases ht : m.type with
    | none =>
        rw [update_no_type_field c m s hs hle hgt ht] at hok
        cases hok
    | some t =>
        rw [update_shape c m s t hs hle hgt ht] at hok
        cases happ : apply_typed_message c m s t with
        | ok c2 =>
            rw [happ] at hok
            simp only [Except.map] at hok
            cases hok
            rfl
        | error e =>
            rw [happ] at hok
            simp only [Except.map] at hok
            cases hok

theorem drainMessages_nil (n : Nat) (b : OrderBook)
    (hq : b.message_queue = []) : drainMessages n b = .ok b := by
  cases n with
  | zero => rfl
  | succ k =>
      unfold drainMessages
      rw [hq]

theorem drainMessages_step (n : Nat) (b : OrderBook) (msg : Message)
    (rest : List Message) (hq : b.message_queue = msg :: rest) (c' : Core)
    (hup : update_order_book b.core msg = .ok c') :
    drainMessages (n + 1) b
      = drainMessages n { b with message_queue := rest, core := c' } := by
  unfold drainMessages
  rw [hq]
  simp only [hup]
  rw [← drainMessages.eq_def]

/-- C7: with events 48–52 buffered while the snapshot is pending, a snapshot
at sequence 50 makes the drain discard 48, 49, 50 (at or below the snapshot
sequence) and apply 51 then 52 through the live path, so the final book state
is exactly snapshot-application followed by applying 51 and 52 directly, the
cursor is 52, the replay queue is empty and the pending flag is cleared. -/
theorem claim_c7_replay_splice (b : OrderBook) (s : Snapshot)
    (e48 e49 e50 e51 e52 : Message) (c1 c2 : Core)
    (hq : b.message_queue = [e48, e49, e50, e51, e52])
    (hs : s.sequence = 50)
    (h48 : e48.sequence = some 48) (h49 : e49.sequence = some 49)
    (h50 : e50.sequence = some 50) (h51 : e51.sequence = some 51)
    (h52 : e52.sequence = some 52)
    (h51ok : update_order_book
        (apply_order_book_snapshot b.product_id b.core s) e51 = .ok c1)
    (h52ok : update_order_book c1 e52 = .ok c2) :
    on_order_book_snapshot b s
      = .ok { b with
                snapshots := b.snapshots ++ [s]
                core := c2
                message_queue := []
                pending_order_book_snapshot := false } ∧
    c2.sequence = 52 := by
  have hc0seq : (apply_order_book_snapshot b.product_id b.core s).sequence
      = (50 : Int) := by
    rw [show (apply_order_book_snapshot b.product_id b.core s).sequence
        = s.sequence from rfl, hs]
  have hc1seq : c1.sequence = 51 :=
    update_ok_sequence _ e51 51 c1 h51 (by omega) h51ok
  have hc2seq : c2.sequence = 52 :=
    update_ok_sequence c1 e52 52 c2 h52 (by omega) h52ok
  refine ⟨?_, hc2seq⟩
  unfold on_order_book_snapshot
  dsimp only
  have hqlen : ({ b with
      snapshots := b.snapshots ++ [s]
      core := apply_order_book_snapshot b.product_id b.core s }
        : OrderBook).message_queue.length = 5 := by
    show b.message_queue.length = 5
    rw [hq]
    rfl
  rw [hqlen]
  rw [drainMessages_step 4 _ e48 [e49, e50, e51, e52] (by rw [hq]) _
    (update_discard _ e48 48 h48 (by change (48 : Int) ≤ s.sequence; omega))]
  rw [drainMessages_step 3 _ e49 [e50, e51, e52] rfl _
    (update_discard _ e49 49 h49 (by change (49 : Int) ≤ s.sequence; omega))]
  rw [drainMessages_step 2 _ e50 [e51, e52] rfl _
    (update_discard _ e50 50 h50 (by change (50 : Int) ≤ s.sequence; omega))]
  rw [drainMessages_step 1 _ e51 [e52] rfl _ h51ok]
  rw [drainMessages_step 0 _ e52 [] rfl _ h52ok]
  rw [drainMessages_nil 0 _ rfl]

theorem claim_c7_replay_splice_witness :
    on_order_book_snapshot c7Book c7Snap
      = .ok { c7Book with
              snapshots := [c7Snap]
              core :=
                { asks := []
                  bids := [(10, [⟨none, 50, "ETH-USD", "B", "limit",
                                  Side.buy, some 10, some 1, none⟩])]
                  order_id_to_order :=
                    [("B", ⟨none, 50, "ETH-USD", "B", "limit", Side.buy,
                            some 10, some 1, none⟩)]
                  order_id_to_unreflected_order :=
                    [("O1", ⟨some "2017-01-01T00:00:00.000000Z", 51,
                             "ETH-USD", "O1", "limit", Side.buy, some 1,
                             some 1, none⟩),
                     ("O2", ⟨some "2017-01-01T00:00:00.000000Z", 52,
                             "ETH-USD", "O2", "limit", Side.buy, some 1,
                             some 1, none⟩)]
                  sequence := 52 }
              message_queue := []
              pending_order_book_snapshot := false } ∧
    ({ asks := []
       bids := [(10, [⟨none, 50, "ETH-USD", "B", "limit", Side.buy, some 10,
                       some 1, none⟩])]
       order_id_to_order :=
         [("B", ⟨none, 50, "ETH-USD", "B", "limit", Side.buy, some 10,
                 some 1, none⟩)]
       order_id_to_unreflected_order :=
         [("O1", ⟨some "2017-01-01T00:00:00.000000Z", 51, "ETH-USD", "O1",
                  "limit", Side.buy, some 1, some 1, none⟩),
          ("O2", ⟨some "2017-01-01T00:00:00.000000Z", 52, "ETH-USD", "O2",
                  "limit", Side.buy, some 1, some 1, none⟩)]
       sequence := 52 } : Core).sequence = 52 :=
  claim_c7_replay_splice c7Book c7Snap (c7Msg 48) (c7Msg 49) (c7Msg 50)
    (c7Recv 51 "O1") (c7Recv 52 "O2")
    { asks := []
      bids := [(10, [⟨none, 50, "ETH-USD", "B", "limit", Side.buy, some 10,
                      some 1, none⟩])]
      order_id_to_order :=
        [("B", ⟨none, 50, "ETH-USD", "B", "limit", Side.buy, some 10,
                some 1, none⟩)]
      order_id_to_unreflected_order :=
        [("O1", ⟨some "2017-01-01T00:00:00.000000Z", 51, "ETH-USD", "O1",
                 "limit", Side.buy, some 1, some 1, none⟩)]
      sequence := 51 }
    { asks := []
      bids := [(10, [⟨none, 50, "ETH-USD", "B", "limit", Side.buy, some 10,
                      some 1, none⟩])]
      order_id_to_order :=
        [("B", ⟨none, 50, "ETH-USD", "B", "limit", Side.buy, some 10,
                some 1, none⟩)]
      order_id_to_unreflected_order :=
        [("O1", ⟨some "2017-01-01T00:00:00.000000Z", 51, "ETH-USD", "O1",
                 "limit", Side.buy, some 1, some 1, none⟩),
         ("O2", ⟨some "2017-01-01T00:00:00.000000Z", 52, "ETH-USD", "O2",
                 "limit", Side.buy, some 1, some 1, none⟩)]
      sequence := 52 }
    rfl rfl rfl rfl rfl rfl rfl (by decide) (by decide)

/-! ### Invariant I1 (C3) -/

/-- C3 counterexample: a match that fully fills `M`, the only order at ask
level 10.00, leaves the price key mapping to an empty queue — invariant I1 is
violated right after the applied event. -/
theorem claim_c3_counterexample :
    update_order_book i1State i1MatchMsg
      = .ok { i1State with asks := [(10, [])], sequence := 101 } ∧
    ladderGet ({ i1State with asks := [(10, [])], sequence := 101 }
        : Core).asks 10 = some [] ∧
    ¬ I1 ({ i1State with asks := [(10, [])], sequence := 101 } : Core) := by
  exact ⟨by decide, by decide, by decide⟩

theorem assocInsert_mem {κ ν : Type} [DecidableEq κ] (d : List (κ × ν))
    (k : κ) (v : ν) (kv : κ × ν) (h : kv ∈ assocInsert d k v) :
    (kv.1 = k ∧ kv.2 = v) ∨ (kv ∈ d ∧ kv.1 ≠ k) := by
  unfold assocInsert at h
  by_cases hany : d.any (fun kv => kv.1 = k) = true
  · rw [if_pos hany] at h
    obtain ⟨kv0, hkv0, heq⟩ := List.mem_map.mp h
    by_cases hh : kv0.1 = k
    · rw [if_pos hh] at heq
      left
      rw [← heq]
      exact ⟨rfl, rfl⟩
    · rw [if_neg hh] at heq
      right
      rw [← heq]
      exact ⟨hkv0, hh⟩
  · rw [if_neg hany] at h
    rcases List.mem_append.mp h with h1 | h2
    · right
      refine ⟨h1, fun hc => hany ?_⟩
      exact List.any_eq_true.mpr ⟨kv, h1, by simp [hc]⟩
    · left
      have : kv = (k, v) := List.mem_singleton.mp h2
      rw [this]
      exact ⟨rfl, rfl⟩

theorem assocRemove_mem {κ ν : Type} [DecidableEq κ] (d : List (κ × ν))
    (k : κ) (kv : κ × ν) (h : kv ∈ assocRemove d k) : kv ∈ d :=
  List.mem_of_mem_filter h

theorem ladderAlias_mem (l : Ladder) (p : Rat) (k : String) (v : Order)
    (kv : Rat × Level) (h : kv ∈ ladderAlias l (some p) k v) :
    ∃ kv0 ∈ l, kv.1 = kv0.1 ∧
      (kv.2 = kv0.2 ∨
       kv.2 = kv0.2.map (fun x => if x.order_id = k then v else x)) := by
  unfold ladderAlias at h
  obtain ⟨kv0, hkv0, heq⟩ := List.mem_map.mp h
  by_cases hh : kv0.1 = p
  · rw [if_pos hh] at heq
    exact ⟨kv0, hkv0, by rw [← heq], Or.inr (by rw [← heq])⟩
  · rw [if_neg hh] at heq
    exact ⟨kv0, hkv0, by rw [← heq], Or.inl (by rw [← heq])⟩

theorem noEmptyLevels_insert (l : Ladder) (p : Rat) (q : Level)
    (hl : noEmptyLevels l) (hq : q ≠ []) :
    noEmptyLevels (ladderInsert l p q) := by
  intro kv hkv
  rcases assocInsert_mem l p q kv hkv with ⟨_, h2⟩ | ⟨h1, _⟩
  · rw [h2]
    exact hq
  · exact hl kv h1

theorem noEmptyLevels_remove (l : Ladder) (p : Rat)
    (hl : noEmptyLevels l) : noEmptyLevels (ladderRemove l p) := by
  intro kv hkv
  exact hl kv (assocRemove_mem l p kv hkv)

theorem noEmptyLevels_levelAppend (l : Ladder) (p : Rat) (o : Order)
    (hl : noEmptyLevels l) : noEmptyLevels (levelAppend l p o) := by
  unfold levelAppend
  cases ladderGet l p with
  | none => exact noEmptyLevels_insert l p [o] hl (by simp)
  | some q => exact noEmptyLevels_insert l p (q ++ [o]) hl (by simp)

theorem noEmptyLevels_alias (l : Ladder) (p : Option Rat) (k : String)
    (v : Order) (hl : noEmptyLevels l) : noEmptyLevels (ladderAlias l p k v) := by
  cases p with
  | none => exact hl
  | some pr =>
      intro kv hkv
      obtain ⟨kv0, hkv0, _, hor⟩ := ladderAlias_mem l pr k v kv hkv
      rcases hor with h | h
      · rw [h]
        exact hl kv0 hkv0
      · rw [h]
        intro hc
        exact hl kv0 hkv0 (List.map_eq_nil_iff.mp hc)

theorem I1_addOrder (c : Core) (o : Order) (p : Rat) (h : I1 c) :
    I1 (addOrder c o p) := by
  obtain ⟨hb, ha⟩ := h
  unfold addOrder
  split
  · exact ⟨noEmptyLevels_levelAppend _ _ _ hb, ha⟩
  · exact ⟨hb, noEmptyLevels_levelAppend _ _ _ ha⟩

theorem I1_add (c : Core) (o : Order) (c2 : Core) (hok : add c o = .ok c2)
    (h : I1 c) : I1 c2 := by
  unfold add at hok
  cases hp : o.price with
  | none => rw [hp] at hok; cases hok
  | some p =>
      rw [hp] at hok
      cases hok
      exact I1_addOrder c o p h

theorem I1_remove (c : Core) (oid : String) (sd : Side) (price : Rat)
    (h : I1 c) : I1 (remove c oid sd price) := by
  obtain ⟨hb, ha⟩ := h
  unfold remove
  split
  · split
    · exact ⟨hb, ha⟩
    · exact ⟨hb, ha⟩
  · split
    · split
      · exact ⟨hb, ha⟩
      · dsimp only
        split
        · rename_i q hq hlen
          refine ⟨noEmptyLevels_insert _ _ _ hb ?_, ha⟩
          intro hc
          rw [hc] at hlen
          simp at hlen
        · exact ⟨noEmptyLevels_remove _ _ hb, ha⟩
    · split
      · exact ⟨hb, ha⟩
      · dsimp only
        split
        · rename_i q hq hlen
          refine ⟨hb, noEmptyLevels_insert _ _ _ ha ?_⟩
          intro hc
          rw [hc] at hlen
          simp at hlen
        · exact ⟨hb, noEmptyLevels_remove _ _ ha⟩

theorem onMatchGuard_ok (c c2 : Core) (h : onMatchGuard c = .ok c2) :
    c2 = c := by
  unfold onMatchGuard at h
  split at h
  · cases h
  · split at h
    · cases h
    · cases h
      rfl

theorem onChangeGuard_ok (c : Core) (o : Order) (c2 : Core)
    (h : onChangeGuard c o = .ok c2) : c2 = c := by
  unfold onChangeGuard at h
  split at h
  · cases h
  · dsimp only at h
    split at h
    · cases h
    · cases h
    · cases h
      rfl

theorem matchMaker_ok_inv (l : Ladder) (d : OrderDict) (p sz : Rat)
    (mid : String) (l' : Ladder) (d' : OrderDict)
    (h : matchMaker l d p sz mid = some (.ok (l', d'))) :
    ∃ head rest, ladderGet l p = some (head :: rest) ∧ head.order_id = mid ∧
      ((head.size = some sz ∧ l' = ladderInsert l p rest ∧ d' = d) ∨
       (∃ hs, head.size = some hs ∧ ¬ head.size = some sz ∧
         l' = ladderInsert l p ({ head with size := some (hs - sz) } :: rest) ∧
         d' = dictAlias d head.order_id
                { head with size := some (hs - sz) })) := by
  unfold matchMaker at h
  cases hget : ladderGet l p with
  | none => rw [hget] at h; cases h
  | some q =>
      cases q with
      | nil =>
          simp only [hget] at h
          cases h
      | cons head rest =>
          simp only [hget] at h
          refine ⟨head, rest, rfl, ?_, ?_⟩
          all_goals by_cases hne : head.order_id ≠ mid
          · rw [if_pos hne] at h
            simp at h
          · exact of_not_not hne
          · rw [if_pos hne] at h
            simp at h
          · rw [if_neg hne] at h
            by_cases hsz : head.size = some sz
            · rw [if_pos hsz] at h
              simp only [Option.some.injEq, Except.ok.injEq,
                Prod.mk.injEq] at h
              exact Or.inl ⟨hsz, h.1.symm, h.2.symm⟩
            · rw [if_neg hsz] at h
              cases hhs : head.size with
              | none => rw [hhs] at h; simp at h
              | some hs =>
                  rw [hhs] at h
                  simp only [Option.some.injEq, Except.ok.injEq,
                    Prod.mk.injEq] at h
                  exact Or.inr ⟨hs, rfl, hhs ▸ hsz, h.1.symm, h.2.symm⟩

theorem I1_match_event (c : Core) (sd : Side) (p sz : Rat) (mid tid : String)
    (c2 : Core) (hok : match_event c sd p sz mid tid = .ok c2) (h : I1 c)
    (hnful : ∀ head, ladderGet c.asks p = some [head] → head.size ≠ some sz) :
    I1 c2 := by
  obtain ⟨hb, ha⟩ := h
  unfold match_event at hok
  rw [show sideIsStringBuy sd = false from rfl] at hok
  simp only [Bool.false_eq_true, if_false] at hok
  have hb1 : (match_taker c sz tid).bids = c.bids := match_taker_bids c sz tid
  have ha1 : (match_taker c sz tid).asks = c.asks := match_taker_asks c sz tid
  cases hmm : matchMaker (match_taker c sz tid).asks
      (match_taker c sz tid).order_id_to_order p sz mid with
  | none =>
      rw [hmm] at hok
      cases hok
      exact ⟨by rw [hb1]; exact hb, by rw [ha1]; exact ha⟩
  | some r =>
      cases r with
      | error e => rw [hmm] at hok; cases hok
      | ok pair =>
          rw [hmm] at hok
          obtain ⟨l', d'⟩ := pair
          have hc2 := onMatchGuard_ok _ _ hok
          rw [hc2]
          rw [ha1] at hmm
          obtain ⟨head, rest, hget, hmid2, hor⟩ :=
            matchMaker_ok_inv c.asks (match_taker c sz tid).order_id_to_order
              p sz mid l' d' hmm
          refine ⟨?_, ?_⟩
          · show noEmptyLevels (match_taker c sz tid).bids
            rw [hb1]
            exact hb
          · show noEmptyLevels l'
            rcases hor with ⟨hfull, hl', _⟩ | ⟨hs, hhs, hnsz, hl', _⟩
            · rw [hl']
              refine noEmptyLevels_insert _ _ _ ha ?_
              intro hc
              rw [hc] at hget
              exact hnful head hget hfull
            · rw [hl']
              exact noEmptyLevels_insert _ _ _ ha (by simp)

theorem I1_change (c : Core) (oid : String) (osz nsz : Rat) (c2 : Core)
    (hok : change c oid osz nsz = .ok c2) (h : I1 c) : I1 c2 := by
  obtain ⟨hb, ha⟩ := h
  unfold change at hok
  cases hd : dictGet c.order_id_to_order oid with
  | none =>
      simp only [hd] at hok
      cases hok
      exact ⟨hb, ha⟩
  | some o =>
      simp only [hd] at hok
      split at hok
      · have hc2 := onChangeGuard_ok _ _ _ hok
        rw [hc2]
        exact ⟨noEmptyLevels_alias _ _ _ _ hb, ha⟩
      · have hc2 := onChangeGuard_ok _ _ _ hok
        rw [hc2]
        exact ⟨hb, noEmptyLevels_alias _ _ _ _ ha⟩

theorem I1_received (c : Core) (o : Order) (h : I1 c) : I1 (received c o) :=
  h

/-! ### Inversion of the typed branches -/

theorem apply_open_inv (c : Core) (m : Message) (s : Int) (c2 : Core)
    (h : apply_open c m s = .ok c2) :
    ∃ (o : Order) (base : Core) (oid : String),
      m.order_id = some oid ∧
      base.asks = c.asks ∧ base.bids = c.bids ∧
      base.order_id_to_order = c.order_id_to_order ∧
      (o.order_id = oid ∨
        ∃ u, dictGet c.order_id_to_unreflected_order oid = some u ∧
          o.order_id = u.order_id) ∧
      add base o = .ok c2 := by
  unfold apply_open at h
  cases htm : m.time with
  | none => simp only [htm, getf_none, exBind_error] at h; cases h
  | some tm =>
  simp only [htm, getf_some, exBind_ok] at h
  cases hoi : m.order_id with
  | none => simp only [hoi, getf_none, exBind_error] at h; cases h
  | some oid =>
  simp only [hoi, getf_some, exBind_ok] at h
  cases hrs : m.remaining_size with
  | none => simp only [hrs, getf_none, exBind_error] at h; cases h
  | some size =>
  simp only [hrs, getf_some, exBind_ok] at h
  cases hu : dictGet c.order_id_to_unreflected_order oid with
  | some u =>
      simp only [hu] at h
      refine ⟨_, _, oid, rfl, ?_, ?_, ?_, ?_, h⟩
      · rfl
      · rfl
      · rfl
      · exact Or.inr ⟨u, hu, rfl⟩
  | none =>
      simp only [hu] at h
      cases hpi : m.product_id with
      | none => simp only [hpi, getf_none, exBind_error] at h; cases h
      | some pid =>
      simp only [hpi, getf_some, exBind_ok] at h
      cases hsd : m.side with
      | none => simp only [hsd, getf_none, exBind_error] at h; cases h
      | some sd =>
      simp only [hsd, getf_some, exBind_ok] at h
      cases hp : m.price with
      | none => simp only [hp, getf_none, exBind_error] at h; cases h
      | some p =>
      simp only [hp, getf_some, exBind_ok] at h
      refine ⟨_, _, oid, rfl, ?_, ?_, ?_, ?_, h⟩
      · rfl
      · rfl
      · rfl
      · exact Or.inl rfl

theorem apply_done_inv (c : Core) (m : Message) (c2 : Core)
    (h : apply_done c m = .ok c2) :
    ∃ (oid sd : String) (p : Rat),
      m.order_id = some oid ∧ m.side = some sd ∧ m.price = some p ∧
      c2 = remove c oid (parseSide sd) p := by
  unfold apply_done at h
  cases hoi : m.order_id with
  | none => simp only [hoi, getf_none, exBind_error] at h; cases h
  | some oid =>
  simp only [hoi, getf_some, exBind_ok] at h
  cases hr : m.reason with
  | none => simp only [hr, getf_none, exBind_error] at h; cases h
  | some r =>
  simp only [hr, getf_some, exBind_ok] at h
  cases hp : m.price with
  | none => simp only [hp, getf_none, exBind_error] at h; cases h
  | some p =>
  simp only [hp, getf_some, exBind_ok] at h
  cases hsd : m.side with
  | none => simp only [hsd, getf_none, exBind_error] at h; cases h
  | some sd =>
  simp only [hsd, getf_some, exBind_ok] at h
  cases hrs : m.remaining_size with
  | none => simp only [hrs, getf_none, exBind_error] at h; cases h
  | some rs =>
  simp only [hrs, getf_some, exBind_ok] at h
  cases htm : m.time with
  | none => simp only [htm, getf_none, exBind_error] at h; cases h
  | some tm =>
  simp only [htm, getf_some, exBind_ok, exPure] at h
  exact ⟨oid, sd, p, rfl, rfl, rfl, by cases h; rfl⟩

theorem apply_match_inv (c : Core) (m : Message) (c2 : Core)
    (h : apply_match c m = .ok c2) :
    ∃ (sd mid tid : String) (p sz : Rat),
      m.price = some p ∧ m.size = some sz ∧
      match_event c (parseSide sd) p sz mid tid = .ok c2 := by
  unfold apply_match at h
  cases htm : m.time with
  | none => simp only [htm, getf_none, exBind_error] at h; cases h
  | some tm =>
  simp only [htm, getf_some, exBind_ok] at h
  cases hmi : m.maker_order_id with
  | none => simp only [hmi, getf_none, exBind_error] at h; cases h
  | some mid =>
  simp only [hmi, getf_some, exBind_ok] at h
  cases hti : m.taker_order_id with
  | none => simp only [hti, getf_none, exBind_error] at h; cases h
  | some tid =>
  simp only [hti, getf_some, exBind_ok] at h
  cases htr : m.trade_id with
  | none => simp only [htr, getf_none, exBind_error] at h; cases h
  | some tr =>
  simp only [htr, getf_some, exBind_ok] at h
  cases hp : m.price with
  | none => simp only [hp, getf_none, exBind_error] at h; cases h
  | some p =>
  simp only [hp, getf_some, exBind_ok] at h
  cases hsd : m.side with
  | none => simp only [hsd, getf_none, exBind_error] at h; cases h
  | some sd =>
  simp only [hsd, getf_some, exBind_ok] at h
  cases hsz : m.size with
  | none => simp only [hsz, getf_none, exBind_error] at h; cases h
  | some sz =>
  simp only [hsz, getf_some, exBind_ok] at h
  exact ⟨sd, mid, tid, p, sz, rfl, rfl, h⟩

theorem apply_change_inv (c : Core) (m : Message) (c2 : Core)
    (h : apply_change c m = .ok c2) :
    ∃ (oid : String) (osz nsz : Rat),
      m.order_id = some oid ∧ m.old_size = some osz ∧
      m.new_size = some nsz ∧
      change c oid osz nsz = .ok c2 := by
  unfold apply_change at h
  cases htm : m.time with
  | none => simp only [htm, getf_none, exBind_error] at h; cases h
  | some tm =>
  simp only [htm, getf_some, exBind_ok] at h
  cases hoi : m.order_id with
  | none => simp only [hoi, getf_none, exBind_error] at h; cases h
  | some oid =>
  simp only [hoi, getf_some, exBind_ok] at h
  cases hp : m.price with
  | none => simp only [hp, getf_none, exBind_error] at h; cases h
  | some p =>
  simp only [hp, getf_some, exBind_ok] at h
  cases hsd : m.side with
  | none => simp only [hsd, getf_none, exBind_error] at h; cases h
  | some sd =>
  simp only [hsd, getf_some, exBind_ok] at h
  cases hns : m.new_size with
  | none => simp only [hns, getf_none, exBind_error] at h; cases h
  | some nsz =>
  simp only [hns, getf_some, exBind_ok] at h
  cases hos : m.old_size with
  | none => simp only [hos, getf_none, exBind_error] at h; cases h
  | some osz =>
  simp only [hos, getf_some, exBind_ok] at h
  exact ⟨oid, osz, nsz, rfl, rfl, rfl, h⟩

theorem apply_received_inv (c : Core) (m : Message) (s : Int) (c2 : Core)
    (h : apply_received c m s = .ok c2) :
    ∃ o, c2 = received c o := by
  unfold apply_received at h
  cases hot : m.order_type with
  | none => simp only [hot, getf_none, exBind_error] at h; cases h
  | some ot =>
  simp only [hot, getf_some, exBind_ok] at h
  have hrest : ∀ (pr szo fnd : Option Rat),
      (do
        let time ← getf c m.time "time"
        let product_id ← getf c m.product_id "product_id"
        let order_id ← getf c m.order_id "order_id"
        let side ← getf c m.side "side"
        pure (received c
          { time := some time, sequence := s, product_id := product_id,
            order_id := order_id, order_type := ot,
            side := parseSide side, price := pr, size := szo,
            funds := fnd })) = Except.ok c2 →
      ∃ o, c2 = received c o := by
    intro pr szo fnd hh
    cases htm : m.time with
    | none => simp only [htm, getf_none, exBind_error] at hh; cases hh
    | some tm =>
    simp only [htm, getf_some, exBind_ok] at hh
    cases hpi : m.product_id with
    | none => simp only [hpi, getf_none, exBind_error] at hh; cases hh
    | some pid =>
    simp only [hpi, getf_some, exBind_ok] at hh
    cases hoi : m.order_id with
    | none => simp only [hoi, getf_none, exBind_error] at hh; cases hh
    | some oid =>
    simp only [hoi, getf_some, exBind_ok] at hh
    cases hsd : m.side with
    | none => simp only [hsd, getf_none, exBind_error] at hh; cases hh
    | some sd =>
    simp only [hsd, getf_some, exBind_ok, exPure] at hh
    exact ⟨_, by cases hh; rfl⟩
  split at h
  · simp only [exPure, exBind_ok] at h
    exact hrest _ _ _ h
  split at h
  · cases hsz : m.size with
    | none => simp only [hsz, getf_none, exBind_error] at h; cases h
    | some sz =>
    simp only [hsz, getf_some, exBind_ok] at h
    cases hp : m.price with
    | none => simp only [hp, getf_none, exBind_error] at h; cases h
    | some p =>
    simp only [hp, getf_some, exBind_ok, exPure] at h
    exact hrest _ _ _ h
  · split at h
    · simp only [exPure, exBind_ok] at h
      exact hrest _ _ _ h
    · simp only [exThrow, exBind_error] at h
      cases h

theorem I1_apply_typed (c : Core) (m : Message) (s : Int) (t : String)
    (c2 : Core) (happ : apply_typed_message c m s t = .ok c2) (h : I1 c)
    (hnful : ∀ p sz, t = "match" → m.price = some p → m.size = some sz →
       ∀ head, ladderGet c.asks p = some [head] → head.size ≠ some sz) :
    I1 c2 := by
  unfold apply_typed_message at happ
  split at happ
  · obtain ⟨o, base, oid, _, hba, hbb, _, _, hadd⟩ :=
      apply_open_inv c m s c2 happ
    exact I1_add base o c2 hadd ⟨by rw [hbb]; exact h.1, by rw [hba]; exact h.2⟩
  split at happ
  · obtain ⟨oid, sd, p, _, _, _, hc2⟩ := apply_done_inv c m c2 happ
    rw [hc2]
    exact I1_remove c oid (parseSide sd) p h
  split at happ
  · rename_i ht3
    obtain ⟨sd, mid, tid, p, sz, hp, hsz, hme⟩ := apply_match_inv c m c2 happ
    exact I1_match_event c (parseSide sd) p sz mid tid c2 hme h
      (hnful p sz ht3 hp hsz)
  split at happ
  · obtain ⟨oid, osz, nsz, _, _, _, hch⟩ := apply_change_inv c m c2 happ
    exact I1_change c oid osz nsz c2 hch h
  split at happ
  · obtain ⟨o, hc2⟩ := apply_received_inv c m s c2 happ
    rw [hc2]
    exact I1_received c o h
  · cases happ
    exact h

/-- C3 (amended): on a state satisfying I1, every successfully applied event
preserves I1 — with one exclusion, witnessed false by the recorded
counterexample: a `match` that fully fills the only order at its price level
leaves an empty queue under that price key instead of deleting it.  Under
the hypothesis that no such full fill of a singleton level occurs, `open`,
`done`, `match`, `change` and `received` (and discarded or unrecognized
messages) all keep both ladders free of empty queues. -/
theorem claim_c3_amended (c : Core) (m : Message) (c2 : Core)
    (h : I1 c) (hok : update_order_book c m = .ok c2)
    (hnful : ∀ p sz, m.type = some "match" → m.price = some p →
       m.size = some sz → ∀ head, ladderGet c.asks p = some [head] →
       head.size ≠ some sz) :
    I1 c2 := by
  cases hs : m.sequence with
  | none => rw [update_no_sequence_field c m hs] at hok; cases hok
  | some s =>
      by_cases hle : s ≤ c.sequence
      · rw [update_discard c m s hs hle] at hok
        cases hok
        exact h
      · by_cases hgt : c.sequence + 1 < s
        · rw [update_gap c m s hs hgt] at hok
          cases hok
        · cases ht : m.type with
          | none =>
              rw [update_no_type_field c m s hs hle hgt ht] at hok
              cases hok
          | some t =>
              rw [update_shape c m s t hs hle hgt ht] at hok
              cases happ : apply_typed_message c m s t with
              | error e =>
                  rw [happ] at hok
                  simp only [Except.map] at hok
                  cases hok
              | ok c3 =>
                  rw [happ] at hok
                  simp only [Except.map] at hok
                  cases hok
                  have h3 : I1 c3 := I1_apply_typed c m s t c3 happ h
                    (fun p sz htt hp hsz =>
                      hnful p sz (by rw [ht, htt]) hp hsz)
                  exact ⟨h3.1, h3.2⟩

theorem claim_c3_amended_witness :
    I1 { asks := [(10, [⟨none, 100, "ETH-USD", "M", "limit", Side.sell,
                         some 10, some (1/4), none⟩])]
         bids := [(9, [⟨none, 100, "ETH-USD", "B", "limit", Side.buy,
                        some 9, some 1, none⟩])]
         order_id_to_order :=
           [("B", ⟨none, 100, "ETH-USD", "B", "limit", Side.buy,
                   some 9, some 1, none⟩),
            ("M", ⟨none, 100, "ETH-USD", "M", "limit", Side.sell,
                   some 10, some (1/4), none⟩)]
         order_id_to_unreflected_order := []
         sequence := 101 } :=
  claim_c3_amended i1State i1PartialMsg _ (by decide) (by decide)
    (fun p sz _ hp hsz head hget => by
      injection hp with hp2
      injection hsz with hsz2
      subst hp2
      subst hsz2
      have hg : ladderGet i1State.asks 10
          = some [(⟨none, 100, "ETH-USD", "M", "limit", Side.sell,
                    some 10, some (1/2), none⟩ : Order)] := by decide
      rw [hg] at hget
      injection hget with h1
      injection h1 with h2 h3
      rw [← h2]
      decide)


/-! ### Invariant I2 (C4) -/

/-- C4 counterexample: after the full-fill match of `M` (the maker is
deliberately left resting until the follow-up `done`), `M` is still a key of
the resting index but no ladder entry with that id remains, so I2 fails. -/
theorem claim_c4_counterexample :
    I2 i1State ∧
    update_order_book i1State i1MatchMsg
      = .ok { i1State with asks := [(10, [])], sequence := 101 } ∧
    (dictGet ({ i1State with asks := [(10, [])], sequence := 101 }
        : Core).order_id_to_order "M").isSome ∧
    levelCount ({ i1State with asks := [(10, [])], sequence := 101 }
        : Core).asks 10 "M" = 0 ∧
    ¬ I2 ({ i1State with asks := [(10, [])], sequence := 101 } : Core) :=
  ⟨by decide, by decide, by decide, by decide, by decide⟩

theorem assocGet_mem {κ ν : Type} [DecidableEq κ] (d : List (κ × ν)) (k : κ)
    (v : ν) (h : assocGet d k = some v) : (k, v) ∈ d := by
  unfold assocGet at h
  cases hf : d.find? (fun kv => kv.1 = k) with
  | none => rw [hf] at h; cases h
  | some kv =>
      rw [hf] at h
      simp only [Option.map_some'] at h
      have hmem := List.mem_of_find?_eq_some hf
      have hpred := List.find?_some hf
      have hk : kv.1 = k := by simpa using hpred
      have hkv : kv = (k, v) := by
        obtain ⟨a, b⟩ := kv
        simp only [Option.some.injEq] at h
        simp only at hk h
        rw [hk, h]
      rw [← hkv]
      exact hmem

theorem assocGet_none_forall {κ ν : Type} [DecidableEq κ] (d : List (κ × ν))
    (k : κ) (h : assocGet d k = none) : ∀ kv ∈ d, kv.1 ≠ k := by
  intro kv hkv hc
  have hf : d.find? (fun kv => kv.1 = k) = none := by
    cases hf : d.find? (fun kv => kv.1 = k) with
    | none => rfl
    | some kv0 => unfold assocGet at h; rw [hf] at h; cases h
  rw [List.find?_eq_none] at hf
  exact hf kv hkv (by simpa using hc)

theorem assocInsert_of_get_none {κ ν : Type} [DecidableEq κ]
    (d : List (κ × ν)) (k : κ) (v : ν) (h : assocGet d k = none) :
    assocInsert d k v = d ++ [(k, v)] := by
  unfold assocInsert
  rw [if_neg]
  intro hc
  obtain ⟨kv, hkv, hp⟩ := List.any_eq_true.mp hc
  exact assocGet_none_forall d k h kv hkv (by simpa using hp)

theorem assocGet_append_some {κ ν : Type} [DecidableEq κ]
    (d e : List (κ × ν)) (k : κ) (v : ν) (h : assocGet d k = some v) :
    assocGet (d ++ e) k = some v := by
  induction d with
  | nil => exact absurd h (by simp [assocGet])
  | cons hd tl ih =>
      rw [assocGet_cons] at h
      rw [List.cons_append, assocGet_cons]
      by_cases hh : hd.1 = k
      · rw [if_pos hh] at h ⊢; exact h
      · rw [if_neg hh] at h ⊢; exact ih h

theorem assocGet_append_none {κ ν : Type} [DecidableEq κ]
    (d : List (κ × ν)) (k : κ) (v : ν) (h : assocGet d k = none) :
    assocGet (d ++ [(k, v)]) k = some v := by
  induction d with
  | nil => simp [assocGet]
  | cons hd tl ih =>
      rw [assocGet_cons] at h
      rw [List.cons_append, assocGet_cons]
      by_cases hh : hd.1 = k
      · rw [if_pos hh] at h; cases h
      · rw [if_neg hh] at h ⊢; exact ih h

theorem assocRemove_mem_strong {κ ν : Type} [DecidableEq κ]
    (d : List (κ × ν)) (k : κ) (kv : κ × ν) (h : kv ∈ assocRemove d k) :
    kv ∈ d ∧ kv.1 ≠ k := by
  unfold assocRemove at h
  have := List.mem_filter.mp h
  exact ⟨this.1, by simpa using this.2⟩

theorem assocAlias_mem {κ ν : Type} [DecidableEq κ] (d : List (κ × ν))
    (k : κ) (v : ν) (kv : κ × ν) (h : kv ∈ assocAlias d k v) :
    kv = (k, v) ∨ (kv ∈ d ∧ kv.1 ≠ k) := by
  unfold assocAlias at h
  obtain ⟨kv0, hkv0, heq⟩ := List.mem_map.mp h
  by_cases hh : kv0.1 = k
  · rw [if_pos hh] at heq
    left
    rw [← heq]
  · rw [if_neg hh] at heq
    right
    rw [← heq]
    exact ⟨hkv0, hh⟩

theorem ladderAlias_mem_strong (l : Ladder) (p : Rat) (k : String) (v : Order)
    (kv : Rat × Level) (h : kv ∈ ladderAlias l (some p) k v) :
    ∃ kv0 ∈ l, kv.1 = kv0.1 ∧
      ((kv0.1 = p ∧
        kv.2 = kv0.2.map (fun x => if x.order_id = k then v else x)) ∨
       (kv0.1 ≠ p ∧ kv.2 = kv0.2)) := by
  unfold ladderAlias at h
  obtain ⟨kv0, hkv0, heq⟩ := List.mem_map.mp h
  by_cases hh : kv0.1 = p
  · rw [if_pos hh] at heq
    exact ⟨kv0, hkv0, by rw [← heq], Or.inl ⟨hh, by rw [← heq]⟩⟩
  · rw [if_neg hh] at heq
    exact ⟨kv0, hkv0, by rw [← heq], Or.inr ⟨hh, by rw [← heq]⟩⟩

/-! ### Counting lemmas for I2 -/

theorem countP_alias_level (q : Level) (k : String) (v : Order)
    (hv : v.order_id = k) (x : String) :
    (q.map (fun o => if o.order_id = k then v else o)).countP
        (fun o => o.order_id = x)
      = q.countP (fun o => o.order_id = x) := by
  induction q with
  | nil => rfl
  | cons a q ih =>
      simp only [List.map_cons, List.countP_cons, ih]
      by_cases hak : a.order_id = k
      · simp [hak, hv]
      · simp [hak]

theorem countP_cons_same_id (head head2 : Order) (rest : Level) (x : String)
    (h : head2.order_id = head.order_id) :
    (head2 :: rest).countP (fun o => o.order_id = x)
      = (head :: rest).countP (fun o => o.order_id = x) := by
  simp [List.countP_cons, h]

theorem countP_filter_ne_id (q : Level) (oid x : String) (hne : ¬ x = oid) :
    (q.filter (fun o => o.order_id ≠ oid)).countP (fun o => o.order_id = x)
      = q.countP (fun o => o.order_id = x) := by
  induction q with
  | nil => rfl
  | cons a q ih =>
      by_cases ha : a.order_id = oid
      · rw [List.filter_cons, if_neg (by simp [ha]), ih, List.countP_cons]
        have hax : ¬ a.order_id = x := fun hc => hne (hc.symm.trans ha)
        simp [hax]
      · rw [List.filter_cons, if_pos (by simp [ha]), List.countP_cons,
          List.countP_cons, ih]

theorem levelCount_insert_same (l : Ladder) (p : Rat) (q : Level)
    (x : String) :
    levelCount (ladderInsert l p q) p x
      = q.countP (fun o => o.order_id = x) := by
  unfold levelCount ladderGet ladderInsert
  rw [assocGet_insert_same]
  rfl

theorem levelCount_insert_ne (l : Ladder) (p p' : Rat) (q : Level)
    (x : String) (h : ¬ p' = p) :
    levelCount (ladderInsert l p q) p' x = levelCount l p' x := by
  unfold levelCount ladderGet ladderInsert
  rw [assocGet_insert_ne l p p' q h]

theorem levelCount_remove_ne (l : Ladder) (p p' : Rat) (x : String)
    (h : ¬ p' = p) :
    levelCount (ladderRemove l p) p' x = levelCount l p' x := by
  unfold levelCount ladderGet ladderRemove
  rw [assocGet_remove_ne l p p' h]

theorem levelCount_alias (l : Ladder) (p p' : Rat) (k : String) (v : Order)
    (hv : v.order_id = k) (x : String) :
    levelCount (ladderAlias l (some p) k v) p' x = levelCount l p' x := by
  by_cases hp : p' = p
  · subst hp
    unfold levelCount
    rw [ladderGet_alias_same]
    cases hq : ladderGet l p' with
    | none => rfl
    | some q =>
        simp only [Option.map_some', Option.getD_some]
        exact countP_alias_level q k v hv x
  · unfold levelCount
    rw [ladderGet_alias_ne l p p' k v hp]

theorem ladderGet_levelAppend_same (l : Ladder) (p : Rat) (o : Order) :
    ladderGet (levelAppend l p o) p
      = some (((ladderGet l p).getD []) ++ [o]) := by
  unfold levelAppend
  cases hq : ladderGet l p with
  | none =>
      show ladderGet (ladderInsert l p [o]) p = _
      unfold ladderGet ladderInsert
      rw [assocGet_insert_same]
      rfl
  | some q =>
      show ladderGet (ladderInsert l p (q ++ [o])) p = _
      unfold ladderGet ladderInsert
      rw [assocGet_insert_same]
      rfl

theorem ladderGet_levelAppend_ne (l : Ladder) (p p' : Rat) (o : Order)
    (h : ¬ p' = p) :
    ladderGet (levelAppend l p o) p' = ladderGet l p' := by
  unfold levelAppend
  cases ladderGet l p with
  | none => exact assocGet_insert_ne l p p' [o] h
  | some q => exact assocGet_insert_ne l p p' (q ++ [o]) h

theorem levelCount_levelAppend_ne_id (l : Ladder) (p p' : Rat) (o : Order)
    (x : String) (ho : ¬ o.order_id = x) :
    levelCount (levelAppend l p o) p' x = levelCount l p' x := by
  by_cases hp : p' = p
  · subst hp
    unfold levelCount
    rw [ladderGet_levelAppend_same]
    simp only [Option.getD_some, List.countP_append]
    simp [List.countP_cons, ho]
  · unfold levelCount
    rw [ladderGet_levelAppend_ne l p p' o hp]

theorem levelCount_levelAppend_self (l : Ladder) (p : Rat) (o : Order) :
    levelCount (levelAppend l p o) p o.order_id
      = levelCount l p o.order_id + 1 := by
  unfold levelCount
  rw [ladderGet_levelAppend_same]
  simp [List.countP_append, List.countP_cons]

theorem levelCount_of_idAbsent (l : Ladder) (p : Rat) (x : String)
    (h : idAbsent l x) : levelCount l p x = 0 := by
  unfold levelCount
  cases hq : ladderGet l p with
  | none => rfl
  | some q => simpa using h (p, q) (assocGet_mem l p q hq)

theorem levelCount_pos_of_mem (l : Ladder) (p : Rat) (q : Level) (o : Order)
    (hget : ladderGet l p = some q) (ho : o ∈ q) :
    0 < levelCount l p o.order_id := by
  unfold levelCount
  rw [hget]
  simp only [Option.getD_some]
  exact List.countP_pos.mpr ⟨o, ho, by simp⟩

theorem countP_pos_of_mem (q : Level) (o : Order) (ho : o ∈ q) :
    0 < q.countP (fun x => x.order_id = o.order_id) :=
  List.countP_pos.mpr ⟨o, ho, by simp⟩


/-! ### idAbsent / idOnlyAt through the ladder operations -/

theorem idAbsent_insert (l : Ladder) (p : Rat) (q : Level) (x : String)
    (h : idAbsent l x) (hq : q.countP (fun o => o.order_id = x) = 0) :
    idAbsent (ladderInsert l p q) x := by
  intro kv hkv
  rcases assocInsert_mem l p q kv hkv with ⟨_, h2⟩ | ⟨h1, _⟩
  · rw [h2]; exact hq
  · exact h kv h1

theorem idAbsent_remove (l : Ladder) (p : Rat) (x : String)
    (h : idAbsent l x) : idAbsent (ladderRemove l p) x :=
  fun kv hkv => h kv (assocRemove_mem l p kv hkv)

theorem idAbsent_levelAppend (l : Ladder) (p : Rat) (o : Order) (x : String)
    (h : idAbsent l x) (ho : ¬ o.order_id = x) :
    idAbsent (levelAppend l p o) x := by
  unfold levelAppend
  cases hq : ladderGet l p with
  | none => exact idAbsent_insert l p [o] x h (by simp [ho])
  | some q =>
      refine idAbsent_insert l p (q ++ [o]) x h ?_
      have h0 : q.countP (fun o => o.order_id = x) = 0 :=
        h (p, q) (assocGet_mem l p q hq)
      rw [List.countP_append, h0]
      simp [List.countP_cons, ho]

theorem idAbsent_alias (l : Ladder) (p : Rat) (k : String) (v : Order)
    (x : String) (hv : v.order_id = k) (h : idAbsent l x) :
    idAbsent (ladderAlias l (some p) k v) x := by
  intro kv hkv
  obtain ⟨kv0, hkv0, _, hor⟩ := ladderAlias_mem l p k v kv hkv
  rcases hor with he | he
  · rw [he]; exact h kv0 hkv0
  · rw [he, countP_alias_level kv0.2 k v hv x]; exact h kv0 hkv0

theorem idOnlyAt_insert_other (l : Ladder) (p : Rat) (q : Level) (px : Rat)
    (x : String) (h : idOnlyAt l px x)
    (hq : q.countP (fun o => o.order_id = x) = 0 ∨ p = px) :
    idOnlyAt (ladderInsert l p q) px x := by
  intro kv hkv hne
  rcases assocInsert_mem l p q kv hkv with ⟨h1, h2⟩ | ⟨h1, _⟩
  · rw [h2]
    rcases hq with hq | hq
    · exact hq
    · exact absurd (h1.trans hq) hne
  · exact h kv h1 hne

theorem idOnlyAt_remove (l : Ladder) (p : Rat) (px : Rat) (x : String)
    (h : idOnlyAt l px x) : idOnlyAt (ladderRemove l p) px x :=
  fun kv hkv hne => h kv (assocRemove_mem l p kv hkv) hne

theorem idOnlyAt_levelAppend (l : Ladder) (p : Rat) (o : Order) (px : Rat)
    (x : String) (h : idOnlyAt l px x) (ho : ¬ o.order_id = x) :
    idOnlyAt (levelAppend l p o) px x := by
  unfold levelAppend
  cases hq : ladderGet l p with
  | none =>
      refine idOnlyAt_insert_other l p [o] px x h (Or.inl ?_)
      simp [List.countP_cons, ho]
  | some q =>
      by_cases hpx : p = px
      · exact idOnlyAt_insert_other l p (q ++ [o]) px x h (Or.inr hpx)
      · refine idOnlyAt_insert_other l p (q ++ [o]) px x h (Or.inl ?_)
        have h0 : q.countP (fun o => o.order_id = x) = 0 :=
          h (p, q) (assocGet_mem l p q hq) hpx
        rw [List.countP_append, h0]
        simp [List.countP_cons, ho]

theorem idOnlyAt_alias (l : Ladder) (p : Rat) (k : String) (v : Order)
    (px : Rat) (x : String) (hv : v.order_id = k) (h : idOnlyAt l px x) :
    idOnlyAt (ladderAlias l (some p) k v) px x := by
  intro kv hkv hne
  obtain ⟨kv0, hkv0, h1, hor⟩ := ladderAlias_mem l p k v kv hkv
  rcases hor with he | he
  · rw [he]; exact h kv0 hkv0 (fun hc => hne (h1.trans hc))
  · rw [he, countP_alias_level kv0.2 k v hv x]
    exact h kv0 hkv0 (fun hc => hne (h1.trans hc))

theorem levelAppend_mem_strong (l : Ladder) (p : Rat) (o : Order)
    (kv : Rat × Level) (h : kv ∈ levelAppend l p o) :
    (kv.1 = p ∧ kv.2 = ((ladderGet l p).getD []) ++ [o]) ∨
      (kv ∈ l ∧ kv.1 ≠ p) := by
  unfold levelAppend at h
  cases hq : ladderGet l p with
  | none =>
      rw [hq] at h
      rcases assocInsert_mem l p [o] kv h with ⟨h1, h2⟩ | h1
      · left
        refine ⟨h1, ?_⟩
        rw [h2]
        rfl
      · right
        exact h1
  | some q =>
      rw [hq] at h
      rcases assocInsert_mem l p (q ++ [o]) kv h with ⟨h1, h2⟩ | h1
      · left
        refine ⟨h1, ?_⟩
        rw [h2]
        rfl
      · right
        exact h1

/-! ### GoodBook transport and GoodBook → I2 -/

theorem sideLadder_congr (c1 c2 : Core) (ha : c1.asks = c2.asks)
    (hb : c1.bids = c2.bids) (s : Side) :
    sideLadder c1 s = sideLadder c2 s := by
  cases s
  · exact hb
  · exact ha

theorem GoodBook_congr (c1 c2 : Core) (ha : c1.asks = c2.asks)
    (hb : c1.bids = c2.bids)
    (hd : c1.order_id_to_order = c2.order_id_to_order)
    (h : GoodBook c1) : GoodBook c2 := by
  obtain ⟨h1, h2a, h2b⟩ := h
  refine ⟨?_, ?_, ?_⟩
  · intro kv hkv
    rw [← hd] at hkv
    obtain ⟨e1, e2, e3, e4, e5⟩ := h1 kv hkv
    rw [← sideLadder_congr c1 c2 ha hb, ← sideLadder_congr c1 c2 ha hb]
    exact ⟨e1, e2, e3, e4, e5⟩
  · intro kv hkv o ho
    rw [← hb] at hkv
    rw [← hd]
    exact h2a kv hkv o ho
  · intro kv hkv o ho
    rw [← ha] at hkv
    rw [← hd]
    exact h2b kv hkv o ho

theorem GoodBook_I2 (c : Core) (h : GoodBook c) : I2 c := by
  obtain ⟨h1, h2a, h2b⟩ := h
  refine ⟨fun kv hkv => ?_, fun kv hkv o ho => ?_, fun kv hkv o ho => ?_⟩
  · obtain ⟨_, e2, e3, _, _⟩ := h1 kv hkv
    exact ⟨e2, e3⟩
  · rw [h2a kv hkv o ho]
    rfl
  · rw [h2b kv hkv o ho]
    rfl


/-! ### GoodBook preservation by the per-event operations -/

theorem GoodBook_addOrder (c : Core) (o : Order) (p : Rat)
    (hp : o.price = some p) (h : GoodBook c)
    (hfd : dictGet c.order_id_to_order o.order_id = none)
    (hfb : idAbsent c.bids o.order_id)
    (hfa : idAbsent c.asks o.order_id) :
    GoodBook (addOrder c o p) := by
  obtain ⟨h1, h2a, h2b⟩ := h
  have hins : dictInsert c.order_id_to_order o.order_id o
      = c.order_id_to_order ++ [(o.order_id, o)] :=
    assocInsert_of_get_none _ _ _ hfd
  by_cases hside : o.side = Side.buy
  · have hB : (addOrder c o p).bids = levelAppend c.bids p o := by
      rw [addOrder_buy c o p hside]
    have hA : (addOrder c o p).asks = c.asks := by
      rw [addOrder_buy c o p hside]
    have hD : (addOrder c o p).order_id_to_order
        = c.order_id_to_order ++ [(o.order_id, o)] := by
      rw [addOrder_buy c o p hside]
      exact hins
    refine ⟨?_, ?_, ?_⟩
    · intro kv hkv
      rw [hD] at hkv
      rcases List.mem_append.mp hkv with hold | hnew
      · obtain ⟨e1, e2, e3, e4, e5⟩ := h1 kv hold
        have hone : ¬ o.order_id = kv.1 := fun hc =>
          (assocGet_none_forall _ _ hfd kv hold) hc.symm
        cases hs0 : kv.2.side with
        | buy =>
            rw [hs0] at e3 e4 e5
            refine ⟨e1, e2, ?_, ?_, ?_⟩
            · show levelCount (addOrder c o p).bids (kv.2.price.getD 0) kv.1 = 1
              rw [hB, levelCount_levelAppend_ne_id c.bids p _ o kv.1 hone]
              exact e3
            · show idOnlyAt (addOrder c o p).bids (kv.2.price.getD 0) kv.1
              rw [hB]
              exact idOnlyAt_levelAppend c.bids p o _ kv.1 e4 hone
            · show idAbsent (addOrder c o p).asks kv.1
              rw [hA]
              exact e5
        | sell =>
            rw [hs0] at e3 e4 e5
            refine ⟨e1, e2, ?_, ?_, ?_⟩
            · show levelCount (addOrder c o p).asks (kv.2.price.getD 0) kv.1 = 1
              rw [hA]
              exact e3
            · show idOnlyAt (addOrder c o p).asks (kv.2.price.getD 0) kv.1
              rw [hA]
              exact e4
            · show idAbsent (addOrder c o p).bids kv.1
              rw [hB]
              exact idAbsent_levelAppend c.bids p o kv.1 e5 hone
      · have hkv2 : kv = (o.order_id, o) := List.mem_singleton.mp hnew
        subst hkv2
        refine ⟨rfl, ?_, ?_, ?_, ?_⟩
        · show o.price.isSome = true
          rw [hp]
          rfl
        · show levelCount (sideLadder (addOrder c o p) o.side)
              (o.price.getD 0) o.order_id = 1
          rw [hside, hp]
          show levelCount (addOrder c o p).bids p o.order_id = 1
          rw [hB, levelCount_levelAppend_self,
            levelCount_of_idAbsent c.bids p o.order_id hfb]
        · show idOnlyAt (sideLadder (addOrder c o p) o.side)
              (o.price.getD 0) o.order_id
          rw [hside, hp]
          show idOnlyAt (addOrder c o p).bids p o.order_id
          rw [hB]
          intro kv' hkv' hne
          rcases levelAppend_mem_strong c.bids p o kv' hkv' with ⟨h1', _⟩ | ⟨h1', _⟩
          · exact absurd h1' hne
          · exact hfb kv' h1'
        · show idAbsent (sideLadder (addOrder c o p) (otherSide o.side))
              o.order_id
          rw [hside]
          show idAbsent (addOrder c o p).asks o.order_id
          rw [hA]
          exact hfa
    · intro kv hkv o' ho'
      rw [hB] at hkv
      show dictGet (addOrder c o p).order_id_to_order o'.order_id = some o'
      rw [hD]
      rcases levelAppend_mem_strong c.bids p o kv hkv with ⟨_, h2⟩ | ⟨hmem, _⟩
      · rw [h2] at ho'
        rcases List.mem_append.mp ho' with hq | hsing
        · cases hq0 : ladderGet c.bids p with
          | none =>
              rw [hq0] at hq
              exact absurd hq (List.not_mem_nil o')
          | some q =>
              rw [hq0] at hq
              simp only [Option.getD_some] at hq
              exact assocGet_append_some _ _ _ _
                (h2a (p, q) (assocGet_mem c.bids p q hq0) o' hq)
        · have ho'o : o' = o := List.mem_singleton.mp hsing
          subst ho'o
          exact assocGet_append_none _ _ _ hfd
      · exact assocGet_append_some _ _ _ _ (h2a kv hmem o' ho')
    · intro kv hkv o' ho'
      rw [hA] at hkv
      show dictGet (addOrder c o p).order_id_to_order o'.order_id = some o'
      rw [hD]
      exact assocGet_append_some _ _ _ _ (h2b kv hkv o' ho')
  · have hB : (addOrder c o p).bids = c.bids := by
      rw [addOrder_sell c o p hside]
    have hA : (addOrder c o p).asks = levelAppend c.asks p o := by
      rw [addOrder_sell c o p hside]
    have hD : (addOrder c o p).order_id_to_order
        = c.order_id_to_order ++ [(o.order_id, o)] := by
      rw [addOrder_sell c o p hside]
      exact hins
    have hsell : o.side = Side.sell := by
      cases hso : o.side
      · exact absurd hso hside
      · rfl
    refine ⟨?_, ?_, ?_⟩
    · intro kv hkv
      rw [hD] at hkv
      rcases List.mem_append.mp hkv with hold | hnew
      · obtain ⟨e1, e2, e3, e4, e5⟩ := h1 kv hold
        have hone : ¬ o.order_id = kv.1 := fun hc =>
          (assocGet_none_forall _ _ hfd kv hold) hc.symm
        cases hs0 : kv.2.side with
        | buy =>
            rw [hs0] at e3 e4 e5
            refine ⟨e1, e2, ?_, ?_, ?_⟩
            · show levelCount (addOrder c o p).bids (kv.2.price.getD 0) kv.1 = 1
              rw [hB]
              exact e3
            · show idOnlyAt (addOrder c o p).bids (kv.2.price.getD 0) kv.1
              rw [hB]
              exact e4
            · show idAbsent (addOrder c o p).asks kv.1
              rw [hA]
              exact idAbsent_levelAppend c.asks p o kv.1 e5 hone
        | sell =>
            rw [hs0] at e3 e4 e5
            refine ⟨e1, e2, ?_, ?_, ?_⟩
            · show levelCount (addOrder c o p).asks (kv.2.price.getD 0) kv.1 = 1
              rw [hA, levelCount_levelAppend_ne_id c.asks p _ o kv.1 hone]
              exact e3
            · show idOnlyAt (addOrder c o p).asks (kv.2.price.getD 0) kv.1
              rw [hA]
              exact idOnlyAt_levelAppend c.asks p o _ kv.1 e4 hone
            · show idAbsent (addOrder c o p).bids kv.1
              rw [hB]
              exact e5
      · have hkv2 : kv = (o.order_id, o) := List.mem_singleton.mp hnew
        subst hkv2
        refine ⟨rfl, ?_, ?_, ?_, ?_⟩
        · show o.price.isSome = true
          rw [hp]
          rfl
        · show levelCount (sideLadder (addOrder c o p) o.side)
              (o.price.getD 0) o.order_id = 1
          rw [hsell, hp]
          show levelCount (addOrder c o p).asks p o.order_id = 1
          rw [hA, levelCount_levelAppend_self,
            levelCount_of_idAbsent c.asks p o.order_id hfa]
        · show idOnlyAt (sideLadder (addOrder c o p) o.side)
              (o.price.getD 0) o.order_id
          rw [hsell, hp]
          show idOnlyAt (addOrder c o p).asks p o.order_id
          rw [hA]
          intro kv' hkv' hne
          rcases levelAppend_mem_strong c.asks p o kv' hkv' with ⟨h1', _⟩ | ⟨h1', _⟩
          · exact absurd h1' hne
          · exact hfa kv' h1'
        · show idAbsent (sideLadder (addOrder c o p) (otherSide o.side))
              o.order_id
          rw [hsell]
          show idAbsent (addOrder c o p).bids o.order_id
          rw [hB]
          exact hfb
    · intro kv hkv o' ho'
      rw [hB] at hkv
      show dictGet (addOrder c o p).order_id_to_order o'.order_id = some o'
      rw [hD]
      exact assocGet_append_some _ _ _ _ (h2a kv hkv o' ho')
    · intro kv hkv o' ho'
      rw [hA] at hkv
      show dictGet (addOrder c o p).order_id_to_order o'.order_id = some o'
      rw [hD]
      rcases levelAppend_mem_strong c.asks p o kv hkv with ⟨_, h2⟩ | ⟨hmem, _⟩
      · rw [h2] at ho'
        rcases List.mem_append.mp ho' with hq | hsing
        · cases hq0 : ladderGet c.asks p with
          | none =>
              rw [hq0] at hq
              exact absurd hq (List.not_mem_nil o')
          | some q =>
              rw [hq0] at hq
              simp only [Option.getD_some] at hq
              exact assocGet_append_some _ _ _ _
                (h2b (p, q) (assocGet_mem c.asks p q hq0) o' hq)
        · have ho'o : o' = o := List.mem_singleton.mp hsing
          subst ho'o
          exact assocGet_append_none _ _ _ hfd
      · exact assocGet_append_some _ _ _ _ (h2b kv hmem o' ho')

theorem GoodBook_add (c : Core) (o : Order) (c2 : Core)
    (hok : add c o = .ok c2) (h : GoodBook c)
    (hfd : dictGet c.order_id_to_order o.order_id = none)
    (hfb : idAbsent c.bids o.order_id)
    (hfa : idAbsent c.asks o.order_id) : GoodBook c2 := by
  unfold add at hok
  cases hp : o.price with
  | none => rw [hp] at hok; cases hok
  | some p =>
      rw [hp] at hok
      cases hok
      exact GoodBook_addOrder c o p hp ⟨h.1, h.2⟩ hfd hfb hfa


theorem remove_miss_none (c : Core) (oid : String) (sd : Side) (price : Rat)
    (hd : dictGet c.order_id_to_order oid = none)
    (hu : dictGet c.order_id_to_unreflected_order oid = none) :
    remove c oid sd price = c := by
  unfold remove
  simp only [hd, hu]

theorem remove_miss_some (c : Core) (oid : String) (sd : Side) (price : Rat)
    (u : Order)
    (hd : dictGet c.order_id_to_order oid = none)
    (hu : dictGet c.order_id_to_unreflected_order oid = some u) :
    remove c oid sd price
      = { c with order_id_to_unreflected_order :=
            dictRemove c.order_id_to_unreflected_order oid } := by
  unfold remove
  simp only [hd, hu]

theorem remove_buy_nolevel (c : Core) (oid : String) (price : Rat) (o : Order)
    (hd : dictGet c.order_id_to_order oid = some o)
    (hq : ladderGet c.bids price = none) :
    remove c oid Side.buy price
      = { c with order_id_to_order := dictRemove c.order_id_to_order oid } := by
  unfold remove
  simp only [hd, if_true]
  simp only [hq]

theorem remove_buy_insert (c : Core) (oid : String) (price : Rat) (o : Order)
    (q : Level)
    (hd : dictGet c.order_id_to_order oid = some o)
    (hq : ladderGet c.bids price = some q)
    (hlen : 0 < (q.filter (fun x => x.order_id ≠ oid)).length) :
    remove c oid Side.buy price
      = { c with bids := ladderInsert c.bids price
                   (q.filter (fun x => x.order_id ≠ oid)),
                 order_id_to_order := dictRemove c.order_id_to_order oid } := by
  unfold remove
  simp only [hd, if_true]
  simp only [hq]
  rw [if_pos hlen]

theorem remove_buy_dellevel (c : Core) (oid : String) (price : Rat) (o : Order)
    (q : Level)
    (hd : dictGet c.order_id_to_order oid = some o)
    (hq : ladderGet c.bids price = some q)
    (hlen : ¬ 0 < (q.filter (fun x => x.order_id ≠ oid)).length) :
    remove c oid Side.buy price
      = { c with bids := ladderRemove c.bids price,
                 order_id_to_order := dictRemove c.order_id_to_order oid } := by
  unfold remove
  simp only [hd, if_true]
  simp only [hq]
  rw [if_neg hlen]

theorem remove_sell_nolevel (c : Core) (oid : String) (price : Rat) (o : Order)
    (hd : dictGet c.order_id_to_order oid = some o)
    (hq : ladderGet c.asks price = none) :
    remove c oid Side.sell price
      = { c with order_id_to_order := dictRemove c.order_id_to_order oid } := by
  unfold remove
  simp only [hd]
  rw [if_neg (by decide : ¬ Side.sell = Side.buy)]
  simp only [hq]

theorem remove_sell_insert (c : Core) (oid : String) (price : Rat) (o : Order)
    (q : Level)
    (hd : dictGet c.order_id_to_order oid = some o)
    (hq : ladderGet c.asks price = some q)
    (hlen : 0 < (q.filter (fun x => x.order_id ≠ oid)).length) :
    remove c oid Side.sell price
      = { c with asks := ladderInsert c.asks price
                   (q.filter (fun x => x.order_id ≠ oid)),
                 order_id_to_order := dictRemove c.order_id_to_order oid } := by
  unfold remove
  simp only [hd]
  rw [if_neg (by decide : ¬ Side.sell = Side.buy)]
  simp only [hq]
  rw [if_pos hlen]

theorem remove_sell_dellevel (c : Core) (oid : String) (price : Rat)
    (o : Order) (q : Level)
    (hd : dictGet c.order_id_to_order oid = some o)
    (hq : ladderGet c.asks price = some q)
    (hlen : ¬ 0 < (q.filter (fun x => x.order_id ≠ oid)).length) :
    remove c oid Side.sell price
      = { c with asks := ladderRemove c.asks price,
                 order_id_to_order := dictRemove c.order_id_to_order oid } := by
  unfold remove
  simp only [hd]
  rw [if_neg (by decide : ¬ Side.sell = Side.buy)]
  simp only [hq]
  rw [if_neg hlen]


theorem GoodBook_remove (c : Core) (oid : String) (sd : Side) (price : Rat)
    (h : GoodBook c)
    (hcons : ∀ o, dictGet c.order_id_to_order oid = some o →
       o.side = sd ∧ o.price = some price) :
    GoodBook (remove c oid sd price) := by
  obtain ⟨h1, h2a, h2b⟩ := h
  cases hdm : dictGet c.order_id_to_order oid with
  | none =>
      cases hu : dictGet c.order_id_to_unreflected_order oid with
      | none =>
          rw [remove_miss_none c oid sd price hdm hu]
          exact ⟨h1, h2a, h2b⟩
      | some u =>
          rw [remove_miss_some c oid sd price u hdm hu]
          exact GoodBook_congr c _ rfl rfl rfl ⟨h1, h2a, h2b⟩
  | some order =>
      obtain ⟨hsd', hpr'⟩ := hcons order hdm
      have hmemD : (oid, order) ∈ c.order_id_to_order := assocGet_mem _ _ _ hdm
      obtain ⟨g1, g2, g3, g4, g5⟩ := h1 (oid, order) hmemD
      have g3' : levelCount (sideLadder c order.side) (order.price.getD 0) oid
          = 1 := g3
      have g4' : idOnlyAt (sideLadder c order.side) (order.price.getD 0) oid :=
        g4
      have g5' : idAbsent (sideLadder c (otherSide order.side)) oid := g5
      rw [hsd', hpr'] at g3' g4'
      rw [hsd'] at g5'
      cases sd with
      | buy =>
          have g3b : levelCount c.bids price oid = 1 := g3'
          have g4b : idOnlyAt c.bids price oid := g4'
          have g5b : idAbsent c.asks oid := g5'
          cases hq : ladderGet c.bids price with
          | none =>
              exfalso
              have h0 : levelCount c.bids price oid = 0 := by
                unfold levelCount
                rw [hq]
                rfl
              rw [h0] at g3b
              exact absurd g3b (by decide)
          | some q =>
              have hmemQ : (price, q) ∈ c.bids := assocGet_mem _ _ _ hq
              have hcnt : ∀ x, levelCount c.bids price x
                  = q.countP (fun o => o.order_id = x) := by
                intro x
                unfold levelCount
                rw [hq]
                rfl
              by_cases hlen : 0 < (q.filter (fun x => x.order_id ≠ oid)).length
              · rw [remove_buy_insert c oid price order q hdm hq hlen]
                refine ⟨?_, ?_, ?_⟩
                · intro kv hkv
                  obtain ⟨hkvd, hkne⟩ :=
                    assocRemove_mem_strong c.order_id_to_order oid kv hkv
                  obtain ⟨e1, e2, e3, e4, e5⟩ := h1 kv hkvd
                  cases hs0 : kv.2.side with
                  | buy =>
                      rw [hs0] at e3 e4 e5
                      have e3b : levelCount c.bids (kv.2.price.getD 0) kv.1
                          = 1 := e3
                      have e4b : idOnlyAt c.bids (kv.2.price.getD 0) kv.1 := e4
                      have e5b : idAbsent c.asks kv.1 := e5
                      refine ⟨e1, e2, ?_, ?_, ?_⟩
                      · show levelCount
                            (ladderInsert c.bids price
                              (q.filter (fun x => x.order_id ≠ oid)))
                            (kv.2.price.getD 0) kv.1 = 1
                        by_cases hpp : kv.2.price.getD 0 = price
                        · rw [hpp] at e3b
                          rw [hpp, levelCount_insert_same,
                            countP_filter_ne_id q oid kv.1 hkne, ← hcnt kv.1]
                          exact e3b
                        · rw [levelCount_insert_ne c.bids price _ _ kv.1 hpp]
                          exact e3b
                      · show idOnlyAt
                            (ladderInsert c.bids price
                              (q.filter (fun x => x.order_id ≠ oid)))
                            (kv.2.price.getD 0) kv.1
                        refine idOnlyAt_insert_other c.bids price _ _ kv.1 e4b ?_
                        by_cases hpp : kv.2.price.getD 0 = price
                        · exact Or.inr hpp.symm
                        · refine Or.inl ?_
                          rw [countP_filter_ne_id q oid kv.1 hkne]
                          exact e4b (price, q) hmemQ (fun hc => hpp hc.symm)
                      · show idAbsent c.asks kv.1
                        exact e5b
                  | sell =>
                      rw [hs0] at e3 e4 e5
                      have e3b : levelCount c.asks (kv.2.price.getD 0) kv.1
                          = 1 := e3
                      have e4b : idOnlyAt c.asks (kv.2.price.getD 0) kv.1 := e4
                      have e5b : idAbsent c.bids kv.1 := e5
                      refine ⟨e1, e2, ?_, ?_, ?_⟩
                      · show levelCount c.asks (kv.2.price.getD 0) kv.1 = 1
                        exact e3b
                      · show idOnlyAt c.asks (kv.2.price.getD 0) kv.1
                        exact e4b
                      · show idAbsent
                            (ladderInsert c.bids price
                              (q.filter (fun x => x.order_id ≠ oid))) kv.1
                        refine idAbsent_insert c.bids price _ kv.1 e5b ?_
                        rw [countP_filter_ne_id q oid kv.1 hkne]
                        exact e5b (price, q) hmemQ
                · intro kv hkv o' ho'
                  show dictGet (dictRemove c.order_id_to_order oid)
                      o'.order_id = some o'
                  rcases assocInsert_mem c.bids price
                      (q.filter (fun x => x.order_id ≠ oid)) kv hkv with
                    ⟨hk1, hk2⟩ | ⟨hk1, hk2⟩
                  · rw [hk2] at ho'
                    have hmq : o' ∈ q := List.mem_of_mem_filter ho'
                    have hno : ¬ o'.order_id = oid := by
                      have := (List.mem_filter.mp ho').2
                      simpa using this
                    show assocGet (assocRemove c.order_id_to_order oid)
                        o'.order_id = some o'
                    rw [assocGet_remove_ne c.order_id_to_order oid _ hno]
                    exact h2a (price, q) hmemQ o' hmq
                  · have hal := h2a kv hk1 o' ho'
                    have hno : ¬ o'.order_id = oid := by
                      intro hc
                      have hcnt0 := g4b kv hk1 hk2
                      have hpos := countP_pos_of_mem kv.2 o' ho'
                      rw [hc] at hpos
                      omega
                    show assocGet (assocRemove c.order_id_to_order oid)
                        o'.order_id = some o'
                    rw [assocGet_remove_ne c.order_id_to_order oid _ hno]
                    exact hal
                · intro kv hkv o' ho'
                  have hal := h2b kv hkv o' ho'
                  have hno : ¬ o'.order_id = oid := by
                    intro hc
                    have hcnt0 := g5b kv hkv
                    have hpos := countP_pos_of_mem kv.2 o' ho'
                    rw [hc] at hpos
                    omega
                  show dictGet (dictRemove c.order_id_to_order oid)
                      o'.order_id = some o'
                  show assocGet (assocRemove c.order_id_to_order oid)
                      o'.order_id = some o'
                  rw [assocGet_remove_ne c.order_id_to_order oid _ hno]
                  exact hal
              · rw [remove_buy_dellevel c oid price order q hdm hq hlen]
                have hq2 : q.filter (fun x => x.order_id ≠ oid) = [] := by
                  cases hf : q.filter (fun x => x.order_id ≠ oid) with
                  | nil => rfl
                  | cons a t =>
                      rw [hf] at hlen
                      exact absurd (Nat.succ_pos t.length) hlen
                have hcq0 : ∀ x, ¬ x = oid →
                    q.countP (fun o => o.order_id = x) = 0 := by
                  intro x hx
                  rw [← countP_filter_ne_id q oid x hx, hq2]
                  rfl
                refine ⟨?_, ?_, ?_⟩
                · intro kv hkv
                  obtain ⟨hkvd, hkne⟩ :=
                    assocRemove_mem_strong c.order_id_to_order oid kv hkv
                  obtain ⟨e1, e2, e3, e4, e5⟩ := h1 kv hkvd
                  cases hs0 : kv.2.side with
                  | buy =>
                      rw [hs0] at e3 e4 e5
                      have e3b : levelCount c.bids (kv.2.price.getD 0) kv.1
                          = 1 := e3
                      have e4b : idOnlyAt c.bids (kv.2.price.getD 0) kv.1 := e4
                      have e5b : idAbsent c.asks kv.1 := e5
                      refine ⟨e1, e2, ?_, ?_, ?_⟩
                      · show levelCount (ladderRemove c.bids price)
                            (kv.2.price.getD 0) kv.1 = 1
                        by_cases hpp : kv.2.price.getD 0 = price
                        · exfalso
                          rw [hpp, hcnt kv.1, hcq0 kv.1 hkne] at e3b
                          exact absurd e3b (by decide)
                        · rw [levelCount_remove_ne c.bids price _ kv.1 hpp]
                          exact e3b
                      · show idOnlyAt (ladderRemove c.bids price)
                            (kv.2.price.getD 0) kv.1
                        exact idOnlyAt_remove c.bids price _ kv.1 e4b
                      · show idAbsent c.asks kv.1
                        exact e5b
                  | sell =>
                      rw [hs0] at e3 e4 e5
                      have e3b : levelCount c.asks (kv.2.price.getD 0) kv.1
                          = 1 := e3
                      have e4b : idOnlyAt c.asks (kv.2.price.getD 0) kv.1 := e4
                      have e5b : idAbsent c.bids kv.1 := e5
                      refine ⟨e1, e2, ?_, ?_, ?_⟩
                      · show levelCount c.asks (kv.2.price.getD 0) kv.1 = 1
                        exact e3b
                      · show idOnlyAt c.asks (kv.2.price.getD 0) kv.1
                        exact e4b
                      · show idAbsent (ladderRemove c.bids price) kv.1
                        exact idAbsent_remove c.bids price kv.1 e5b
                · intro kv hkv o' ho'
                  obtain ⟨hk1, hk2⟩ :=
                    assocRemove_mem_strong c.bids price kv hkv
                  have hal := h2a kv hk1 o' ho'
                  have hno : ¬ o'.order_id = oid := by
                    intro hc
                    have hcnt0 := g4b kv hk1 hk2
                    have hpos := countP_pos_of_mem kv.2 o' ho'
                    rw [hc] at hpos
                    omega
                  show dictGet (dictRemove c.order_id_to_order oid)
                      o'.order_id = some o'
                  show assocGet (assocRemove c.order_id_to_order oid)
                      o'.order_id = some o'
                  rw [assocGet_remove_ne c.order_id_to_order oid _ hno]
                  exact hal
                · intro kv hkv o' ho'
                  have hal := h2b kv hkv o' ho'
                  have hno : ¬ o'.order_id = oid := by
                    intro hc
                    have hcnt0 := g5b kv hkv
                    have hpos := countP_pos_of_mem kv.2 o' ho'
                    rw [hc] at hpos
                    omega
                  show dictGet (dictRemove c.order_id_to_order oid)
                      o'.order_id = some o'
                  show assocGet (assocRemove c.order_id_to_order oid)
                      o'.order_id = some o'
                  rw [assocGet_remove_ne c.order_id_to_order oid _ hno]
                  exact hal
      | sell =>
          have g3b : levelCount c.asks price oid = 1 := g3'
          have g4b : idOnlyAt c.asks price oid := g4'
          have g5b : idAbsent c.bids oid := g5'
          cases hq : ladderGet c.asks price with
          | none =>
              exfalso
              have h0 : levelCount c.asks price oid = 0 := by
                unfold levelCount
                rw [hq]
                rfl
              rw [h0] at g3b
              exact absurd g3b (by decide)
          | some q =>
              have hmemQ : (price, q) ∈ c.asks := assocGet_mem _ _ _ hq
              have hcnt : ∀ x, levelCount c.asks price x
                  = q.countP (fun o => o.order_id = x) := by
                intro x
                unfold levelCount
                rw [hq]
                rfl
              by_cases hlen : 0 < (q.filter (fun x => x.order_id ≠ oid)).length
              · rw [remove_sell_insert c oid price order q hdm hq hlen]
                refine ⟨?_, ?_, ?_⟩
                · intro kv hkv
                  obtain ⟨hkvd, hkne⟩ :=
                    assocRemove_mem_strong c.order_id_to_order oid kv hkv
                  obtain ⟨e1, e2, e3, e4, e5⟩ := h1 kv hkvd
                  cases hs0 : kv.2.side with
                  | sell =>
                      rw [hs0] at e3 e4 e5
                      have e3b : levelCount c.asks (kv.2.price.getD 0) kv.1
                          = 1 := e3
                      have e4b : idOnlyAt c.asks (kv.2.price.getD 0) kv.1 := e4
                      have e5b : idAbsent c.bids kv.1 := e5
                      refine ⟨e1, e2, ?_, ?_, ?_⟩
                      · show levelCount
                            (ladderInsert c.asks price
                              (q.filter (fun x => x.order_id ≠ oid)))
                            (kv.2.price.getD 0) kv.1 = 1
                        by_cases hpp : kv.2.price.getD 0 = price
                        · rw [hpp] at e3b
                          rw [hpp, levelCount_insert_same,
                            countP_filter_ne_id q oid kv.1 hkne, ← hcnt kv.1]
                          exact e3b
                        · rw [levelCount_insert_ne c.asks price _ _ kv.1 hpp]
                          exact e3b
                      · show idOnlyAt
                            (ladderInsert c.asks price
                              (q.filter (fun x => x.order_id ≠ oid)))
                            (kv.2.price.getD 0) kv.1
                        refine idOnlyAt_insert_other c.asks price _ _ kv.1 e4b ?_
                        by_cases hpp : kv.2.price.getD 0 = price
                        · exact Or.inr hpp.symm
                        · refine Or.inl ?_
                          rw [countP_filter_ne_id q oid kv.1 hkne]
                          exact e4b (price, q) hmemQ (fun hc => hpp hc.symm)
                      · show idAbsent c.bids kv.1
                        exact e5b
                  | buy =>
                      rw [hs0] at e3 e4 e5
                      have e3b : levelCount c.bids (kv.2.price.getD 0) kv.1
                          = 1 := e3
                      have e4b : idOnlyAt c.bids (kv.2.price.getD 0) kv.1 := e4
                      have e5b : idAbsent c.asks kv.1 := e5
                      refine ⟨e1, e2, ?_, ?_, ?_⟩
                      · show levelCount c.bids (kv.2.price.getD 0) kv.1 = 1
                        exact e3b
                      · show idOnlyAt c.bids (kv.2.price.getD 0) kv.1
                        exact e4b
                      · show idAbsent
                            (ladderInsert c.asks price
                              (q.filter (fun x => x.order_id ≠ oid))) kv.1
                        refine idAbsent_insert c.asks price _ kv.1 e5b ?_
                        rw [countP_filter_ne_id q oid kv.1 hkne]
                        exact e5b (price, q) hmemQ
                · intro kv hkv o' ho'
                  have hal := h2a kv hkv o' ho'
                  have hno : ¬ o'.order_id = oid := by
                    intro hc
                    have hcnt0 := g5b kv hkv
                    have hpos := countP_pos_of_mem kv.2 o' ho'
                    rw [hc] at hpos
                    omega
                  show dictGet (dictRemove c.order_id_to_order oid)
                      o'.order_id = some o'
                  show assocGet (assocRemove c.order_id_to_order oid)
                      o'.order_id = some o'
                  rw [assocGet_remove_ne c.order_id_to_order oid _ hno]
                  exact hal
                · intro kv hkv o' ho'
                  show dictGet (dictRemove c.order_id_to_order oid)
                      o'.order_id = some o'
                  rcases assocInsert_mem c.asks price
                      (q.filter (fun x => x.order_id ≠ oid)) kv hkv with
                    ⟨hk1, hk2⟩ | ⟨hk1, hk2⟩
                  · rw [hk2] at ho'
                    have hmq : o' ∈ q := List.mem_of_mem_filter ho'
                    have hno : ¬ o'.order_id = oid := by
                      have := (List.mem_filter.mp ho').2
                      simpa using this
                    show assocGet (assocRemove c.order_id_to_order oid)
                        o'.order_id = some o'
                    rw [assocGet_remove_ne c.order_id_to_order oid _ hno]
                    exact h2b (price, q) hmemQ o' hmq
                  · have hal := h2b kv hk1 o' ho'
                    have hno : ¬ o'.order_id = oid := by
                      intro hc
                      have hcnt0 := g4b kv hk1 hk2
                      have hpos := countP_pos_of_mem kv.2 o' ho'
                      rw [hc] at hpos
                      omega
                    show assocGet (assocRemove c.order_id_to_order oid)
                        o'.order_id = some o'
                    rw [assocGet_remove_ne c.order_id_to_order oid _ hno]
                    exact hal
              · rw [remove_sell_dellevel c oid price order q hdm hq hlen]
                have hq2 : q.filter (fun x => x.order_id ≠ oid) = [] := by
                  cases hf : q.filter (fun x => x.order_id ≠ oid) with
                  | nil => rfl
                  | cons a t =>
                      rw [hf] at hlen
                      exact absurd (Nat.succ_pos t.length) hlen
                have hcq0 : ∀ x, ¬ x = oid →
                    q.countP (fun o => o.order_id = x) = 0 := by
                  intro x hx
                  rw [← countP_filter_ne_id q oid x hx, hq2]
                  rfl
                refine ⟨?_, ?_, ?_⟩
                · intro kv hkv
                  obtain ⟨hkvd, hkne⟩ :=
                    assocRemove_mem_strong c.order_id_to_order oid kv hkv
                  obtain ⟨e1, e2, e3, e4, e5⟩ := h1 kv hkvd
                  cases hs0 : kv.2.side with
                  | sell =>
                      rw [hs0] at e3 e4 e5
                      have e3b : levelCount c.asks (kv.2.price.getD 0) kv.1
                          = 1 := e3
                      have e4b : idOnlyAt c.asks (kv.2.price.getD 0) kv.1 := e4
                      have e5b : idAbsent c.bids kv.1 := e5
                      refine ⟨e1, e2, ?_, ?_, ?_⟩
                      · show levelCount (ladderRemove c.asks price)
                            (kv.2.price.getD 0) kv.1 = 1
                        by_cases hpp : kv.2.price.getD 0 = price
                        · exfalso
                          rw [hpp, hcnt kv.1, hcq0 kv.1 hkne] at e3b
                          exact absurd e3b (by decide)
                        · rw [levelCount_remove_ne c.asks price _ kv.1 hpp]
                          exact e3b
                      · show idOnlyAt (ladderRemove c.asks price)
                            (kv.2.price.getD 0) kv.1
                        exact idOnlyAt_remove c.asks price _ kv.1 e4b
                      · show idAbsent c.bids kv.1
                        exact e5b
                  | buy =>
                      rw [hs0] at e3 e4 e5
                      have e3b : levelCount c.bids (kv.2.price.getD 0) kv.1
                          = 1 := e3
                      have e4b : idOnlyAt c.bids (kv.2.price.getD 0) kv.1 := e4
                      have e5b : idAbsent c.asks kv.1 := e5
                      refine ⟨e1, e2, ?_, ?_, ?_⟩
                      · show levelCount c.bids (kv.2.price.getD 0) kv.1 = 1
                        exact e3b
                      · show idOnlyAt c.bids (kv.2.price.getD 0) kv.1
                        exact e4b
                      · show idAbsent (ladderRemove c.asks price) kv.1
                        exact idAbsent_remove c.asks price kv.1 e5b
                · intro kv hkv o' ho'
                  have hal := h2a kv hkv o' ho'
                  have hno : ¬ o'.order_id = oid := by
                    intro hc
                    have hcnt0 := g5b kv hkv
                    have hpos := countP_pos_of_mem kv.2 o' ho'
                    rw [hc] at hpos
                    omega
                  show dictGet (dictRemove c.order_id_to_order oid)
                      o'.order_id = some o'
                  show assocGet (assocRemove c.order_id_to_order oid)
                      o'.order_id = some o'
                  rw [assocGet_remove_ne c.order_id_to_order oid _ hno]
                  exact hal
                · intro kv hkv o' ho'
                  obtain ⟨hk1, hk2⟩ :=
                    assocRemove_mem_strong c.asks price kv hkv
                  have hal := h2b kv hk1 o' ho'
                  have hno : ¬ o'.order_id = oid := by
                    intro hc
                    have hcnt0 := g4b kv hk1 hk2
                    have hpos := countP_pos_of_mem kv.2 o' ho'
                    rw [hc] at hpos
                    omega
                  show dictGet (dictRemove c.order_id_to_order oid)
                      o'.order_id = some o'
                  show assocGet (assocRemove c.order_id_to_order oid)
                      o'.order_id = some o'
                  rw [assocGet_remove_ne c.order_id_to_order oid _ hno]
                  exact hal


theorem GoodBook_received (c : Core) (o : Order) (h : GoodBook c) :
    GoodBook (received c o) :=
  GoodBook_congr c _ rfl rfl rfl h

theorem GoodBook_match_taker (c : Core) (sz : Rat) (tid : String)
    (h : GoodBook c) : GoodBook (match_taker c sz tid) :=
  GoodBook_congr c _ (match_taker_asks c sz tid).symm
    (match_taker_bids c sz tid).symm (match_taker_dict c sz tid).symm h

theorem GoodBook_change (c : Core) (oid : String) (osz nsz : Rat) (c2 : Core)
    (hok : change c oid osz nsz = .ok c2) (h : GoodBook c) : GoodBook c2 := by
  obtain ⟨h1, h2a, h2b⟩ := h
  unfold change at hok
  cases hd : dictGet c.order_id_to_order oid with
  | none =>
      simp only [hd] at hok
      cases hok
      exact ⟨h1, h2a, h2b⟩
  | some order =>
      simp only [hd] at hok
      have hmemD : (oid, order) ∈ c.order_id_to_order := assocGet_mem _ _ _ hd
      obtain ⟨g1, g2, g3, g4, g5⟩ := h1 (oid, order) hmemD
      have g1' : order.order_id = oid := g1
      have g2' : order.price.isSome = true := g2
      have ho2 : ({ order with size := some nsz } : Order).order_id = oid :=
        g1'
      cases hp0 : order.price with
      | none => rw [hp0] at g2'; cases g2'
      | some p0 =>
      have g3' : levelCount (sideLadder c order.side) (order.price.getD 0) oid
          = 1 := g3
      have g4' : idOnlyAt (sideLadder c order.side) (order.price.getD 0) oid :=
        g4
      have g5' : idAbsent (sideLadder c (otherSide order.side)) oid := g5
      by_cases hside : order.side = Side.buy
      · rw [if_pos hside] at hok
        have hc2 := onChangeGuard_ok _ _ _ hok
        subst hc2
        rw [hside, hp0] at g3' g4'
        rw [hside] at g5'
        have g3b : levelCount c.bids p0 oid = 1 := g3'
        have g4b : idOnlyAt c.bids p0 oid := g4'
        have g5b : idAbsent c.asks oid := g5'
        have hladder : ladderAlias c.bids order.price oid
              ({ order with size := some nsz })
            = ladderAlias c.bids (some p0) oid
              ({ order with size := some nsz }) := by
          rw [hp0]
        rw [hladder]
        refine ⟨?_, ?_, ?_⟩
        · intro kv hkv
          rcases assocAlias_mem c.order_id_to_order oid
              ({ order with size := some nsz }) kv hkv with
            hkve | ⟨hmem, hne⟩
          · have hkid : kv.1 = oid := by rw [hkve]
            have hkside : kv.2.side = Side.buy := by rw [hkve]; exact hside
            have hkprice : kv.2.price = some p0 := by rw [hkve]; exact hp0
            have hkoid : kv.2.order_id = kv.1 := by rw [hkve]; exact ho2
            refine ⟨hkoid, ?_, ?_, ?_, ?_⟩
            · rw [hkprice]
              rfl
            · rw [hkside, hkprice, hkid]
              show levelCount (ladderAlias c.bids (some p0) oid
                  ({ order with size := some nsz })) ((some p0).getD 0) oid = 1
              rw [levelCount_alias c.bids p0 _ oid _ ho2]
              exact g3b
            · rw [hkside, hkprice, hkid]
              show idOnlyAt (ladderAlias c.bids (some p0) oid
                  ({ order with size := some nsz })) ((some p0).getD 0) oid
              exact idOnlyAt_alias c.bids p0 oid _ _ oid ho2 g4b
            · rw [hkside, hkid]
              show idAbsent c.asks oid
              exact g5b
          · obtain ⟨e1, e2, e3, e4, e5⟩ := h1 kv hmem
            refine ⟨e1, e2, ?_, ?_, ?_⟩
            · cases hs0 : kv.2.side with
              | buy =>
                  rw [hs0] at e3
                  show levelCount (ladderAlias c.bids (some p0) oid
                      ({ order with size := some nsz }))
                      (kv.2.price.getD 0) kv.1 = 1
                  rw [levelCount_alias c.bids p0 _ oid _ ho2]
                  exact e3
              | sell =>
                  rw [hs0] at e3
                  show levelCount c.asks (kv.2.price.getD 0) kv.1 = 1
                  exact e3
            · cases hs0 : kv.2.side with
              | buy =>
                  rw [hs0] at e4
                  show idOnlyAt (ladderAlias c.bids (some p0) oid
                      ({ order with size := some nsz }))
                      (kv.2.price.getD 0) kv.1
                  exact idOnlyAt_alias c.bids p0 oid _ _ kv.1 ho2 e4
              | sell =>
                  rw [hs0] at e4
                  show idOnlyAt c.asks (kv.2.price.getD 0) kv.1
                  exact e4
            · cases hs0 : kv.2.side with
              | buy =>
                  rw [hs0] at e5
                  show idAbsent c.asks kv.1
                  exact e5
              | sell =>
                  rw [hs0] at e5
                  show idAbsent (ladderAlias c.bids (some p0) oid
                      ({ order with size := some nsz })) kv.1
                  exact idAbsent_alias c.bids p0 oid _ kv.1 ho2 e5
        · intro kv hkv o' ho'
          obtain ⟨kv0, hkv0, hk1, hor⟩ :=
            ladderAlias_mem_strong c.bids p0 oid
              ({ order with size := some nsz }) kv hkv
          rcases hor with ⟨hkey, hmap⟩ | ⟨hkey, hsame⟩
          · rw [hmap] at ho'
            obtain ⟨x0, hx0, hxe⟩ := List.mem_map.mp ho'
            by_cases hxk : x0.order_id = oid
            · simp only [hxk, if_true] at hxe
              subst hxe
              show assocGet (assocAlias c.order_id_to_order oid
                  ({ order with size := some nsz }))
                  ({ order with size := some nsz } : Order).order_id
                  = some ({ order with size := some nsz })
              rw [g1', assocGet_alias_same,
                show assocGet c.order_id_to_order oid = some order from hd]
              rfl
            · simp only [hxk, if_false] at hxe
              subst hxe
              show assocGet (assocAlias c.order_id_to_order oid
                  ({ order with size := some nsz })) x0.order_id = some x0
              rw [assocGet_alias_ne c.order_id_to_order oid _ _ hxk]
              exact h2a kv0 hkv0 x0 hx0
          · rw [hsame] at ho'
            have hal := h2a kv0 hkv0 o' ho'
            by_cases hok' : o'.order_id = oid
            · exfalso
              have hcnt0 := g4b kv0 hkv0 hkey
              have hpos := countP_pos_of_mem kv0.2 o' ho'
              rw [hok'] at hpos
              omega
            · show assocGet (assocAlias c.order_id_to_order oid
                  ({ order with size := some nsz })) o'.order_id = some o'
              rw [assocGet_alias_ne c.order_id_to_order oid _ _ hok']
              exact hal
        · intro kv hkv o' ho'
          have hal := h2b kv hkv o' ho'
          by_cases hok' : o'.order_id = oid
          · exfalso
            have hcnt0 := g5b kv hkv
            have hpos := countP_pos_of_mem kv.2 o' ho'
            rw [hok'] at hpos
            omega
          · show assocGet (assocAlias c.order_id_to_order oid
                ({ order with size := some nsz })) o'.order_id = some o'
            rw [assocGet_alias_ne c.order_id_to_order oid _ _ hok']
            exact hal
      · rw [if_neg hside] at hok
        have hc2 := onChangeGuard_ok _ _ _ hok
        subst hc2
        have hsell : order.side = Side.sell := by
          cases hso : order.side
          · exact absurd hso hside
          · rfl
        rw [hsell, hp0] at g3' g4'
        rw [hsell] at g5'
        have g3b : levelCount c.asks p0 oid = 1 := g3'
        have g4b : idOnlyAt c.asks p0 oid := g4'
        have g5b : idAbsent c.bids oid := g5'
        have hladder : ladderAlias c.asks order.price oid
              ({ order with size := some nsz })
            = ladderAlias c.asks (some p0) oid
              ({ order with size := some nsz }) := by
          rw [hp0]
        rw [hladder]
        refine ⟨?_, ?_, ?_⟩
        · intro kv hkv
          rcases assocAlias_mem c.order_id_to_order oid
              ({ order with size := some nsz }) kv hkv with
            hkve | ⟨hmem, hne⟩
          · have hkid : kv.1 = oid := by rw [hkve]
            have hkside : kv.2.side = Side.sell := by rw [hkve]; exact hsell
            have hkprice : kv.2.price = some p0 := by rw [hkve]; exact hp0
            have hkoid : kv.2.order_id = kv.1 := by rw [hkve]; exact ho2
            refine ⟨hkoid, ?_, ?_, ?_, ?_⟩
            · rw [hkprice]
              rfl
            · rw [hkside, hkprice, hkid]
              show levelCount (ladderAlias c.asks (some p0) oid
                  ({ order with size := some nsz })) ((some p0).getD 0) oid = 1
              rw [levelCount_alias c.asks p0 _ oid _ ho2]
              exact g3b
            · rw [hkside, hkprice, hkid]
              show idOnlyAt (ladderAlias c.asks (some p0) oid
                  ({ order with size := some nsz })) ((some p0).getD 0) oid
              exact idOnlyAt_alias c.asks p0 oid _ _ oid ho2 g4b
            · rw [hkside, hkid]
              show idAbsent c.bids oid
              exact g5b
          · obtain ⟨e1, e2, e3, e4, e5⟩ := h1 kv hmem
            refine ⟨e1, e2, ?_, ?_, ?_⟩
            · cases hs0 : kv.2.side with
              | sell =>
                  rw [hs0] at e3
                  show levelCount (ladderAlias c.asks (some p0) oid
                      ({ order with size := some nsz }))
                      (kv.2.price.getD 0) kv.1 = 1
                  rw [levelCount_alias c.asks p0 _ oid _ ho2]
                  exact e3
              | buy =>
                  rw [hs0] at e3
                  show levelCount c.bids (kv.2.price.getD 0) kv.1 = 1
                  exact e3
            · cases hs0 : kv.2.side with
              | sell =>
                  rw [hs0] at e4
                  show idOnlyAt (ladderAlias c.asks (some p0) oid
                      ({ order with size := some nsz }))
                      (kv.2.price.getD 0) kv.1
                  exact idOnlyAt_alias c.asks p0 oid _ _ kv.1 ho2 e4
              | buy =>
                  rw [hs0] at e4
                  show idOnlyAt c.bids (kv.2.price.getD 0) kv.1
                  exact e4
            · cases hs0 : kv.2.side with
              | sell =>
                  rw [hs0] at e5
                  show idAbsent c.bids kv.1
                  exact e5
              | buy =>
                  rw [hs0] at e5
                  show idAbsent (ladderAlias c.asks (some p0) oid
                      ({ order with size := some nsz })) kv.1
                  exact idAbsent_alias c.asks p0 oid _ kv.1 ho2 e5
        · intro kv hkv o' ho'
          have hal := h2a kv hkv o' ho'
          by_cases hok' : o'.order_id = oid
          · exfalso
            have hcnt0 := g5b kv hkv
            have hpos := countP_pos_of_mem kv.2 o' ho'
            rw [hok'] at hpos
            omega
          · show assocGet (assocAlias c.order_id_to_order oid
                ({ order with size := some nsz })) o'.order_id = some o'
            rw [assocGet_alias_ne c.order_id_to_order oid _ _ hok']
            exact hal
        · intro kv hkv o' ho'
          obtain ⟨kv0, hkv0, hk1, hor⟩ :=
            ladderAlias_mem_strong c.asks p0 oid
              ({ order with size := some nsz }) kv hkv
          rcases hor with ⟨hkey, hmap⟩ | ⟨hkey, hsame⟩
          · rw [hmap] at ho'
            obtain ⟨x0, hx0, hxe⟩ := List.mem_map.mp ho'
            by_cases hxk : x0.order_id = oid
            · simp only [hxk, if_true] at hxe
              subst hxe
              show assocGet (assocAlias c.order_id_to_order oid
                  ({ order with size := some nsz }))
                  ({ order with size := some nsz } : Order).order_id
                  = some ({ order with size := some nsz })
              rw [g1', assocGet_alias_same,
                show assocGet c.order_id_to_order oid = some order from hd]
              rfl
            · simp only [hxk, if_false] at hxe
              subst hxe
              show assocGet (assocAlias c.order_id_to_order oid
                  ({ order with size := some nsz })) x0.order_id = some x0
              rw [assocGet_alias_ne c.order_id_to_order oid _ _ hxk]
              exact h2b kv0 hkv0 x0 hx0
          · rw [hsame] at ho'
            have hal := h2b kv0 hkv0 o' ho'
            by_cases hok' : o'.order_id = oid
            · exfalso
              have hcnt0 := g4b kv0 hkv0 hkey
              have hpos := countP_pos_of_mem kv0.2 o' ho'
              rw [hok'] at hpos
              omega
            · show assocGet (assocAlias c.order_id_to_order oid
                  ({ order with size := some nsz })) o'.order_id = some o'
              rw [assocGet_alias_ne c.order_id_to_order oid _ _ hok']
              exact hal


theorem GoodBook_match_event (c : Core) (sd : Side) (p sz : Rat)
    (mid tid : String) (c2 : Core)
    (hok : match_event c sd p sz mid tid = .ok c2) (h : GoodBook c)
    (hnful : ∀ head rest, ladderGet c.asks p = some (head :: rest) →
       head.size ≠ some sz) :
    GoodBook c2 := by
  have hmt : GoodBook (match_taker c sz tid) :=
    GoodBook_congr c _ (match_taker_asks c sz tid).symm
      (match_taker_bids c sz tid).symm (match_taker_dict c sz tid).symm h
  obtain ⟨h1, h2a, h2b⟩ := h
  unfold match_event at hok
  rw [show sideIsStringBuy sd = false from rfl] at hok
  simp only [Bool.false_eq_true, if_false] at hok
  cases hmm : matchMaker (match_taker c sz tid).asks
      (match_taker c sz tid).order_id_to_order p sz mid with
  | none =>
      rw [hmm] at hok
      cases hok
      exact hmt
  | some r =>
      cases r with
      | error e => rw [hmm] at hok; cases hok
      | ok pair =>
          rw [hmm] at hok
          obtain ⟨l', d'⟩ := pair
          have hc2 := onMatchGuard_ok _ _ hok
          subst hc2
          rw [match_taker_asks, match_taker_dict] at hmm
          obtain ⟨head, rest, hget, hmid, hor⟩ :=
            matchMaker_ok_inv c.asks c.order_id_to_order p sz mid l' d' hmm
          rcases hor with ⟨hfull, _, _⟩ | ⟨hs, hhs, hnsz, hl', hd'⟩
          · exact absurd hfull (hnful head rest hget)
          · subst hl'
            subst hd'
            refine GoodBook_congr
              { c with
                asks := ladderInsert c.asks p
                  ({ head with size := some (hs - sz) } :: rest),
                order_id_to_order := dictAlias c.order_id_to_order
                  head.order_id ({ head with size := some (hs - sz) }) }
              _ rfl (match_taker_bids c sz tid).symm rfl ?_
            have hmemP : (p, head :: rest) ∈ c.asks :=
              assocGet_mem _ _ _ hget
            have hal_head : dictGet c.order_id_to_order head.order_id
                = some head :=
              h2b (p, head :: rest) hmemP head (List.mem_cons_self head rest)
            have hmemD : (head.order_id, head) ∈ c.order_id_to_order :=
              assocGet_mem _ _ _ hal_head
            obtain ⟨g1, g2, g3, g4, g5⟩ := h1 (head.order_id, head) hmemD
            have hsideS : head.side = Side.sell := by
              cases hhs0 : head.side
              · exfalso
                have g5b : idAbsent
                    (sideLadder c (otherSide head.side)) head.order_id := g5
                rw [hhs0] at g5b
                have h0 : (head :: rest).countP
                    (fun o => o.order_id = head.order_id) = 0 :=
                  g5b (p, head :: rest) hmemP
                have hpos := countP_pos_of_mem (head :: rest) head
                  (List.mem_cons_self head rest)
                omega
              · rfl
            have g2' : head.price.isSome = true := g2
            obtain ⟨p0, hp0⟩ := Option.isSome_iff_exists.mp g2'
            have hpp : p0 = p := by
              by_contra hne
              have g4' : idOnlyAt (sideLadder c head.side)
                  (head.price.getD 0) head.order_id := g4
              rw [hsideS, hp0] at g4'
              have h0 : (head :: rest).countP
                  (fun o => o.order_id = head.order_id) = 0 :=
                g4' (p, head :: rest) hmemP (fun hc => hne hc.symm)
              have hpos := countP_pos_of_mem (head :: rest) head
                (List.mem_cons_self head rest)
              omega
            rw [hpp] at hp0
            have g3b : levelCount c.asks p head.order_id = 1 := by
              have g3' : levelCount (sideLadder c head.side)
                  (head.price.getD 0) head.order_id = 1 := g3
              rw [hsideS, hp0] at g3'
              exact g3'
            have g4b : idOnlyAt c.asks p head.order_id := by
              have g4' : idOnlyAt (sideLadder c head.side)
                  (head.price.getD 0) head.order_id := g4
              rw [hsideS, hp0] at g4'
              exact g4'
            have g5b : idAbsent c.bids head.order_id := by
              have g5' : idAbsent (sideLadder c (otherSide head.side))
                  head.order_id := g5
              rw [hsideS] at g5'
              exact g5'
            have hcnt : ∀ x, levelCount c.asks p x
                = (head :: rest).countP (fun o => o.order_id = x) := by
              intro x
              unfold levelCount
              rw [hget]
              rfl
            have hrest0 : rest.countP
                (fun o => o.order_id = head.order_id) = 0 := by
              have hx := g3b
              rw [hcnt head.order_id, List.countP_cons,
                if_pos (by simp
                  : decide (head.order_id = head.order_id) = true)] at hx
              omega
            have hh2 : ({ head with size := some (hs - sz) } : Order).order_id
                = head.order_id := rfl
            refine ⟨?_, ?_, ?_⟩
            · intro kv hkv
              rcases assocAlias_mem c.order_id_to_order head.order_id
                  ({ head with size := some (hs - sz) }) kv hkv with
                hkve | ⟨hmem, hne⟩
              · have hkid : kv.1 = head.order_id := by rw [hkve]
                have hkside : kv.2.side = Side.sell := by rw [hkve]; exact hsideS
                have hkprice : kv.2.price = some p := by rw [hkve]; exact hp0
                have hkoid : kv.2.order_id = kv.1 := by rw [hkve]
                refine ⟨hkoid, ?_, ?_, ?_, ?_⟩
                · rw [hkprice]
                  rfl
                · rw [hkside, hkprice, hkid]
                  show levelCount (ladderInsert c.asks p
                      ({ head with size := some (hs - sz) } :: rest)) p
                      head.order_id = 1
                  rw [levelCount_insert_same,
                    countP_cons_same_id head ({ head with size := some (hs - sz) }) rest head.order_id rfl]
                  rw [← hcnt head.order_id]
                  exact g3b
                · rw [hkside, hkprice, hkid]
                  show idOnlyAt (ladderInsert c.asks p
                      ({ head with size := some (hs - sz) } :: rest)) p
                      head.order_id
                  exact idOnlyAt_insert_other c.asks p _ p head.order_id
                    g4b (Or.inr rfl)
                · rw [hkside, hkid]
                  show idAbsent c.bids head.order_id
                  exact g5b
              · obtain ⟨e1, e2, e3, e4, e5⟩ := h1 kv hmem
                refine ⟨e1, e2, ?_, ?_, ?_⟩
                · cases hs0 : kv.2.side with
                  | sell =>
                      rw [hs0] at e3
                      show levelCount (ladderInsert c.asks p
                          ({ head with size := some (hs - sz) } :: rest))
                          (kv.2.price.getD 0) kv.1 = 1
                      by_cases hpq : kv.2.price.getD 0 = p
                      · rw [hpq, levelCount_insert_same,
                          countP_cons_same_id head ({ head with size := some (hs - sz) }) rest kv.1 rfl,
                          ← hcnt kv.1]
                        rw [hpq] at e3
                        exact e3
                      · rw [levelCount_insert_ne c.asks p _ _ kv.1 hpq]
                        exact e3
                  | buy =>
                      rw [hs0] at e3
                      show levelCount c.bids (kv.2.price.getD 0) kv.1 = 1
                      exact e3
                · cases hs0 : kv.2.side with
                  | sell =>
                      rw [hs0] at e4
                      show idOnlyAt (ladderInsert c.asks p
                          ({ head with size := some (hs - sz) } :: rest))
                          (kv.2.price.getD 0) kv.1
                      refine idOnlyAt_insert_other c.asks p _ _ kv.1 e4 ?_
                      by_cases hpq : kv.2.price.getD 0 = p
                      · exact Or.inr hpq.symm
                      · refine Or.inl ?_
                        rw [countP_cons_same_id head ({ head with size := some (hs - sz) }) rest kv.1 rfl]
                        exact e4 (p, head :: rest) hmemP
                          (fun hc => hpq hc.symm)
                  | buy =>
                      rw [hs0] at e4
                      show idOnlyAt c.bids (kv.2.price.getD 0) kv.1
                      exact e4
                · cases hs0 : kv.2.side with
                  | sell =>
                      rw [hs0] at e5
                      show idAbsent c.bids kv.1
                      exact e5
                  | buy =>
                      rw [hs0] at e5
                      show idAbsent (ladderInsert c.asks p
                          ({ head with size := some (hs - sz) } :: rest)) kv.1
                      refine idAbsent_insert c.asks p _ kv.1 e5 ?_
                      rw [countP_cons_same_id head ({ head with size := some (hs - sz) }) rest kv.1 rfl]
                      exact e5 (p, head :: rest) hmemP
            · intro kv hkv o' ho'
              have hal := h2a kv hkv o' ho'
              by_cases hok' : o'.order_id = head.order_id
              · exfalso
                have hcnt0 := g5b kv hkv
                have hpos := countP_pos_of_mem kv.2 o' ho'
                rw [hok'] at hpos
                omega
              · show assocGet (assocAlias c.order_id_to_order head.order_id
                    ({ head with size := some (hs - sz) })) o'.order_id
                    = some o'
                rw [assocGet_alias_ne c.order_id_to_order head.order_id _ _
                  hok']
                exact hal
            · intro kv hkv o' ho'
              rcases assocInsert_mem c.asks p
                  ({ head with size := some (hs - sz) } :: rest) kv hkv with
                ⟨hk1, hk2⟩ | ⟨hk1, hk2⟩
              · rw [hk2] at ho'
                rcases List.mem_cons.mp ho' with he | hrest
                · subst he
                  show assocGet (assocAlias c.order_id_to_order head.order_id
                      ({ head with size := some (hs - sz) }))
                      ({ head with size := some (hs - sz) } : Order).order_id
                      = some ({ head with size := some (hs - sz) })
                  rw [assocGet_alias_same,
                    show assocGet c.order_id_to_order head.order_id
                      = some head from hal_head]
                  rfl
                · have hal := h2b (p, head :: rest) hmemP o'
                    (List.mem_cons_of_mem head hrest)
                  have hne' : ¬ o'.order_id = head.order_id := by
                    intro hc
                    have hpos := countP_pos_of_mem rest o' hrest
                    rw [hc] at hpos
                    omega
                  show assocGet (assocAlias c.order_id_to_order head.order_id
                      ({ head with size := some (hs - sz) })) o'.order_id
                      = some o'
                  rw [assocGet_alias_ne c.order_id_to_order head.order_id _ _
                    hne']
                  exact hal
              · have hal := h2b kv hk1 o' ho'
                have hne' : ¬ o'.order_id = head.order_id := by
                  intro hc
                  have hcnt0 := g4b kv hk1 hk2
                  have hpos := countP_pos_of_mem kv.2 o' ho'
                  rw [hc] at hpos
                  omega
                show assocGet (assocAlias c.order_id_to_order head.order_id
                    ({ head with size := some (hs - sz) })) o'.order_id
                    = some o'
                rw [assocGet_alias_ne c.order_id_to_order head.order_id _ _
                  hne']
                exact hal


theorem GoodBook_apply_typed (c : Core) (m : Message) (s : Int) (t : String)
    (c2 : Core) (happ : apply_typed_message c m s t = .ok c2)
    (hg : GoodBook c)
    (hopen : t = "open" → ∀ oid, m.order_id = some oid →
       (dictGet c.order_id_to_order oid = none ∧
        idAbsent c.bids oid ∧ idAbsent c.asks oid) ∧
       (∀ u, dictGet c.order_id_to_unreflected_order oid = some u →
          dictGet c.order_id_to_order u.order_id = none ∧
          idAbsent c.bids u.order_id ∧ idAbsent c.asks u.order_id))
    (hdone : t = "done" → ∀ oid sd p, m.order_id = some oid →
       m.side = some sd → m.price = some p →
       ∀ o, dictGet c.order_id_to_order oid = some o →
         o.side = parseSide sd ∧ o.price = some p)
    (hmatch : t = "match" → ∀ p sz, m.price = some p → m.size = some sz →
       ∀ head rest, ladderGet c.asks p = some (head :: rest) →
         head.size ≠ some sz) :
    GoodBook c2 := by
  unfold apply_typed_message at happ
  split at happ
  · rename_i ht
    obtain ⟨o, base, oid, hoi, hba, hbb, hbd, hid, hadd⟩ :=
      apply_open_inv c m s c2 happ
    obtain ⟨hfr1, hfr2⟩ := hopen ht oid hoi
    have hgb : GoodBook base :=
      GoodBook_congr c base hba.symm hbb.symm hbd.symm hg
    rcases hid with hide | ⟨u, hu, hide⟩
    · refine GoodBook_add base o c2 hadd hgb ?_ ?_ ?_
      · rw [hbd, hide]
        exact hfr1.1
      · rw [hbb, hide]
        exact hfr1.2.1
      · rw [hba, hide]
        exact hfr1.2.2
    · obtain ⟨hf1, hf2, hf3⟩ := hfr2 u hu
      refine GoodBook_add base o c2 hadd hgb ?_ ?_ ?_
      · rw [hbd, hide]
        exact hf1
      · rw [hbb, hide]
        exact hf2
      · rw [hba, hide]
        exact hf3
  split at happ
  · rename_i ht
    obtain ⟨oid, sd, pr, hoi, hsd, hp, hc2⟩ := apply_done_inv c m c2 happ
    rw [hc2]
    exact GoodBook_remove c oid (parseSide sd) pr hg
      (fun o ho => hdone ht.1 oid sd pr hoi hsd hp o ho)
  split at happ
  · rename_i ht
    obtain ⟨sd, mid, tid, pr, szz, hp, hsz, hme⟩ :=
      apply_match_inv c m c2 happ
    exact GoodBook_match_event c (parseSide sd) pr szz mid tid c2 hme hg
      (hmatch ht pr szz hp hsz)
  split at happ
  · obtain ⟨oid, osz, nsz, _, _, _, hch⟩ := apply_change_inv c m c2 happ
    exact GoodBook_change c oid osz nsz c2 hch hg
  split at happ
  · obtain ⟨o, hc2⟩ := apply_received_inv c m s c2 happ
    rw [hc2]
    exact GoodBook_received c o hg
  · cases happ
    exact hg

/-- C4 (amended): I2 is not preserved unconditionally — the recorded
counterexample shows a match that fully fills the resting maker leaves the
maker's id in `_order_id_to_order` with no ladder entry (by design: the
follow-up `done` is expected to clean it up).  On a state satisfying the
aliasing strengthening `GoodBook` (which implies I2), every successfully
applied event whose data is consistent with the book — an `open` whose order
id is fresh, a `done` whose side and price agree with the stored order, and a
`match` that does not fully fill the head of its price level — yields a state
again satisfying `GoodBook`, and hence I2. -/
theorem claim_c4_amended (c : Core) (m : Message) (c2 : Core)
    (hg : GoodBook c) (hok : update_order_book c m = .ok c2)
    (hopen : m.type = some "open" → ∀ oid, m.order_id = some oid →
       (dictGet c.order_id_to_order oid = none ∧
        idAbsent c.bids oid ∧ idAbsent c.asks oid) ∧
       (∀ u, dictGet c.order_id_to_unreflected_order oid = some u →
          dictGet c.order_id_to_order u.order_id = none ∧
          idAbsent c.bids u.order_id ∧ idAbsent c.asks u.order_id))
    (hdone : m.type = some "done" → ∀ oid sd p, m.order_id = some oid →
       m.side = some sd → m.price = some p →
       ∀ o, dictGet c.order_id_to_order oid = some o →
         o.side = parseSide sd ∧ o.price = some p)
    (hmatch : m.type = some "match" → ∀ p sz, m.price = some p →
       m.size = some sz → ∀ head rest,
         ladderGet c.asks p = some (head :: rest) → head.size ≠ some sz) :
    GoodBook c2 ∧ I2 c2 := by
  cases hs : m.sequence with
  | none => rw [update_no_sequence_field c m hs] at hok; cases hok
  | some s =>
      by_cases hle : s ≤ c.sequence
      · rw [update_discard c m s hs hle] at hok
        cases hok
        exact ⟨hg, GoodBook_I2 c hg⟩
      · by_cases hgt : c.sequence + 1 < s
        · rw [update_gap c m s hs hgt] at hok
          cases hok
        · cases ht : m.type with
          | none =>
              rw [update_no_type_field c m s hs hle hgt ht] at hok
              cases hok
          | some t =>
              rw [update_shape c m s t hs hle hgt ht] at hok
              cases happ : apply_typed_message c m s t with
              | error e =>
                  rw [happ] at hok
                  simp only [Except.map] at hok
                  cases hok
              | ok c3 =>
                  rw [happ] at hok
                  simp only [Except.map] at hok
                  cases hok
                  have h3 : GoodBook c3 :=
                    GoodBook_apply_typed c m s t c3 happ hg
                      (fun htt => hopen (by rw [ht, htt]))
                      (fun htt => hdone (by rw [ht, htt]))
                      (fun htt => hmatch (by rw [ht, htt]))
                  have h4 : GoodBook { c3 with sequence := s } :=
                    GoodBook_congr c3 _ rfl rfl rfl h3
                  exact ⟨h4, GoodBook_I2 _ h4⟩

theorem claim_c4_amended_witness :
    GoodBook { asks := [(10, [⟨none, 100, "ETH-USD", "M", "limit", Side.sell,
                               some 10, some (1/4), none⟩])]
               bids := [(9, [⟨none, 100, "ETH-USD", "B", "limit", Side.buy,
                              some 9, some 1, none⟩])]
               order_id_to_order :=
                 [("B", ⟨none, 100, "ETH-USD", "B", "limit", Side.buy,
                         some 9, some 1, none⟩),
                  ("M", ⟨none, 100, "ETH-USD", "M", "limit", Side.sell,
                         some 10, some (1/4), none⟩)]
               order_id_to_unreflected_order := []
               sequence := 101 } ∧
    I2 { asks := [(10, [⟨none, 100, "ETH-USD", "M", "limit", Side.sell,
                         some 10, some (1/4), none⟩])]
         bids := [(9, [⟨none, 100, "ETH-USD", "B", "limit", Side.buy,
                        some 9, some 1, none⟩])]
         order_id_to_order :=
           [("B", ⟨none, 100, "ETH-USD", "B", "limit", Side.buy,
                   some 9, some 1, none⟩),
            ("M", ⟨none, 100, "ETH-USD", "M", "limit", Side.sell,
                   some 10, some (1/4), none⟩)]
         order_id_to_unreflected_order := []
         sequence := 101 } :=
  claim_c4_amended i1State i1PartialMsg _ (by decide) (by decide)
    (fun hty => absurd hty (by decide))
    (fun hty => absurd hty (by decide))
    (fun _ p sz hp hsz head rest hget => by
      injection hp with hp2
      injection hsz with hsz2
      subst hp2
      subst hsz2
      have hg2 : ladderGet i1State.asks 10
          = some [(⟨none, 100, "ETH-USD", "M", "limit", Side.sell,
                    some 10, some (1/2), none⟩ : Order)] := by decide
      rw [hg2] at hget
      injection hget with h1
      injection h1 with h2 h3
      rw [← h2]
      decide)


end GdaxAsync
